import Mathlib

/-!
# pictDB: a shallow embedding of the catalog operations

The C library under `src/pictDBM` keeps a header, a table of `max_files`
metadata slots and a region of appended payloads in one file.  This
development embeds `do_create`, `do_insert`, `do_read`, `do_delete`,
`do_name_and_content_dedup` and `lazily_resize` as pure functions over an
explicit state and proves properties of them.

Modelling conventions.

* A C string is modelled by its contents, the list of bytes before the
  terminator.  Bytes and machine integers are natural numbers; a store into a
  narrower unsigned field reduces modulo `2 ^ w` where the value can exceed it.
* The metadata table is the memory behind the `metadata` pointer, a total map
  from indices to slots.  Indices at or beyond `max_files` are outside the
  allocated table in C; the map keeps such accesses representable.
* The stream `fpdb` is a byte list with a cursor.  A seek always succeeds; a
  write of zero bytes and a read of zero bytes or past the end transfer no
  item, as in the C library.  Allocation always succeeds.  Null arguments are
  excluded by the types.
* SHA-256 and the JPEG codec are external libraries and are parameters.
* A `for` loop over the table is a recursion on the number of iterations left.
  A `while` loop is a recursion on a fuel argument; the callers pass enough
  fuel, and a lemma named `_exit` proves for each loop that the index it
  returns falsifies the loop condition.
* File positions are far below `2 ^ 63`, so `ftell` and the 64-bit `offset`
  fields hold them exactly; an index passed as `uint32_t` is at most
  `max_files`, itself a 32-bit value.  A resolution code outside `0..2` reads
  `0` from a `size` or `offset` array and a store through it is dropped.
-/

namespace PictDB

/-! ## Constants of `pictDB.h` -/

abbrev MAX_DB_NAME : Nat := 31
abbrev MAX_PIC_ID : Nat := 127
abbrev MAX_MAX_FILES : Nat := 100000
abbrev EMPTY : Nat := 0
abbrev NON_EMPTY : Nat := 1
abbrev RES_THUMB : Nat := 0
abbrev RES_SMALL : Nat := 1
abbrev RES_ORIG : Nat := 2
abbrev NB_RES : Nat := 3
abbrev SHA256_DIGEST_LENGTH : Nat := 32

/-- The bytes of `CAT_TXT`, the string "EPFL PictDB binary". -/
def CAT_TXT : List Nat :=
  [69, 80, 70, 76, 32, 80, 105, 99, 116, 68, 66, 32, 98, 105, 110, 97, 114, 121]

/-- Modelled from the spec: `error.h` is not among the sources; these are the
return codes the library functions use, `ZERO` being the success value `0` and
the others the distinct non-zero codes of the error taxonomy. -/
inductive ret_code where
  | ZERO
  | ERR_IO
  | ERR_OUT_OF_MEMORY
  | ERR_INVALID_ARGUMENT
  | ERR_FULL_DATABASE
  | ERR_FILE_NOT_FOUND
  | ERR_DUPLICATE_ID
  | ERR_VIPS
  deriving DecidableEq, Repr

open ret_code

/-! ## Data model -/

/-- An array indexed by resolution code (`size[NB_RES]`, `offset[NB_RES]`). -/
structure res_array where
  thumb : Nat
  small : Nat
  orig : Nat
  deriving DecidableEq, Repr

/-- Read `a[res]`. -/
def res_array.get (a : res_array) (res : Nat) : Nat :=
  if res = RES_THUMB then a.thumb
  else if res = RES_SMALL then a.small
  else if res = RES_ORIG then a.orig
  else 0

/-- Store `a[res] = v`. -/
def res_array.set (a : res_array) (res : Nat) (v : Nat) : res_array :=
  if res = RES_THUMB then { a with thumb := v }
  else if res = RES_SMALL then { a with small := v }
  else if res = RES_ORIG then { a with orig := v }
  else a

/-- The record `struct pictdb_header`. -/
structure pictdb_header where
  db_name : List Nat
  db_version : Nat
  num_files : Nat
  max_files : Nat
  res_resized : List Nat
  unused_32 : Nat
  unused_64 : Nat
  deriving DecidableEq, Repr

/-- The record `struct pict_metadata`; `res_orig` is the pair
`(res_orig[0], res_orig[1])`. -/
structure pict_metadata where
  pict_id : List Nat
  SHA : List Nat
  res_orig : Nat × Nat
  size : res_array
  offset : res_array
  is_valid : Nat
  unused_16 : Nat
  deriving DecidableEq, Repr

/-- A stream: the bytes of the file and the cursor. -/
structure FILE where
  bytes : List Nat
  pos : Nat
  deriving DecidableEq, Repr

/-- The handle `struct pictdb_file`. -/
structure pictdb_file where
  fpdb : FILE
  header : pictdb_header
  metadata : Nat → pict_metadata

/-- The external libraries: the hash and the JPEG codec.
`vips_size` stands for `vips_jpegload_buffer` followed by
`vips_image_get_width` and `vips_image_get_height`, giving `(width, height)`;
`vips_resize` stands for the load, shrink-to-fit and `vips_jpegsave_buffer`
sequence of `create_image`.  `none` is a codec failure. -/
structure externals where
  SHA256 : List Nat → List Nat
  vips_size : List Nat → Option (Nat × Nat)
  vips_resize : List Nat → Nat → Nat → Option (List Nat)

/-- A slot of a table obtained from `calloc`: all bytes zero. -/
def zero_metadata : pict_metadata :=
  { pict_id := [], SHA := List.replicate SHA256_DIGEST_LENGTH 0, res_orig := (0, 0),
    size := ⟨0, 0, 0⟩, offset := ⟨0, 0, 0⟩, is_valid := 0, unused_16 := 0 }

/-! ## Object representation (x86-64, little-endian) -/

/-- The `w` little-endian bytes of an unsigned integer. -/
def le_bytes : Nat → Nat → List Nat
  | 0, _ => []
  | w + 1, v => (v % 256) :: le_bytes w (v / 256)

/-- A character array of `n` bytes holding the string `l`, zero filled. -/
def fixed_bytes (n : Nat) (l : List Nat) : List Nat :=
  (l.map (fun b => b % 256)).take n ++ List.replicate (n - l.length) 0

abbrev sizeof_header : Nat := 64
abbrev sizeof_metadata : Nat := 216

/-- The bytes `fwrite` sends for a header. -/
def header_bytes (h : pictdb_header) : List Nat :=
  fixed_bytes (MAX_DB_NAME + 1) h.db_name
    ++ le_bytes 4 h.db_version ++ le_bytes 4 h.num_files ++ le_bytes 4 h.max_files
    ++ le_bytes 2 (h.res_resized.getD 0 0) ++ le_bytes 2 (h.res_resized.getD 1 0)
    ++ le_bytes 2 (h.res_resized.getD 2 0) ++ le_bytes 2 (h.res_resized.getD 3 0)
    ++ le_bytes 4 h.unused_32 ++ le_bytes 8 h.unused_64

/-- The bytes `fwrite` sends for a metadata slot (with the alignment padding
before `offset` and at the end of the record). -/
def metadata_bytes (m : pict_metadata) : List Nat :=
  fixed_bytes (MAX_PIC_ID + 1) m.pict_id
    ++ fixed_bytes SHA256_DIGEST_LENGTH m.SHA
    ++ le_bytes 4 m.res_orig.1 ++ le_bytes 4 m.res_orig.2
    ++ le_bytes 4 m.size.thumb ++ le_bytes 4 m.size.small ++ le_bytes 4 m.size.orig
    ++ List.replicate 4 0
    ++ le_bytes 8 m.offset.thumb ++ le_bytes 8 m.offset.small ++ le_bytes 8 m.offset.orig
    ++ le_bytes 2 m.is_valid ++ le_bytes 2 m.unused_16
    ++ List.replicate 4 0

/-! ## The stream operations -/

/-- Overwrite `bytes` from position `pos` with `buf`; a gap before `pos` is
filled with zeros. -/
def write_at (bytes : List Nat) (pos : Nat) (buf : List Nat) : List Nat :=
  bytes.take pos ++ List.replicate (pos - bytes.length) 0 ++ buf
    ++ bytes.drop (pos + buf.length)

/-- The call `fseek(f, off, SEEK_SET)`. -/
def fseek_set (f : FILE) (off : Nat) : FILE := { f with pos := off }

/-- The call `fseek(f, off, SEEK_CUR)`. -/
def fseek_cur (f : FILE) (off : Nat) : FILE := { f with pos := f.pos + off }

/-- The call `fseek(f, 0, SEEK_END)`. -/
def fseek_end (f : FILE) : FILE := { f with pos := f.bytes.length }

/-- The call `ftell(f)`. -/
def ftell (f : FILE) : Nat := f.pos

/-- The call `fwrite(buf, size, 1, f)` with `size` the length of `buf`: the
number of items written and the stream afterwards. -/
def fwrite (buf : List Nat) (f : FILE) : Nat × FILE :=
  if buf.length = 0 then (0, f)
  else (1, { bytes := write_at f.bytes f.pos buf, pos := f.pos + buf.length })

/-- The call `fread(p, size, 1, f)`: the number of items read, the buffer and
the stream afterwards. -/
def fread (size : Nat) (f : FILE) : Nat × List Nat × FILE :=
  if size = 0 then (0, [], f)
  else if f.pos + size ≤ f.bytes.length then
    (1, (f.bytes.drop f.pos).take size, { f with pos := f.pos + size })
  else (0, f.bytes.drop f.pos, { f with pos := max f.pos f.bytes.length })

/-! ## String functions -/

/-- The test `strcmp(a, b)`: `0` exactly when the strings are equal (the sign
of a non-zero result is not used by the library). -/
def strcmp (a b : List Nat) : Nat := if a = b then 0 else 1

/-- The test `strncmp(a, b, n)`: `0` exactly when the first `n` characters
agree. -/
def strncmp (a b : List Nat) (n : Nat) : Nat := if a.take n = b.take n then 0 else 1

/-- The string left in a zero-terminated destination by `strncpy(dst, src, n)`. -/
def strncpy (src : List Nat) (n : Nat) : List Nat := src.take n

/-! ## `dedup.c` -/

/-- The loop of `compare_SHA` from position `i` with `n` positions left. -/
def compare_SHA_loop (a b : List Nat) : Nat → Nat → Nat
  | 0, _ => 0
  | n + 1, i => if a.getD i 0 ≠ b.getD i 0 then 1 else compare_SHA_loop a b n (i + 1)

/-- The function `compare_SHA`: `0` if the digests are identical, `1` otherwise. -/
def compare_SHA (a b : List Nat) : Nat := compare_SHA_loop a b SHA256_DIGEST_LENGTH 0

/-- Slot `index` after the copy loop `for j < NB_RES` of the dedup: sizes and
offsets of slot `i`. -/
def dedup_copy (db : pictdb_file) (index i : Nat) : pictdb_file :=
  let m := db.metadata index
  let m1 := { m with size := (db.metadata i).size, offset := (db.metadata i).offset }
  { db with metadata := Function.update db.metadata index m1 }

/-- The `for` loop of `do_name_and_content_dedup` at counter `i` with `n`
iterations left, followed by the code after the loop. -/
def dedup_loop (index : Nat) : Nat → Nat → pictdb_file → ret_code × pictdb_file
  | 0, _, db =>
    let m := db.metadata index
    let m1 := { m with offset := m.offset.set RES_ORIG 0 }
    ( ZERO, { db with metadata := Function.update db.metadata index m1 })
  | n + 1, i, db =>
    if i ≠ index ∧ (db.metadata i).is_valid = NON_EMPTY then
      if strncmp (db.metadata i).pict_id (db.metadata index).pict_id MAX_PIC_ID = 0 then
        ( ERR_DUPLICATE_ID, db)
      else if compare_SHA (db.metadata i).SHA (db.metadata index).SHA = 0 then
        ( ZERO, dedup_copy db index i)
      else dedup_loop index n (i + 1) db
    else dedup_loop index n (i + 1) db

/-- The function `do_name_and_content_dedup`. -/
def do_name_and_content_dedup (db : pictdb_file) (index : Nat) : ret_code × pictdb_file :=
  if index ≥ db.header.max_files ∧ (db.metadata index).is_valid = EMPTY then
    ( ERR_INVALID_ARGUMENT, db)
  else dedup_loop index db.header.max_files 0 db

/-! ## `image_content.c` -/

/-- The function `get_resolution`: the return code and `(height, width)`. -/
def get_resolution (env : externals) (image_buffer : List Nat) : ret_code × Nat × Nat :=
  match env.vips_size image_buffer with
  | none => ( ERR_VIPS, 0, 0)
  | some (w, h) => ( ZERO, h % 2 ^ 32, w % 2 ^ 32)

/-- The function `create_image`. -/
def create_image (env : externals) (res : Nat) (db : pictdb_file) (index : Nat) :
    ret_code × pictdb_file :=
  let f1 := fseek_set db.fpdb ((db.metadata index).offset.get RES_ORIG)
  let len := (db.metadata index).size.get RES_ORIG
  let rd := fread len f1
  if rd.1 ≠ 1 then ( ERR_IO, { db with fpdb := rd.2.2 })
  else
    match env.vips_resize rd.2.1 (db.header.res_resized.getD (2 * res) 0)
        (db.header.res_resized.getD (2 * res + 1) 0) with
    | none => ( ERR_VIPS, { db with fpdb := rd.2.2 })
    | some newContent =>
      let f2 := fseek_end rd.2.2
      let cursorPosition := ftell f2
      let w := fwrite newContent f2
      if w.1 ≠ 1 then ( ERR_IO, { db with fpdb := w.2 })
      else
        let m := db.metadata index
        let m1 := { m with offset := m.offset.set res cursorPosition }
        let m2 := { m1 with size := m1.size.set res (newContent.length % 2 ^ 32) }
        let f3 := fseek_set w.2 (sizeof_header + index * sizeof_metadata)
        let w2 := fwrite (metadata_bytes m2) f3
        if w2.1 ≠ 1 then
          ( ERR_IO, { db with fpdb := w2.2, metadata := Function.update db.metadata index m2 })
        else ( ZERO, { db with fpdb := w2.2, metadata := Function.update db.metadata index m2 })

/-- The function `lazily_resize`. -/
def lazily_resize (env : externals) (res : Nat) (db : pictdb_file) (index : Nat) :
    ret_code × pictdb_file :=
  if res = RES_ORIG then ( ZERO, db)
  else if res ≠ RES_SMALL ∧ res ≠ RES_THUMB then ( ERR_INVALID_ARGUMENT, db)
  else if index ≥ db.header.max_files then ( ERR_INVALID_ARGUMENT, db)
  else if (db.metadata index).size.get res ≠ 0 ∨ (db.metadata index).offset.get res ≠ 0 then
    ( ZERO, db)
  else create_image env res db index

/-! ## `db_insert.c` -/

/-- The function `write_resolutions`. -/
def write_resolutions (env : externals) (img : List Nat) (db : pictdb_file) (index : Nat) :
    ret_code × pictdb_file :=
  let r := get_resolution env img
  if r.1 ≠ ZERO then (r.1, db)
  else
    let m := db.metadata index
    let m1 := { m with res_orig := (r.2.2, r.2.1) }
    ( ZERO, { db with metadata := Function.update db.metadata index m1 })

/-- The first block of `update_memory_and_content`: the image is written at the
end of the file iff `offset[RES_ORIG]` of the slot is `0`. -/
def append_image (img : List Nat) (db : pictdb_file) (index : Nat) : ret_code × pictdb_file :=
  if (db.metadata index).offset.get RES_ORIG = 0 then
    let f1 := fseek_end db.fpdb
    let cursorPosition := ftell f1
    let w := fwrite img f1
    if w.1 ≠ 1 then ( ERR_IO, { db with fpdb := w.2 })
    else
      let m := db.metadata index
      let m1 := { m with offset := m.offset.set RES_ORIG cursorPosition }
      ( ZERO, { db with fpdb := w.2, metadata := Function.update db.metadata index m1 })
  else ( ZERO, db)

/-- The end of `update_memory_and_content`: the header is updated and written
at offset `0`, then the slot is written `index` records after the cursor. -/
def flush_insert (db : pictdb_file) (index : Nat) : ret_code × pictdb_file :=
  let h := { db.header with num_files := (db.header.num_files + 1) % 2 ^ 32 }
  let h1 := { h with db_version := (h.db_version + 1) % 2 ^ 32 }
  let f1 := fseek_set db.fpdb 0
  let w := fwrite (header_bytes h1) f1
  if w.1 ≠ 1 then ( ERR_IO, { db with fpdb := w.2, header := h1 })
  else
    let f2 := fseek_cur w.2 (index * sizeof_metadata)
    let w2 := fwrite (metadata_bytes (db.metadata index)) f2
    if w2.1 ≠ 1 then ( ERR_IO, { db with fpdb := w2.2, header := h1 })
    else ( ZERO, { db with fpdb := w2.2, header := h1 })

/-- The function `update_memory_and_content`. -/
def update_memory_and_content (env : externals) (img : List Nat) (db : pictdb_file)
    (index : Nat) : ret_code × pictdb_file :=
  let a := append_image img db index
  if a.1 ≠ ZERO then a
  else
    let r := write_resolutions env img a.2 index
    if r.1 ≠ ZERO then r
    else flush_insert r.2 index

/-- The duplicate-id loop of `do_insert` at counter `i` with `n` iterations
left: whether it returns `ERR_DUPLICATE_ID`. -/
def insert_id_exists (pict_id : List Nat) (db : pictdb_file) : Nat → Nat → Bool
  | 0, _ => false
  | n + 1, i =>
    if (db.metadata i).is_valid = NON_EMPTY ∧
        strncmp (db.metadata i).pict_id pict_id MAX_PIC_ID = 0 then true
    else insert_id_exists pict_id db n (i + 1)

/-- The `while` loop of `do_insert` looking for a free slot, from `index`,
with `fuel` bounding the iterations. -/
def insert_find_slot (db : pictdb_file) : Nat → Nat → Nat
  | 0, index => index
  | fuel + 1, index =>
    if index < db.header.max_files ∧ (db.metadata index).is_valid = NON_EMPTY then
      insert_find_slot db fuel (index + 1)
    else index

/-- The function `do_insert`; the pair `(img, size)` is the list `img`. -/
def do_insert (env : externals) (img : List Nat) (pict_id : List Nat) (db : pictdb_file) :
    ret_code × pictdb_file :=
  if db.header.num_files = db.header.max_files then ( ERR_FULL_DATABASE, db)
  else if insert_id_exists pict_id db db.header.max_files 0 = true then ( ERR_DUPLICATE_ID, db)
  else
    let index := insert_find_slot db db.header.max_files 0
    let m := db.metadata index
    let m1 := { m with SHA := env.SHA256 img, pict_id := strncpy pict_id MAX_PIC_ID }
    let sz := ((m1.size.set RES_ORIG (img.length % 2 ^ 32)).set RES_THUMB 0).set RES_SMALL 0
    let m2 := { m1 with size := sz }
    let m3 := { m2 with offset := (m2.offset.set RES_THUMB 0).set RES_SMALL 0,
                        is_valid := NON_EMPTY }
    let db1 := { db with metadata := Function.update db.metadata index m3 }
    let d := do_name_and_content_dedup db1 index
    if d.1 ≠ ZERO then d
    else update_memory_and_content env img d.2 index

/-! ## `db_read.c` -/

/-- The inner `while` loop of `do_read`, skipping the slots that are not valid. -/
def read_skip (db : pictdb_file) : Nat → Nat → Nat
  | 0, index => index
  | fuel + 1, index =>
    if (db.metadata index).is_valid = EMPTY ∧ index < db.header.max_files then
      read_skip db fuel (index + 1)
    else index

/-- The outer `while` loop of `do_read`. -/
def read_find (pict_id : List Nat) (db : pictdb_file) : Nat → Nat → Nat
  | 0, index => index
  | fuel + 1, index =>
    if strcmp pict_id (db.metadata index).pict_id ≠ 0 ∧ index < db.header.max_files then
      read_find pict_id db fuel (read_skip db db.header.max_files (index + 1))
    else index

/-- What `do_read` hands back: the return code, `*data`, `*pict_size` and the
handle. -/
structure read_result where
  ret : ret_code
  data : List Nat
  pict_size : Nat
  db : pictdb_file

/-- The function `do_read`. -/
def do_read (env : externals) (pict_id : List Nat) (res : Nat) (db : pictdb_file) :
    read_result :=
  let index := read_find pict_id db (db.header.max_files + 1) 0
  if index ≥ db.header.max_files then ⟨ ERR_FILE_NOT_FOUND, [], 0, db⟩
  else
    let l := if (db.metadata index).offset.get res = 0 ∨ (db.metadata index).size.get res = 0
      then lazily_resize env res db index else ( ZERO, db)
    if l.1 ≠ ZERO then ⟨l.1, [], 0, l.2⟩
    else
      let f1 := fseek_set l.2.fpdb ((l.2.metadata index).offset.get res)
      let pict_size := (l.2.metadata index).size.get res
      let rd := fread pict_size f1
      if rd.1 ≠ 1 then ⟨ ERR_IO, [], pict_size, { l.2 with fpdb := rd.2.2 }⟩
      else ⟨ ZERO, rd.2.1, pict_size, { l.2 with fpdb := rd.2.2 }⟩

/-! ## `db_delete.c` -/

/-- The inner `while` loop of `do_delete`. -/
def delete_skip (db : pictdb_file) : Nat → Nat → Nat
  | 0, index => index
  | fuel + 1, index =>
    if index < db.header.max_files ∧ (db.metadata index).is_valid = EMPTY then
      delete_skip db fuel (index + 1)
    else index

/-- The outer `while` loop of `do_delete`. -/
def delete_find (picture_name : List Nat) (db : pictdb_file) : Nat → Nat → Nat
  | 0, index => index
  | fuel + 1, index =>
    if index < db.header.max_files ∧ strcmp picture_name (db.metadata index).pict_id ≠ 0 then
      delete_find picture_name db fuel (delete_skip db db.header.max_files (index + 1))
    else index

/-- The function `do_delete`.  The decrement of `num_files` is guarded by the
test `num_files == 0`, so it never wraps. -/
def do_delete (picture_name : List Nat) (db : pictdb_file) : ret_code × pictdb_file :=
  if db.header.num_files = 0 then ( ERR_IO, db)
  else
    let index := delete_find picture_name db (db.header.max_files + 1) 0
    if index ≥ db.header.max_files then ( ERR_FILE_NOT_FOUND, db)
    else
      let pict_position := sizeof_header + index * sizeof_metadata
      let m0 := db.metadata index
      let m := { m0 with is_valid := EMPTY }
      let db1 := { db with metadata := Function.update db.metadata index m }
      let f1 := fseek_set db1.fpdb pict_position
      let w := fwrite (metadata_bytes m) f1
      if w.1 = 1 then
        let h := { db1.header with db_version := (db1.header.db_version + 1) % 2 ^ 32 }
        let h1 := { h with num_files := h.num_files - 1 }
        let f2 := fseek_set w.2 0
        let w2 := fwrite (header_bytes h1) f2
        if w2.1 ≠ 1 then ( ERR_IO, { db1 with fpdb := w2.2, header := h1 })
        else ( ZERO, { db1 with fpdb := w2.2, header := h1 })
      else ( ERR_IO, { db1 with fpdb := w.2 })

/-! ## `db_create.c` -/

/-- The bytes of the first `n` slots of a table, as `fwrite` sends them. -/
def table_bytes (metadata : Nat → pict_metadata) (n : Nat) : List Nat :=
  (List.range n).flatMap (fun i => metadata_bytes (metadata i))

/-- The function `do_create` on a handle whose `max_files` and `res_resized`
are set; the file is opened with mode `w+b`, hence empty. -/
def do_create (db : pictdb_file) : ret_code × pictdb_file :=
  let h := { db.header with db_name := strncpy CAT_TXT MAX_DB_NAME }
  let h1 := { h with db_version := 0, num_files := 0 }
  let metadata : Nat → pict_metadata := fun _ => { zero_metadata with is_valid := 0 }
  let f0 : FILE := { bytes := [], pos := 0 }
  let w := fwrite (header_bytes h1) f0
  let f2 : FILE := { bytes := write_at w.2.bytes w.2.pos (table_bytes metadata h1.max_files),
                     pos := w.2.pos + (table_bytes metadata h1.max_files).length }
  if w.1 ≠ 1 then ( ERR_IO, { fpdb := f2, header := h1, metadata := metadata })
  else ( ZERO, { fpdb := f2, header := h1, metadata := metadata })

/-! ## Invariants of the data model -/

/-- The size of the catalog: the header followed by `max_files` slots. -/
def catalog_size (db : pictdb_file) : Nat :=
  sizeof_header + db.header.max_files * sizeof_metadata

/-- The number of slots of the table whose `is_valid` is `NON_EMPTY`. -/
def count_valid (db : pictdb_file) : Nat :=
  (List.range db.header.max_files).countP (fun i => decide ((db.metadata i).is_valid = NON_EMPTY))

/-- The bytes of the file at `offset[RES_ORIG]`, `size[RES_ORIG]` of slot `i`. -/
def stored_orig (db : pictdb_file) (i : Nat) : List Nat :=
  (db.fpdb.bytes.drop ((db.metadata i).offset.get RES_ORIG)).take
    ((db.metadata i).size.get RES_ORIG)

/-- The file holds the header and the whole table before any payload. -/
def catalog_persisted (db : pictdb_file) : Prop := catalog_size db ≤ db.fpdb.bytes.length

/-- The header counts the valid slots. -/
def count_inv (db : pictdb_file) : Prop := db.header.num_files = count_valid db

/-- Every valid slot has a non-zero original offset and size. -/
def orig_inv (db : pictdb_file) : Prop :=
  ∀ i, i < db.header.max_files → (db.metadata i).is_valid = NON_EMPTY →
    (db.metadata i).offset.get RES_ORIG ≠ 0 ∧ 0 < (db.metadata i).size.get RES_ORIG

/-- The original payload of every valid slot lies in the payload region of the
file. -/
def payload_inv (db : pictdb_file) : Prop :=
  ∀ i, i < db.header.max_files → (db.metadata i).is_valid = NON_EMPTY →
    catalog_size db ≤ (db.metadata i).offset.get RES_ORIG ∧
    (db.metadata i).offset.get RES_ORIG + (db.metadata i).size.get RES_ORIG
      ≤ db.fpdb.bytes.length

/-- The `SHA` field of every valid slot is the digest of its stored original
payload. -/
def sha_inv (env : externals) (db : pictdb_file) : Prop :=
  ∀ i, i < db.header.max_files → (db.metadata i).is_valid = NON_EMPTY →
    compare_SHA (db.metadata i).SHA (env.SHA256 (stored_orig db i)) = 0

/-- The valid slots carry pairwise distinct identifiers. -/
def unique_inv (db : pictdb_file) : Prop :=
  ∀ i, i < db.header.max_files → ∀ j, j < db.header.max_files →
    ((db.metadata i).is_valid = NON_EMPTY ∧ (db.metadata j).is_valid = NON_EMPTY ∧ i ≠ j) →
    (db.metadata i).pict_id ≠ (db.metadata j).pict_id

/-- Two valid slots with the same digest share the original offset and size. -/
def dedup_inv (db : pictdb_file) : Prop :=
  ∀ i, i < db.header.max_files → ∀ j, j < db.header.max_files →
    ((db.metadata i).is_valid = NON_EMPTY ∧ (db.metadata j).is_valid = NON_EMPTY ∧
      compare_SHA (db.metadata i).SHA (db.metadata j).SHA = 0) →
    (db.metadata i).offset.get RES_ORIG = (db.metadata j).offset.get RES_ORIG ∧
    (db.metadata i).size.get RES_ORIG = (db.metadata j).size.get RES_ORIG

/-- A derivative of a valid slot has a zero offset exactly when it has a zero
size. -/
def deriv_inv (db : pictdb_file) : Prop :=
  ∀ i, i < db.header.max_files → (db.metadata i).is_valid = NON_EMPTY →
    ((db.metadata i).offset.get RES_THUMB = 0 ↔ (db.metadata i).size.get RES_THUMB = 0) ∧
    ((db.metadata i).offset.get RES_SMALL = 0 ↔ (db.metadata i).size.get RES_SMALL = 0)

/-- The invariants of the data model together. -/
def db_invariants (env : externals) (db : pictdb_file) : Prop :=
  catalog_persisted db ∧ count_inv db ∧ orig_inv db ∧ payload_inv db ∧ sha_inv env db ∧
    unique_inv db ∧ dedup_inv db ∧ deriv_inv db ∧ db.header.max_files ≤ MAX_MAX_FILES

instance (db : pictdb_file) : Decidable (catalog_persisted db) := by
  unfold catalog_persisted; infer_instance

instance (db : pictdb_file) : Decidable (count_inv db) := by
  unfold count_inv; infer_instance

instance (db : pictdb_file) : Decidable (orig_inv db) := by
  unfold orig_inv; infer_instance

instance (db : pictdb_file) : Decidable (payload_inv db) := by
  unfold payload_inv; infer_instance

instance (env : externals) (db : pictdb_file) : Decidable (sha_inv env db) := by
  unfold sha_inv; infer_instance

instance (db : pictdb_file) : Decidable (unique_inv db) := by
  unfold unique_inv; infer_instance

instance (db : pictdb_file) : Decidable (dedup_inv db) := by
  unfold dedup_inv; infer_instance

instance (db : pictdb_file) : Decidable (deriv_inv db) := by
  unfold deriv_inv; infer_instance

instance (env : externals) (db : pictdb_file) : Decidable (db_invariants env db) := by
  unfold db_invariants; infer_instance

/-! ## Concrete collaborators and databases used to exercise the model -/

/-- A stand-in hash (the first 32 bytes, zero filled) and a stand-in codec. -/
def toy_env : externals :=
  { SHA256 := fun b => fixed_bytes SHA256_DIGEST_LENGTH b,
    vips_size := fun _ => some (4, 3),
    vips_resize := fun b _ _ => some (b.take 1) }

/-- A handle prepared for `do_create` with capacity `n`. -/
def blank_db (n : Nat) : pictdb_file :=
  { fpdb := { bytes := [], pos := 0 },
    header := { db_name := [], db_version := 0, num_files := 0, max_files := n,
                res_resized := [64, 64, 256, 256], unused_32 := 0, unused_64 := 0 },
    metadata := fun _ => zero_metadata }

/-- A freshly created database with capacity `n`. -/
def fresh_db (n : Nat) : pictdb_file := (do_create (blank_db n)).2

/-! ## Closed forms used in the statements -/

/-- The slot `index` as `do_insert` fills it before calling the dedup engine. -/
def populated_slot (env : externals) (img pict_id : List Nat) (old : pict_metadata) :
    pict_metadata :=
  { pict_id := strncpy pict_id MAX_PIC_ID, SHA := env.SHA256 img, res_orig := old.res_orig,
    size := ⟨0, 0, img.length % 2 ^ 32⟩, offset := ⟨0, 0, old.offset.orig⟩,
    is_valid := NON_EMPTY, unused_16 := old.unused_16 }

/-- The header after a mutation that adds one picture. -/
def header_after_insert (h : pictdb_header) : pictdb_header :=
  { h with num_files := (h.num_files + 1) % 2 ^ 32, db_version := (h.db_version + 1) % 2 ^ 32 }

/-- The handle with slot `index` of the table replaced by `m`. -/
def set_slot (db : pictdb_file) (index : Nat) (m : pict_metadata) : pictdb_file :=
  { db with metadata := Function.update db.metadata index m }

/-- A database of capacity 2 holding the payload `[1, 2, 3]` under the
identifier `a`. -/
def one_db : pictdb_file := (do_insert toy_env [1, 2, 3] [97] (fresh_db 2)).2

/-- The database of capacity 1 after inserting `[1, 2, 3]` as `a` and deleting
`a`. -/
def deleted_db : pictdb_file :=
  (do_delete [97] (do_insert toy_env [1, 2, 3] [97] (fresh_db 1)).2).2

/-- The database of capacity 2 holding `a` and `b`. -/
def two_db : pictdb_file := (do_insert toy_env [4, 5] [98] one_db).2

/-- The database `two_db` after deleting `a`: slot 0 is a tombstone that still
carries the identifier `a`, slot 1 holds `b`. -/
def tombstone_db : pictdb_file := (do_delete [97] two_db).2

/-- A database of capacity 3 in which slots 0 (`a`) and 1 (`c`) share the
payload `[1, 2, 3]` and only slot 1 has a thumbnail. -/
def shared_db : pictdb_file :=
  (do_read toy_env [99] RES_THUMB
    (do_insert toy_env [1, 2, 3] [99] (do_insert toy_env [1, 2, 3] [97] (fresh_db 3)).2).2).db

/-- The database `tombstone_db` after a second `do_delete` of `a`: the header
counts no picture while slot 1 still holds `b`. -/
def undercount_db : pictdb_file := (do_delete [97] tombstone_db).2

/-- The step of `do_read` that calls `lazily_resize` when the requested
resolution has a zero offset or a zero size. -/
def resize_if_missing (env : externals) (res : Nat) (db : pictdb_file) (index : Nat) :
    ret_code × pictdb_file :=
  if (db.metadata index).offset.get res = 0 ∨ (db.metadata index).size.get res = 0 then
    lazily_resize env res db index
  else ( ZERO, db)


/-! ## Reachable states -/

/-- The states reached from a successful `do_create` by successful calls of
`do_insert`, `do_delete` and `do_read`; `ok` is a condition on the inserted
payloads. -/
inductive reachable (env : externals) (ok : List Nat → Prop) : pictdb_file → Prop where
  | create (db : pictdb_file) (h : (do_create db).1 = ZERO) : reachable env ok (do_create db).2
  | insert (db : pictdb_file) (img pict_id : List Nat) (hr : reachable env ok db)
      (hok : ok img) (h : (do_insert env img pict_id db).1 = ZERO) :
      reachable env ok (do_insert env img pict_id db).2
  | delete (db : pictdb_file) (picture_name : List Nat) (hr : reachable env ok db)
      (h : (do_delete picture_name db).1 = ZERO) : reachable env ok (do_delete picture_name db).2
  | read (db : pictdb_file) (pict_id : List Nat) (res : Nat) (hr : reachable env ok db)
      (h : (do_read env pict_id res db).ret = ZERO) :
      reachable env ok (do_read env pict_id res db).db

/-- A payload whose length fits the 32-bit `size` field. -/
def fits_uint32 (img : List Nat) : Prop := img.length < 2 ^ 32

instance (img : List Nat) : Decidable (fits_uint32 img) := by
  unfold fits_uint32; infer_instance

/-- Every valid slot has its original payload at or after the end of the
catalog. -/
def orig_region_inv (db : pictdb_file) : Prop :=
  ∀ i, i < db.header.max_files → (db.metadata i).is_valid = NON_EMPTY →
    catalog_size db ≤ (db.metadata i).offset.get RES_ORIG

/-- Every valid slot has a non-zero original size. -/
def orig_size_inv (db : pictdb_file) : Prop :=
  ∀ i, i < db.header.max_files → (db.metadata i).is_valid = NON_EMPTY →
    0 < (db.metadata i).size.get RES_ORIG

/-- The invariants on the metadata that every reachable state satisfies. -/
def meta_inv (db : pictdb_file) : Prop :=
  catalog_persisted db ∧ orig_region_inv db ∧ unique_inv db ∧ dedup_inv db ∧ deriv_inv db

/-! ## The catalog on disk -/

/-- The `len` bytes of the file from position `pos`. -/
def file_slice (bytes : List Nat) (pos len : Nat) : List Nat := (bytes.drop pos).take len

/-- The header at file offset `0` and every slot `k < max_files` at offset
`sizeof(header) + k * sizeof(metadata)` are the object representations of the
header and slots of the handle. -/
def persisted (db : pictdb_file) : Prop :=
  file_slice db.fpdb.bytes 0 sizeof_header = header_bytes db.header ∧
    ∀ k, k < db.header.max_files →
      file_slice db.fpdb.bytes (sizeof_header + k * sizeof_metadata) sizeof_metadata
        = metadata_bytes (db.metadata k)

instance (db : pictdb_file) : Decidable (persisted db) := by
  unfold persisted; infer_instance

/-! ## `db_utils.c`: `do_open` -/

/-- The unsigned integer held by little-endian bytes. -/
def le_value : List Nat → Nat
  | [] => 0
  | b :: bs => b + 256 * le_value bs

/-- The string held by a character array: the bytes before the first zero. -/
def c_string (bytes : List Nat) : List Nat := bytes.takeWhile (fun b => decide (b ≠ 0))

/-- The header whose object representation is `b` (what `fread` leaves in
`db_file->header`). -/
def decode_header (b : List Nat) : pictdb_header :=
  { db_name := c_string (file_slice b 0 (MAX_DB_NAME + 1)),
    db_version := le_value (file_slice b 32 4),
    num_files := le_value (file_slice b 36 4),
    max_files := le_value (file_slice b 40 4),
    res_resized := [le_value (file_slice b 44 2), le_value (file_slice b 46 2),
      le_value (file_slice b 48 2), le_value (file_slice b 50 2)],
    unused_32 := le_value (file_slice b 52 4),
    unused_64 := le_value (file_slice b 56 8) }

/-- The slot whose object representation is `b`. -/
def decode_metadata (b : List Nat) : pict_metadata :=
  { pict_id := c_string (file_slice b 0 (MAX_PIC_ID + 1)),
    SHA := file_slice b 128 SHA256_DIGEST_LENGTH,
    res_orig := (le_value (file_slice b 160 4), le_value (file_slice b 164 4)),
    size := ⟨le_value (file_slice b 168 4), le_value (file_slice b 172 4),
      le_value (file_slice b 176 4)⟩,
    offset := ⟨le_value (file_slice b 184 8), le_value (file_slice b 192 8),
      le_value (file_slice b 200 8)⟩,
    is_valid := le_value (file_slice b 208 2),
    unused_16 := le_value (file_slice b 210 2) }

/-- The call `fread(p, size, nmemb, f)` for `size > 0`: the number of complete
items read, the bytes of these items and the stream afterwards. -/
def fread_items (size nmemb : Nat) (f : FILE) : Nat × List Nat × FILE :=
  let n := min nmemb ((f.bytes.length - f.pos) / size)
  (n, (f.bytes.drop f.pos).take (n * size),
    { f with pos := min (f.pos + nmemb * size) (max f.pos f.bytes.length) })

/-- The function `do_open` on an existing file with contents `bytes` (`fopen`
succeeds).  The table is the zeroed allocation of `max_files` slots into which
the items read are stored; the handle of a failed call has no table. -/
def do_open (bytes : List Nat) : ret_code × pictdb_file :=
  let f0 : FILE := { bytes := bytes, pos := 0 }
  let rd := fread sizeof_header f0
  let header := decode_header rd.2.1
  if rd.1 ≠ 1 then ( ERR_IO, { fpdb := rd.2.2, header := header, metadata := fun _ => zero_metadata })
  else if header.max_files > MAX_MAX_FILES then
    ( ERR_IO, { fpdb := rd.2.2, header := header, metadata := fun _ => zero_metadata })
  else
    let rn := fread_items sizeof_metadata header.max_files rd.2.2
    let metadata : Nat → pict_metadata := fun k =>
      if k < rn.1 then decode_metadata (file_slice rn.2.1 (k * sizeof_metadata) sizeof_metadata)
      else zero_metadata
    if rn.1 ≠ header.max_files then
      ( ERR_IO, { fpdb := rn.2.2, header := header, metadata := metadata })
    else ( ZERO, { fpdb := rn.2.2, header := header, metadata := metadata })

/-- A string that fits a character array of `n + 1` bytes: at most `n`
characters, none of them zero. -/
def c_string_ok (n : Nat) (s : List Nat) : Prop := s.length ≤ n ∧ ∀ b, b ∈ s → 0 < b ∧ b < 256

instance (n : Nat) (s : List Nat) : Decidable (c_string_ok n s) := by
  unfold c_string_ok; infer_instance

/-- The fields of the header are in the range of their C types. -/
def header_typed (h : pictdb_header) : Prop :=
  c_string_ok MAX_DB_NAME h.db_name ∧ h.db_version < 2 ^ 32 ∧ h.num_files < 2 ^ 32 ∧
    h.max_files < 2 ^ 32 ∧ h.res_resized.length = 2 * (NB_RES - 1) ∧
    (∀ x, x ∈ h.res_resized → x < 2 ^ 16) ∧ h.unused_32 < 2 ^ 32 ∧ h.unused_64 < 2 ^ 64

instance (h : pictdb_header) : Decidable (header_typed h) := by
  unfold header_typed; infer_instance

/-- The fields of a slot are in the range of their C types. -/
def metadata_typed (m : pict_metadata) : Prop :=
  c_string_ok MAX_PIC_ID m.pict_id ∧ m.SHA.length = SHA256_DIGEST_LENGTH ∧
    (∀ b, b ∈ m.SHA → b < 256) ∧ m.res_orig.1 < 2 ^ 32 ∧ m.res_orig.2 < 2 ^ 32 ∧
    m.size.thumb < 2 ^ 32 ∧ m.size.small < 2 ^ 32 ∧ m.size.orig < 2 ^ 32 ∧
    m.offset.thumb < 2 ^ 64 ∧ m.offset.small < 2 ^ 64 ∧ m.offset.orig < 2 ^ 64 ∧
    m.is_valid < 2 ^ 16 ∧ m.unused_16 < 2 ^ 16

instance (m : pict_metadata) : Decidable (metadata_typed m) := by
  unfold metadata_typed; infer_instance

/-! ## `db_list.c`: the `JSON` mode -/

/-- The `for` loop of the `JSON` branch of `do_list` at counter `i` with `n`
iterations left; `array` holds the strings added so far by
`json_object_array_add`. -/
def do_list_json_loop (file : pictdb_file) : Nat → Nat → List (List Nat) → List (List Nat)
  | 0, _, array => array
  | n + 1, i, array =>
    if (file.metadata i).is_valid ≠ EMPTY then
      do_list_json_loop file n (i + 1) (array ++ [(file.metadata i).pict_id])
    else do_list_json_loop file n (i + 1) array

/-- The array that `do_list(file, JSON)` stores under the key "Pictures". -/
def do_list_json_array (file : pictdb_file) : List (List Nat) :=
  do_list_json_loop file file.header.max_files 0 []

/-! ## `db_gbcollect.c` -/

/-- The function `initialize_pictdb`: the four entries of `res_resized` and
`max_files` of `db_file` are stored into the header of `db_temp`. -/
def initialize_pictdb (db_file db_temp : pictdb_file) : pictdb_file :=
  let r := [db_file.header.res_resized.getD RES_THUMB 0,
    db_file.header.res_resized.getD (RES_THUMB + 1) 0,
    db_file.header.res_resized.getD (2 * RES_SMALL) 0,
    db_file.header.res_resized.getD (2 * RES_SMALL + 1) 0]
  let h := { db_temp.header with res_resized := r }
  let h1 := { h with max_files := db_file.header.max_files }
  { db_temp with header := h1 }

/-- The call `do_read(pict_id, res, ..., &db_temp)` that `do_gbcollect` makes
when the source slot has a non-zero offset for the derivative `res`. -/
def gbcollect_derivative (env : externals) (db_file db_temp : pictdb_file) (i res : Nat) :
    ret_code × pictdb_file :=
  if (db_file.metadata i).offset.get res ≠ 0 then
    let r := do_read env (db_file.metadata i).pict_id res db_temp
    (r.ret, r.db)
  else ( ZERO, db_temp)

/-- The body of the `for` loop of `do_gbcollect` for the source slot `i`: the
value of `check` when the body is left (non-zero when it returns), the source
handle and the scratch handle. -/
def gbcollect_step (env : externals) (i : Nat) (db_file db_temp : pictdb_file) :
    ret_code × pictdb_file × pictdb_file :=
  if (db_file.metadata i).is_valid = NON_EMPTY then
    let r := do_read env (db_file.metadata i).pict_id RES_ORIG db_file
    if r.ret ≠ ZERO then (r.ret, r.db, db_temp)
    else
      let ins := do_insert env r.data (r.db.metadata i).pict_id db_temp
      if ins.1 ≠ ZERO then (ins.1, r.db, ins.2)
      else
        let s := gbcollect_derivative env r.db ins.2 i RES_SMALL
        if s.1 ≠ ZERO then (s.1, r.db, s.2)
        else
          let t := gbcollect_derivative env r.db s.2 i RES_THUMB
          if t.1 ≠ ZERO then (t.1, r.db, t.2)
          else ( ZERO, r.db, t.2)
  else ( ZERO, db_file, db_temp)

/-- The `for` loop of `do_gbcollect` at counter `i` with `n` iterations left;
it stops at the first body that returns. -/
def gbcollect_loop (env : externals) :
    Nat → Nat → pictdb_file → pictdb_file → ret_code × pictdb_file × pictdb_file
  | 0, _, db_file, db_temp => ( ZERO, db_file, db_temp)
  | n + 1, i, db_file, db_temp =>
    let s := gbcollect_step env i db_file db_temp
    if s.1 ≠ ZERO then s
    else gbcollect_loop env n (i + 1) s.2.1 s.2.2

/-- What `do_gbcollect` leaves: the return code, the source handle, the scratch
handle as it was when closed, and the contents of the files named `filename`
and `temp_filename` (`none` when the name is removed). -/
structure gc_result where
  ret : ret_code
  db_file : pictdb_file
  db_temp : pictdb_file
  file : Option (List Nat)
  temp_file : Option (List Nat)

/-- The function `do_gbcollect` for a source handle open on the file
`filename` and a distinct `temp_filename`; `stack` is the uninitialised local
`db_temp`.  The calls `remove` and `rename` succeed. -/
def do_gbcollect (env : externals) (db_file stack : pictdb_file) : gc_result :=
  let c := do_create (initialize_pictdb db_file stack)
  if c.1 ≠ ZERO then
    { ret := c.1, db_file := db_file, db_temp := c.2, file := some db_file.fpdb.bytes,
      temp_file := some c.2.fpdb.bytes }
  else
    let l := gbcollect_loop env db_file.header.max_files 0 db_file c.2
    if l.1 ≠ ZERO then
      { ret := l.1, db_file := l.2.1, db_temp := l.2.2, file := some l.2.1.fpdb.bytes,
        temp_file := none }
    else
      { ret := ZERO, db_file := l.2.1, db_temp := l.2.2, file := some l.2.2.fpdb.bytes,
        temp_file := none }

/-- The database of capacity 3 holding `a`, `b` and `c`, from which `b` was
deleted after the thumbnail of `c` was built. -/
def gc_source_db : pictdb_file :=
  (do_delete [98]
    (do_read toy_env [99] RES_THUMB
      (do_insert toy_env [6, 7, 8, 9] [99]
        (do_insert toy_env [4, 5] [98]
          (do_insert toy_env [1, 2, 3] [97] (fresh_db 3)).2).2).2).db).2

/-- Collaborators whose codec rejects every image. -/
def failing_env : externals :=
  { SHA256 := toy_env.SHA256, vips_size := fun _ => none, vips_resize := fun _ _ _ => none }

/-! ## What the garbage collector preserves -/

/-- The indices below `n` of the valid slots, in increasing order. -/
def valid_slots (db : pictdb_file) (n : Nat) : List Nat :=
  (List.range n).filter (fun j => decide ((db.metadata j).is_valid = NON_EMPTY))

/-- The bytes that `do_read` returns for the identifier of slot `j` at the
original resolution. -/
def source_orig (env : externals) (db : pictdb_file) (j : Nat) : List Nat :=
  (do_read env (db.metadata j).pict_id RES_ORIG db).data

/-- No two different payloads read for valid slots have digests that
`compare_SHA` finds identical. -/
def digest_injective (env : externals) (db : pictdb_file) : Prop :=
  ∀ i, i < db.header.max_files → ∀ j, j < db.header.max_files →
    ((db.metadata i).is_valid = NON_EMPTY ∧ (db.metadata j).is_valid = NON_EMPTY ∧
      compare_SHA (env.SHA256 (source_orig env db i)) (env.SHA256 (source_orig env db j)) = 0) →
    source_orig env db i = source_orig env db j

instance (env : externals) (db : pictdb_file) : Decidable (digest_injective env db) := by
  unfold digest_injective; infer_instance

/-- The state of the scratch database `tmp` when the loop of `do_gbcollect`
reaches the source slot `i`: it holds, in its first slots and in order, the
valid source slots below `i`. -/
def gc_inv (env : externals) (src tmp : pictdb_file) (i : Nat) : Prop :=
  tmp.header.max_files = src.header.max_files ∧
  tmp.header.res_resized = (initialize_pictdb src tmp).header.res_resized ∧
  tmp.header.num_files = (valid_slots src i).length ∧
  persisted tmp ∧
  (∀ t, (valid_slots src i).length ≤ t → (tmp.metadata t).is_valid = EMPTY) ∧
  (∀ t, t < (valid_slots src i).length →
    (tmp.metadata t).is_valid = NON_EMPTY ∧
    catalog_size tmp ≤ (tmp.metadata t).offset.get RES_ORIG ∧
    (tmp.metadata t).offset.get RES_ORIG + (tmp.metadata t).size.get RES_ORIG
      ≤ tmp.fpdb.bytes.length ∧
    (tmp.metadata t).size.get RES_ORIG ≠ 0) ∧
  (∀ t, t < (valid_slots src i).length → ∀ u, u < (valid_slots src i).length → t ≠ u →
    (tmp.metadata t).pict_id ≠ (tmp.metadata u).pict_id) ∧
  (List.range (valid_slots src i).length).map
      (fun t => ((tmp.metadata t).pict_id, (tmp.metadata t).SHA, stored_orig tmp t)) =
    (valid_slots src i).map
      (fun j => ((src.metadata j).pict_id, env.SHA256 (source_orig env src j),
        source_orig env src j))

/-! ## Tables used to exercise the dedup engine -/

/-- The database of capacity 3 holding `a` (payload `[1, 2, 3]`) and `b`
(payload `[4, 5]`), with slot 2 populated as `do_insert` populates it for the
identifier `b` and the payload `[1, 2, 3]`: slot 2 has the identifier of slot 1
and the digest of slot 0. -/
def dup_after_share_db : pictdb_file :=
  set_slot (do_insert toy_env [4, 5] [98] (do_insert toy_env [1, 2, 3] [97] (fresh_db 3)).2).2 2
    (populated_slot toy_env [1, 2, 3] [98] zero_metadata)

/-- The database of capacity 3 holding `a` and `b`, with slot 2 populated for
the identifier `b` and the payload `[7]`: slot 2 has the identifier of slot 1
and a digest of its own. -/
def dup_id_db : pictdb_file :=
  set_slot (do_insert toy_env [4, 5] [98] (do_insert toy_env [1, 2, 3] [97] (fresh_db 3)).2).2 2
    (populated_slot toy_env [7] [98] zero_metadata)

/-- The database of capacity 3 holding `a` and `b`, with slot 2 populated for
the identifier `c` and the payload `[4, 5]` of `b`. -/
def share_candidate_db : pictdb_file :=
  set_slot (do_insert toy_env [4, 5] [98] (do_insert toy_env [1, 2, 3] [97] (fresh_db 3)).2).2 2
    (populated_slot toy_env [4, 5] [99] zero_metadata)

/-! ## A reachable database whose header undercounts a full table -/

/-- The database `undercount_db` after inserting `[6, 7]` as `c`: both slots of
the table are valid (`c` in slot 0, `b` in slot 1) and `num_files` is `1`. -/
def refilled_db : pictdb_file := (do_insert toy_env [6, 7] [99] undercount_db).2

/-- The database `refilled_db` after inserting `[8, 9]` as `d`. -/
def overrun_db : pictdb_file := (do_insert toy_env [8, 9] [100] refilled_db).2

/-! ## `db_utils.c` and `db_list.c`: the text printed in `STDOUT` mode -/

/-- The bytes of a string constant. -/
def ascii (s : String) : List Nat := s.toList.map Char.toNat

/-- The conversion `%Ns` of `printf`: the string, right justified in a field
of at least `width` characters. -/
def printf_s (width : Nat) (s : List Nat) : List Nat :=
  List.replicate (width - s.length) 32 ++ s

/-- The conversions `PRIu16`, `PRIu32` and `PRIu64` of `printf`: the decimal
digits of the value. -/
def printf_u (n : Nat) : List Nat := (Nat.toDigits 10 n).map Char.toNat

/-- The conversion `%02x` of `printf` for an `unsigned char`: two lowercase
hexadecimal digits. -/
def printf_02x (b : Nat) : List Nat :=
  List.replicate (2 - (Nat.toDigits 16 (b % 256)).length) 48
    ++ (Nat.toDigits 16 (b % 256)).map Char.toNat

/-- The function `sha_to_string`. -/
def sha_to_string (SHA : List Nat) : List Nat :=
  (List.range SHA256_DIGEST_LENGTH).flatMap (fun i => printf_02x (SHA.getD i 0))

/-- The text printed by `print_header`. -/
def print_header (header : pictdb_header) : List Nat :=
  ascii "*****************************************\n"
    ++ ascii "**********DATABASE HEADER START**********\n"
    ++ ascii "DB NAME: " ++ printf_s 31 header.db_name ++ ascii "\n"
    ++ ascii "VERSION: " ++ printf_u header.db_version ++ ascii "\n"
    ++ ascii "IMAGE COUNT: " ++ printf_u header.num_files ++ ascii "\t\t"
    ++ ascii "MAX IMAGES: " ++ printf_u header.max_files ++ ascii "\n"
    ++ ascii "THUMBNAIL: " ++ printf_u (header.res_resized.getD (2 * RES_THUMB) 0)
    ++ ascii " x " ++ printf_u (header.res_resized.getD (2 * RES_THUMB + 1) 0) ++ ascii "\t"
    ++ ascii "SMALL: " ++ printf_u (header.res_resized.getD (2 * RES_SMALL) 0)
    ++ ascii " x " ++ printf_u (header.res_resized.getD (2 * RES_SMALL + 1) 0) ++ ascii "\n"
    ++ ascii "***********DATABASE HEADER END***********\n"
    ++ ascii "*****************************************\n"

/-- The text printed by `print_metadata`. -/
def print_metadata (metadata : pict_metadata) : List Nat :=
  ascii "PICTURE ID: " ++ metadata.pict_id ++ ascii "\n"
    ++ ascii "SHA: " ++ sha_to_string metadata.SHA ++ ascii "\n"
    ++ ascii "VALID: " ++ printf_u metadata.is_valid ++ ascii "\n"
    ++ ascii "UNUSED: " ++ printf_u metadata.unused_16 ++ ascii "\n"
    ++ ascii "OFFSET ORIG. : " ++ printf_u (metadata.offset.get RES_ORIG) ++ ascii "\t\t"
    ++ ascii "SIZE ORIG. : " ++ printf_u (metadata.size.get RES_ORIG) ++ ascii "\n"
    ++ ascii "OFFSET THUMB.: " ++ printf_u (metadata.offset.get RES_THUMB) ++ ascii "\t\t"
    ++ ascii "SIZE THUMB.: " ++ printf_u (metadata.size.get RES_THUMB) ++ ascii "\n"
    ++ ascii "OFFSET SMALL : " ++ printf_u (metadata.offset.get RES_SMALL) ++ ascii "\t\t"
    ++ ascii "SIZE SMALL : " ++ printf_u (metadata.size.get RES_SMALL) ++ ascii "\n"
    ++ ascii "ORIGINAL: " ++ printf_u metadata.res_orig.1 ++ ascii " x "
    ++ printf_u metadata.res_orig.2 ++ ascii "\n"
    ++ ascii "*****************************************\n"

/-- The `for` loop of the `STDOUT` branch of `do_list` at counter `i` with `n`
iterations left: the text it prints. -/
def do_list_stdout_loop (file : pictdb_file) : Nat → Nat → List Nat
  | 0, _ => []
  | n + 1, i =>
    (if (file.metadata i).is_valid = NON_EMPTY then print_metadata (file.metadata i) else [])
      ++ do_list_stdout_loop file n (i + 1)

/-- The text printed by `do_list(file, STDOUT)`. -/
def do_list_stdout (file : pictdb_file) : List Nat :=
  print_header file.header ++
    (if file.header.num_files ≠ 0 then do_list_stdout_loop file file.header.max_files 0
     else ascii "<< empty database >>\n")

/-- The lines of a text: the maximal runs of bytes without a line feed. -/
def text_lines : List Nat → List (List Nat)
  | [] => [[]]
  | c :: cs =>
    if c = 10 then [] :: text_lines cs
    else
      match text_lines cs with
      | [] => [[c]]
      | l :: ls => (c :: l) :: ls

/-! ## `db_list.c`: the buffer returned in `JSON` mode -/

/-- The function `strlen`: the number of bytes before the first zero byte. -/
def strlen (s : List Nat) : Nat := (c_string s).length

/-- The call `calloc(n, sizeof(char))`: `n` zero bytes. -/
def calloc (n : Nat) : List Nat := List.replicate n 0

/-- The call `strncpy(dest, src, n)` on a buffer `dest` of at least `n` bytes:
the first `n` bytes of `dest` become the string `src`, cut at `n` bytes or zero
filled up to `n` bytes. -/
def strncpy_into (dest src : List Nat) (n : Nat) : List Nat :=
  (c_string src).take n ++ List.replicate (n - (c_string src).length) 0 ++ dest.drop n

/-- The `JSON` branch of `do_list`: the buffer it returns.  The parameter
`json_object_to_json_string` is the text that the library gives for the object
whose member `Pictures` is the array. -/
def do_list_json (json_object_to_json_string : List (List Nat) → List Nat)
    (file : pictdb_file) : List Nat :=
  let string := json_object_to_json_string (do_list_json_array file)
  let result := calloc (strlen string)
  strncpy_into result string (strlen string)

/-- A stand-in for the serialiser of the library, in its spaced format. -/
def toy_json (array : List (List Nat)) : List Nat :=
  ascii "\x7b \"Pictures\": [ "
    ++ ((array.map (fun s => [34] ++ s ++ [34])).intersperse (ascii ", ")).flatten
    ++ (if array = [] then [] else [32]) ++ ascii "] \x7d"

/-! ## What keeps the lookups of `do_read` stable -/

/-- Every slot of the table is `EMPTY` or `NON_EMPTY`, slot 0 does not carry
the identifier of another valid slot, and the original payload of every valid
slot ends inside the file. -/
def read_inv (db : pictdb_file) : Prop :=
  (∀ k, k < db.header.max_files →
    (db.metadata k).is_valid = EMPTY ∨ (db.metadata k).is_valid = NON_EMPTY) ∧
  (∀ j, j < db.header.max_files → (db.metadata j).is_valid = NON_EMPTY → j ≠ 0 →
    (db.metadata 0).pict_id ≠ (db.metadata j).pict_id) ∧
  (∀ j, j < db.header.max_files → (db.metadata j).is_valid = NON_EMPTY →
    (db.metadata j).offset.get RES_ORIG + (db.metadata j).size.get RES_ORIG
      ≤ db.fpdb.bytes.length)

/-! ## Sizes of the object representations -/

theorem le_bytes_length (w v : Nat) : (le_bytes w v).length = w := by
  induction w generalizing v with
  | zero => rfl
  | succ w ih => simp [le_bytes, ih]

theorem fixed_bytes_length (n : Nat) (l : List Nat) : (fixed_bytes n l).length = n := by
  simp [fixed_bytes]
  omega

theorem header_bytes_length (h : pictdb_header) : (header_bytes h).length = sizeof_header := by
  simp [header_bytes, le_bytes_length, fixed_bytes_length]

theorem metadata_bytes_length (m : pict_metadata) :
    (metadata_bytes m).length = sizeof_metadata := by
  simp [metadata_bytes, le_bytes_length, fixed_bytes_length]
  rfl

/-! ## Writing into a byte list -/

theorem write_at_length (b : List Nat) (p : Nat) (buf : List Nat) :
    (write_at b p buf).length = max b.length (p + buf.length) := by
  simp [write_at]
  omega

theorem write_at_drop (b : List Nat) (p : Nat) (buf : List Nat) (q : Nat)
    (h : p + buf.length ≤ q) : (write_at b p buf).drop q = b.drop q := by
  have hlen : (b.take p ++ List.replicate (p - b.length) 0 ++ buf).length = p + buf.length := by
    simp
    omega
  unfold write_at
  rw [List.drop_append_eq_append_drop, hlen, List.drop_of_length_le (by omega), List.nil_append,
    List.drop_drop]
  congr 1
  omega

theorem write_at_end (b buf : List Nat) : write_at b b.length buf = b ++ buf := by
  simp [write_at]

theorem write_at_inside_length (b : List Nat) (p : Nat) (buf : List Nat)
    (h : p + buf.length ≤ b.length) : (write_at b p buf).length = b.length := by
  rw [write_at_length]
  omega

/-! ## The stream operations on records -/

theorem fwrite_nonempty (buf : List Nat) (f : FILE) (h : buf.length ≠ 0) :
    fwrite buf f = (1, { bytes := write_at f.bytes f.pos buf, pos := f.pos + buf.length }) := by
  simp [fwrite, h]

theorem fwrite_header (h : pictdb_header) (f : FILE) :
    fwrite (header_bytes h) f =
      (1, { bytes := write_at f.bytes f.pos (header_bytes h), pos := f.pos + sizeof_header }) := by
  rw [fwrite_nonempty _ _ (by rw [header_bytes_length]; decide), header_bytes_length]

theorem fwrite_metadata (m : pict_metadata) (f : FILE) :
    fwrite (metadata_bytes m) f =
      (1, { bytes := write_at f.bytes f.pos (metadata_bytes m),
            pos := f.pos + sizeof_metadata }) := by
  rw [fwrite_nonempty _ _ (by rw [metadata_bytes_length]; decide), metadata_bytes_length]

/-! ## The loops of `do_insert` -/

theorem insert_id_exists_eq_false (pict_id : List Nat) (db : pictdb_file) (n i : Nat) :
    insert_id_exists pict_id db n i = false ↔
      ∀ j, i ≤ j → j < i + n → (db.metadata j).is_valid = NON_EMPTY →
        strncmp (db.metadata j).pict_id pict_id MAX_PIC_ID ≠ 0 := by
  induction n generalizing i with
  | zero =>
    simp only [insert_id_exists, true_iff]
    intro j h1 h2
    omega
  | succ n ih =>
    unfold insert_id_exists
    split
    · rename_i h
      simp only [false_iff, reduceCtorEq]
      intro hall
      exact hall i (le_refl i) (by omega) h.1 h.2
    · rename_i h
      rw [ih]
      constructor
      · intro hall j h1 h2 hv
        rcases Nat.eq_or_lt_of_le h1 with he | hlt
        · subst he
          intro hs
          exact h ⟨hv, hs⟩
        · exact hall j hlt (by omega) hv
      · intro hall j h1 h2 hv
        exact hall j (by omega) (by omega) hv

theorem insert_id_exists_eq_true (pict_id : List Nat) (db : pictdb_file) (n i j : Nat)
    (h1 : i ≤ j) (h2 : j < i + n) (hv : (db.metadata j).is_valid = NON_EMPTY)
    (hs : strncmp (db.metadata j).pict_id pict_id MAX_PIC_ID = 0) :
    insert_id_exists pict_id db n i = true := by
  by_contra hc
  have hf : insert_id_exists pict_id db n i = false := by
    cases h : insert_id_exists pict_id db n i
    · rfl
    · exact absurd h hc
  exact (insert_id_exists_eq_false pict_id db n i).1 hf j h1 h2 hv hs

/-- The free-slot search returns an index at or after its start such that
every slot it passed is a valid slot of the table. -/
theorem insert_find_slot_passed (db : pictdb_file) (n i : Nat) :
    i ≤ insert_find_slot db n i ∧
      ∀ j, i ≤ j → j < insert_find_slot db n i →
        j < db.header.max_files ∧ (db.metadata j).is_valid = NON_EMPTY := by
  induction n generalizing i with
  | zero =>
    simp only [insert_find_slot, le_refl, true_and]
    intro j h1 h2
    omega
  | succ n ih =>
    unfold insert_find_slot
    split
    · rename_i h
      obtain ⟨h1, h2⟩ := ih (i + 1)
      refine ⟨by omega, ?_⟩
      intro j hj1 hj2
      rcases Nat.eq_or_lt_of_le hj1 with he | hlt
      · subst he
        exact h
      · exact h2 j hlt hj2
    · simp only [le_refl, true_and]
      intro j h1 h2
      omega

/-- With enough fuel the free-slot search stops because the loop condition
fails at the index it returns. -/
theorem insert_find_slot_exit (db : pictdb_file) (n i : Nat)
    (hfuel : db.header.max_files ≤ i + n) :
    ¬ (insert_find_slot db n i < db.header.max_files ∧
        (db.metadata (insert_find_slot db n i)).is_valid = NON_EMPTY) := by
  induction n generalizing i with
  | zero =>
    simp only [insert_find_slot]
    intro h
    omega
  | succ n ih =>
    unfold insert_find_slot
    split
    · exact ih (i + 1) (by omega)
    · rename_i h
      exact h

theorem insert_find_slot_le (db : pictdb_file) (n i : Nat) (hi : i ≤ db.header.max_files) :
    insert_find_slot db n i ≤ db.header.max_files := by
  induction n generalizing i with
  | zero => simpa [insert_find_slot] using hi
  | succ n ih =>
    unfold insert_find_slot
    split
    · rename_i h
      exact ih (i + 1) h.1
    · exact hi

/-! ## The dedup engine -/

theorem compare_SHA_loop_eq_zero (a b : List Nat) (n i : Nat) :
    compare_SHA_loop a b n i = 0 ↔ ∀ k, i ≤ k → k < i + n → a.getD k 0 = b.getD k 0 := by
  induction n generalizing i with
  | zero =>
    simp only [compare_SHA_loop, true_iff]
    intro k h1 h2
    omega
  | succ n ih =>
    unfold compare_SHA_loop
    split
    · rename_i h
      simp only [one_ne_zero, false_iff]
      intro hall
      exact h (hall i (le_refl i) (by omega))
    · rename_i h
      rw [ih]
      constructor
      · intro hall k h1 h2
        rcases Nat.eq_or_lt_of_le h1 with he | hlt
        · subst he
          exact not_not.1 h
        · exact hall k hlt (by omega)
      · intro hall k h1 h2
        exact hall k (by omega) (by omega)

theorem compare_SHA_eq_zero (a b : List Nat) :
    compare_SHA a b = 0 ↔ ∀ k, k < SHA256_DIGEST_LENGTH → a.getD k 0 = b.getD k 0 := by
  unfold compare_SHA
  rw [compare_SHA_loop_eq_zero]
  constructor
  · intro h k hk
    exact h k (Nat.zero_le k) (by omega)
  · intro h k _ hk
    exact h k (by omega)

theorem compare_SHA_symm (a b : List Nat) (h : compare_SHA a b = 0) : compare_SHA b a = 0 := by
  rw [compare_SHA_eq_zero] at *
  intro k hk
  exact (h k hk).symm

theorem compare_SHA_trans (a b c : List Nat) (h1 : compare_SHA a b = 0)
    (h2 : compare_SHA b c = 0) : compare_SHA a c = 0 := by
  rw [compare_SHA_eq_zero] at *
  intro k hk
  exact (h1 k hk).trans (h2 k hk)

/-- The result of the dedup loop when no other valid slot carries the
identifier of slot `index`: either the lowest matching slot is copied, or no
slot matches and the original offset is cleared. -/
theorem dedup_loop_spec (index : Nat) (db : pictdb_file) (n i : Nat)
    (hid : ∀ j, i ≤ j → j < i + n → j ≠ index → (db.metadata j).is_valid = NON_EMPTY →
      strncmp (db.metadata j).pict_id (db.metadata index).pict_id MAX_PIC_ID ≠ 0) :
    (∃ j, i ≤ j ∧ j < i + n ∧ j ≠ index ∧ (db.metadata j).is_valid = NON_EMPTY ∧
        compare_SHA (db.metadata j).SHA (db.metadata index).SHA = 0 ∧
        (∀ k, i ≤ k → k < j → k ≠ index → (db.metadata k).is_valid = NON_EMPTY →
          compare_SHA (db.metadata k).SHA (db.metadata index).SHA ≠ 0) ∧
        dedup_loop index n i db = ( ZERO, dedup_copy db index j)) ∨
      ((∀ k, i ≤ k → k < i + n → k ≠ index → (db.metadata k).is_valid = NON_EMPTY →
          compare_SHA (db.metadata k).SHA (db.metadata index).SHA ≠ 0) ∧
        dedup_loop index n i db = dedup_loop index 0 (i + n) db) := by
  induction n generalizing i with
  | zero =>
    right
    refine ⟨?_, rfl⟩
    intro k h1 h2
    omega
  | succ n ih =>
    have hrec := ih (i + 1) (fun j h1 h2 => hid j (by omega) (by omega))
    by_cases hc : i ≠ index ∧ (db.metadata i).is_valid = NON_EMPTY
    · have hne := hid i (le_refl i) (by omega) hc.1 hc.2
      by_cases hs : compare_SHA (db.metadata i).SHA (db.metadata index).SHA = 0
      · left
        refine ⟨i, le_refl i, by omega, hc.1, hc.2, hs, ?_, ?_⟩
        · intro k h1 h2
          omega
        · simp only [dedup_loop, hc, hne, hs, and_self, if_true, if_false, ne_eq,
            not_false_eq_true]
      · have hstep : dedup_loop index (n + 1) i db = dedup_loop index n (i + 1) db := by
          simp only [dedup_loop, hc, hne, hs, and_self, if_true, if_false, ne_eq,
            not_false_eq_true]
        rcases hrec with ⟨j, h1, h2, h3, h4, h5, h6, h7⟩ | ⟨h1, h2⟩
        · left
          refine ⟨j, by omega, by omega, h3, h4, h5, ?_, by rw [hstep, h7]⟩
          intro k hk1 hk2 hk3 hk4
          rcases Nat.eq_or_lt_of_le hk1 with he | hlt
          · subst he
            exact hs
          · exact h6 k hlt hk2 hk3 hk4
        · right
          refine ⟨?_, by rw [hstep, h2]; congr 1; omega⟩
          intro k hk1 hk2 hk3 hk4
          rcases Nat.eq_or_lt_of_le hk1 with he | hlt
          · subst he
            exact hs
          · exact h1 k hlt (by omega) hk3 hk4
    · have hstep : dedup_loop index (n + 1) i db = dedup_loop index n (i + 1) db := by
        simp only [dedup_loop, hc, if_false]
      rcases hrec with ⟨j, h1, h2, h3, h4, h5, h6, h7⟩ | ⟨h1, h2⟩
      · left
        refine ⟨j, by omega, by omega, h3, h4, h5, ?_, by rw [hstep, h7]⟩
        intro k hk1 hk2 hk3 hk4
        rcases Nat.eq_or_lt_of_le hk1 with he | hlt
        · subst he
          exact absurd ⟨hk3, hk4⟩ hc
        · exact h6 k hlt hk2 hk3 hk4
      · right
        refine ⟨?_, by rw [hstep, h2]; congr 1; omega⟩
        intro k hk1 hk2 hk3 hk4
        rcases Nat.eq_or_lt_of_le hk1 with he | hlt
        · subst he
          exact absurd ⟨hk3, hk4⟩ hc
        · exact h1 k hlt (by omega) hk3 hk4

/-! ## The stages of `do_insert` -/

theorem res_array_get_orig (a : res_array) : a.get RES_ORIG = a.orig := rfl

theorem res_array_get_thumb (a : res_array) : a.get RES_THUMB = a.thumb := rfl

theorem res_array_get_small (a : res_array) : a.get RES_SMALL = a.small := rfl

theorem res_array_set_orig (a : res_array) (v : Nat) :
    a.set RES_ORIG v = ⟨a.thumb, a.small, v⟩ := rfl

theorem res_array_set_thumb (a : res_array) (v : Nat) :
    a.set RES_THUMB v = ⟨v, a.small, a.orig⟩ := rfl

theorem res_array_set_small (a : res_array) (v : Nat) :
    a.set RES_SMALL v = ⟨a.thumb, v, a.orig⟩ := rfl

theorem set_slot_metadata_same (db : pictdb_file) (index : Nat) (m : pict_metadata) :
    (set_slot db index m).metadata index = m := by
  simp [set_slot]

theorem set_slot_metadata_other (db : pictdb_file) (index j : Nat) (m : pict_metadata)
    (h : j ≠ index) : (set_slot db index m).metadata j = db.metadata j := by
  simp [set_slot, Function.update_noteq h]

theorem set_slot_header (db : pictdb_file) (index : Nat) (m : pict_metadata) :
    (set_slot db index m).header = db.header := rfl

theorem set_slot_fpdb (db : pictdb_file) (index : Nat) (m : pict_metadata) :
    (set_slot db index m).fpdb = db.fpdb := rfl

/-- Past its two early tests `do_insert` fills the free slot, runs the dedup
engine and, if that returns `0`, `update_memory_and_content`. -/
theorem do_insert_unfold (env : externals) (img pict_id : List Nat) (db : pictdb_file)
    (index : Nat) (hindex : index = insert_find_slot db db.header.max_files 0)
    (db1 : pictdb_file)
    (hdb1 : db1 = set_slot db index (populated_slot env img pict_id (db.metadata index)))
    (hroom : db.header.num_files ≠ db.header.max_files)
    (hfresh : insert_id_exists pict_id db db.header.max_files 0 = false) :
    do_insert env img pict_id db =
      if (do_name_and_content_dedup db1 index).1 ≠ ZERO
      then do_name_and_content_dedup db1 index
      else update_memory_and_content env img (do_name_and_content_dedup db1 index).2 index := by
  subst hindex hdb1
  unfold do_insert
  rw [if_neg hroom, hfresh]
  simp only [Bool.false_eq_true, if_false]
  rfl

theorem flush_insert_eq (db : pictdb_file) (index : Nat) :
    flush_insert db index =
      ( ZERO, ⟨⟨write_at (write_at db.fpdb.bytes 0 (header_bytes (header_after_insert db.header)))
            (sizeof_header + index * sizeof_metadata) (metadata_bytes (db.metadata index)),
          sizeof_header + index * sizeof_metadata + sizeof_metadata⟩,
        header_after_insert db.header, db.metadata⟩) := by
  unfold flush_insert
  simp only [fwrite_header, fwrite_metadata, fseek_set, fseek_cur, ne_eq, not_true_eq_false,
    if_false, zero_add]
  rfl

/-- Two writes that end at or before `q` leave the bytes from `q` on as they
were. -/
theorem write_at_twice_drop (F : List Nat) (p1 p2 q : Nat) (b1 b2 : List Nat)
    (h1 : p1 + b1.length ≤ q) (h2 : p2 + b2.length ≤ q) :
    (write_at (write_at F p1 b1) p2 b2).drop q = F.drop q := by
  rw [write_at_drop _ _ _ _ h2, write_at_drop _ _ _ _ h1]

/-- Two writes inside the file leave its length as it was. -/
theorem write_at_twice_length (F : List Nat) (p1 p2 : Nat) (b1 b2 : List Nat)
    (h1 : p1 + b1.length ≤ F.length) (h2 : p2 + b2.length ≤ F.length) :
    (write_at (write_at F p1 b1) p2 b2).length = F.length := by
  rw [write_at_length, write_at_length]
  omega

theorem append_image_skip (img : List Nat) (db : pictdb_file) (index : Nat)
    (h : (db.metadata index).offset.get RES_ORIG ≠ 0) :
    append_image img db index = ( ZERO, db) := by
  simp [append_image, h]

theorem append_image_empty (db : pictdb_file) (index : Nat)
    (h : (db.metadata index).offset.get RES_ORIG = 0) :
    (append_image [] db index).1 = ERR_IO := by
  simp [append_image, h, fwrite]

theorem append_image_write (img : List Nat) (db : pictdb_file) (index : Nat)
    (h : (db.metadata index).offset.get RES_ORIG = 0) (himg : img ≠ []) :
    append_image img db index =
      ( ZERO, ⟨⟨db.fpdb.bytes ++ img, db.fpdb.bytes.length + img.length⟩, db.header,
        Function.update db.metadata index
          ⟨(db.metadata index).pict_id, (db.metadata index).SHA, (db.metadata index).res_orig,
            (db.metadata index).size,
            (db.metadata index).offset.set RES_ORIG db.fpdb.bytes.length,
            (db.metadata index).is_valid, (db.metadata index).unused_16⟩⟩) := by
  have hl : img.length ≠ 0 := by
    intro h0
    exact himg (List.length_eq_zero.1 h0)
  simp [append_image, h, fwrite_nonempty _ _ hl, fseek_end, ftell, write_at_end]

theorem write_resolutions_none (env : externals) (img : List Nat) (db : pictdb_file)
    (index : Nat) (h : env.vips_size img = none) :
    write_resolutions env img db index = ( ERR_VIPS, db) := by
  simp [write_resolutions, get_resolution, h]

theorem write_resolutions_some (env : externals) (img : List Nat) (db : pictdb_file)
    (index w ht : Nat) (h : env.vips_size img = some (w, ht)) :
    write_resolutions env img db index =
      ( ZERO, ⟨db.fpdb, db.header, Function.update db.metadata index
          ⟨(db.metadata index).pict_id, (db.metadata index).SHA, (w % 2 ^ 32, ht % 2 ^ 32),
            (db.metadata index).size, (db.metadata index).offset,
            (db.metadata index).is_valid, (db.metadata index).unused_16⟩⟩) := by
  simp [write_resolutions, get_resolution, h]

theorem update_memory_and_content_none (env : externals) (img : List Nat) (db : pictdb_file)
    (index : Nat) (h : env.vips_size img = none) :
    (update_memory_and_content env img db index).1 ≠ ZERO := by
  unfold update_memory_and_content
  by_cases ha : (append_image img db index).1 ≠ ZERO
  · simp [ha]
  · simp [ha, write_resolutions_none env img _ index h]

theorem update_memory_and_content_empty (env : externals) (db : pictdb_file) (index : Nat)
    (h : (db.metadata index).offset.get RES_ORIG = 0) :
    (update_memory_and_content env [] db index).1 ≠ ZERO := by
  unfold update_memory_and_content
  simp [append_image_empty db index h]

/-- The state after `update_memory_and_content` when the slot already points
at a payload: nothing is appended, the resolution is recorded, the header is
advanced, and the header and the slot are written over the catalog. -/
theorem update_memory_and_content_share (env : externals) (img : List Nat) (db : pictdb_file)
    (index w ht : Nat) (hoff : (db.metadata index).offset.get RES_ORIG ≠ 0)
    (hv : env.vips_size img = some (w, ht)) :
    update_memory_and_content env img db index =
      ( ZERO, ⟨⟨write_at (write_at db.fpdb.bytes 0 (header_bytes (header_after_insert db.header)))
            (sizeof_header + index * sizeof_metadata)
            (metadata_bytes ⟨(db.metadata index).pict_id, (db.metadata index).SHA,
              (w % 2 ^ 32, ht % 2 ^ 32), (db.metadata index).size, (db.metadata index).offset,
              (db.metadata index).is_valid, (db.metadata index).unused_16⟩),
          sizeof_header + index * sizeof_metadata + sizeof_metadata⟩,
        header_after_insert db.header,
        Function.update db.metadata index
          ⟨(db.metadata index).pict_id, (db.metadata index).SHA, (w % 2 ^ 32, ht % 2 ^ 32),
            (db.metadata index).size, (db.metadata index).offset,
            (db.metadata index).is_valid, (db.metadata index).unused_16⟩⟩) := by
  unfold update_memory_and_content
  rw [append_image_skip img db index hoff]
  simp only [ne_eq, not_true_eq_false, if_false]
  rw [write_resolutions_some env img db index w ht hv]
  simp only [ne_eq, not_true_eq_false, if_false]
  rw [flush_insert_eq]
  simp

/-- The state after `update_memory_and_content` when the slot has no payload
yet: the image is appended at the end of the file and its position recorded. -/
theorem update_memory_and_content_append (env : externals) (img : List Nat) (db : pictdb_file)
    (index w ht : Nat) (hoff : (db.metadata index).offset.get RES_ORIG = 0) (himg : img ≠ [])
    (hv : env.vips_size img = some (w, ht)) :
    update_memory_and_content env img db index =
      ( ZERO, ⟨⟨write_at
            (write_at (db.fpdb.bytes ++ img) 0 (header_bytes (header_after_insert db.header)))
            (sizeof_header + index * sizeof_metadata)
            (metadata_bytes ⟨(db.metadata index).pict_id, (db.metadata index).SHA,
              (w % 2 ^ 32, ht % 2 ^ 32), (db.metadata index).size,
              (db.metadata index).offset.set RES_ORIG db.fpdb.bytes.length,
              (db.metadata index).is_valid, (db.metadata index).unused_16⟩),
          sizeof_header + index * sizeof_metadata + sizeof_metadata⟩,
        header_after_insert db.header,
        Function.update db.metadata index
          ⟨(db.metadata index).pict_id, (db.metadata index).SHA, (w % 2 ^ 32, ht % 2 ^ 32),
            (db.metadata index).size,
            (db.metadata index).offset.set RES_ORIG db.fpdb.bytes.length,
            (db.metadata index).is_valid, (db.metadata index).unused_16⟩⟩) := by
  unfold update_memory_and_content
  rw [append_image_write img db index hoff himg]
  simp only [ne_eq, not_true_eq_false, if_false]
  rw [write_resolutions_some env img _ index w ht hv]
  simp only [ne_eq, not_true_eq_false, if_false]
  rw [flush_insert_eq]
  simp

theorem strncmp_take (a b : List Nat) (n : Nat) : strncmp a (b.take n) n = strncmp a b n := by
  simp [strncmp, List.take_take]

theorem set_slot_set_slot (db : pictdb_file) (index : Nat) (m m1 : pict_metadata) :
    set_slot (set_slot db index m) index m1 = set_slot db index m1 := by
  simp [set_slot]

/-- The dedup engine on the freshly filled slot: it returns `0`; the slot
takes the sizes and offsets of the lowest other valid slot with the same
digest, or keeps its sizes and gets a zero original offset when there is
none. -/
theorem dedup_populated (env : externals) (img pict_id : List Nat) (db : pictdb_file)
    (index : Nat)
    (hfresh : ∀ j, j < db.header.max_files → (db.metadata j).is_valid = NON_EMPTY →
      strncmp (db.metadata j).pict_id pict_id MAX_PIC_ID ≠ 0) :
    (∃ j, j < db.header.max_files ∧ j ≠ index ∧ (db.metadata j).is_valid = NON_EMPTY ∧
        compare_SHA (db.metadata j).SHA (env.SHA256 img) = 0 ∧
        (∀ k, k < j → k ≠ index → (db.metadata k).is_valid = NON_EMPTY →
          compare_SHA (db.metadata k).SHA (env.SHA256 img) ≠ 0) ∧
        do_name_and_content_dedup
            (set_slot db index (populated_slot env img pict_id (db.metadata index))) index =
          ( ZERO, set_slot db index
            ⟨strncpy pict_id MAX_PIC_ID, env.SHA256 img, (db.metadata index).res_orig,
              (db.metadata j).size, (db.metadata j).offset, NON_EMPTY,
              (db.metadata index).unused_16⟩)) ∨
      ((∀ k, k < db.header.max_files → k ≠ index → (db.metadata k).is_valid = NON_EMPTY →
          compare_SHA (db.metadata k).SHA (env.SHA256 img) ≠ 0) ∧
        do_name_and_content_dedup
            (set_slot db index (populated_slot env img pict_id (db.metadata index))) index =
          ( ZERO, set_slot db index
            ⟨strncpy pict_id MAX_PIC_ID, env.SHA256 img, (db.metadata index).res_orig,
              ⟨0, 0, img.length % 2 ^ 32⟩, ⟨0, 0, 0⟩, NON_EMPTY,
              (db.metadata index).unused_16⟩)) := by
  set db1 := set_slot db index (populated_slot env img pict_id (db.metadata index)) with hdb1
  have hsame : db1.metadata index = populated_slot env img pict_id (db.metadata index) :=
    set_slot_metadata_same _ _ _
  have hother : ∀ j, j ≠ index → db1.metadata j = db.metadata j :=
    fun j hj => set_slot_metadata_other _ _ _ _ hj
  have hmax : db1.header.max_files = db.header.max_files := rfl
  have hguard : ¬ (index ≥ db1.header.max_files ∧ (db1.metadata index).is_valid = EMPTY) := by
    rw [hsame]
    simp [populated_slot]
  have hid : ∀ j, 0 ≤ j → j < 0 + db1.header.max_files → j ≠ index →
      (db1.metadata j).is_valid = NON_EMPTY →
      strncmp (db1.metadata j).pict_id (db1.metadata index).pict_id MAX_PIC_ID ≠ 0 := by
    intro j _ hj hne hv
    rw [hother j hne] at hv ⊢
    rw [hsame]
    simp only [populated_slot, strncpy, strncmp_take]
    exact hfresh j (by omega) hv
  unfold do_name_and_content_dedup
  rw [if_neg hguard]
  rcases dedup_loop_spec index db1 db1.header.max_files 0 hid with
    ⟨j, _, h2, h3, h4, h5, h6, h7⟩ | ⟨h1, h2⟩
  · left
    refine ⟨j, by omega, h3, by rw [← hother j h3]; exact h4, ?_, ?_, ?_⟩
    · rw [← hother j h3]
      rw [hsame] at h5
      exact h5
    · intro k hk1 hk2 hk3
      have := h6 k (Nat.zero_le k) hk1 hk2 (by rw [hother k hk2]; exact hk3)
      rw [hother k hk2, hsame] at this
      exact this
    · rw [h7]
      simp only [dedup_copy, hother j h3, hsame, populated_slot]
      rw [hdb1]
      simp [set_slot]
  · right
    refine ⟨?_, ?_⟩
    · intro k hk1 hk2 hk3
      have := h1 k (Nat.zero_le k) (by omega) hk2 (by rw [hother k hk2]; exact hk3)
      rw [hother k hk2, hsame] at this
      exact this
    · rw [h2]
      simp only [dedup_loop, hsame, populated_slot, res_array_set_orig]
      rw [hdb1]
      simp [set_slot]

/-- The shape of a successful `do_insert`.  The two early tests passed and the
codec gave a resolution.  Either the content is shared with the lowest other
valid slot `j` of the same digest, whose sizes and offsets are adopted and
nothing is appended (when that slot has a non-zero original offset), or no
valid slot has the digest, the payload is non-empty and is appended at the
end of the file. -/
theorem do_insert_zero_shape (env : externals) (img pict_id : List Nat) (db : pictdb_file)
    (index : Nat) (hindex : index = insert_find_slot db db.header.max_files 0)
    (hz : (do_insert env img pict_id db).1 = ZERO) :
    db.header.num_files ≠ db.header.max_files ∧
    (∀ j, j < db.header.max_files → (db.metadata j).is_valid = NON_EMPTY →
      strncmp (db.metadata j).pict_id pict_id MAX_PIC_ID ≠ 0) ∧
    ∃ w ht, env.vips_size img = some (w, ht) ∧
      ((∃ j, j < db.header.max_files ∧ j ≠ index ∧ (db.metadata j).is_valid = NON_EMPTY ∧
          compare_SHA (db.metadata j).SHA (env.SHA256 img) = 0 ∧
          (∀ k, k < j → k ≠ index → (db.metadata k).is_valid = NON_EMPTY →
            compare_SHA (db.metadata k).SHA (env.SHA256 img) ≠ 0) ∧
          ((db.metadata j).offset.get RES_ORIG ≠ 0 →
            do_insert env img pict_id db =
              ( ZERO, ⟨⟨write_at
                    (write_at db.fpdb.bytes 0 (header_bytes (header_after_insert db.header)))
                    (sizeof_header + index * sizeof_metadata)
                    (metadata_bytes ⟨strncpy pict_id MAX_PIC_ID, env.SHA256 img,
                      (w % 2 ^ 32, ht % 2 ^ 32), (db.metadata j).size, (db.metadata j).offset,
                      NON_EMPTY, (db.metadata index).unused_16⟩),
                  sizeof_header + index * sizeof_metadata + sizeof_metadata⟩,
                header_after_insert db.header,
                Function.update db.metadata index
                  ⟨strncpy pict_id MAX_PIC_ID, env.SHA256 img, (w % 2 ^ 32, ht % 2 ^ 32),
                    (db.metadata j).size, (db.metadata j).offset, NON_EMPTY,
                    (db.metadata index).unused_16⟩⟩))) ∨
        ((∀ k, k < db.header.max_files → k ≠ index → (db.metadata k).is_valid = NON_EMPTY →
            compare_SHA (db.metadata k).SHA (env.SHA256 img) ≠ 0) ∧
          img ≠ [] ∧
          do_insert env img pict_id db =
            ( ZERO, ⟨⟨write_at
                  (write_at (db.fpdb.bytes ++ img) 0
                    (header_bytes (header_after_insert db.header)))
                  (sizeof_header + index * sizeof_metadata)
                  (metadata_bytes ⟨strncpy pict_id MAX_PIC_ID, env.SHA256 img,
                    (w % 2 ^ 32, ht % 2 ^ 32), ⟨0, 0, img.length % 2 ^ 32⟩,
                    ⟨0, 0, db.fpdb.bytes.length⟩, NON_EMPTY, (db.metadata index).unused_16⟩),
                sizeof_header + index * sizeof_metadata + sizeof_metadata⟩,
              header_after_insert db.header,
              Function.update db.metadata index
                ⟨strncpy pict_id MAX_PIC_ID, env.SHA256 img, (w % 2 ^ 32, ht % 2 ^ 32),
                  ⟨0, 0, img.length % 2 ^ 32⟩, ⟨0, 0, db.fpdb.bytes.length⟩, NON_EMPTY,
                  (db.metadata index).unused_16⟩⟩))) := by
  have hroom : db.header.num_files ≠ db.header.max_files := by
    intro h
    simp [do_insert, h] at hz
  have hex : insert_id_exists pict_id db db.header.max_files 0 = false := by
    cases h : insert_id_exists pict_id db db.header.max_files 0
    · rfl
    · simp [do_insert, hroom, h] at hz
  have hfresh : ∀ j, j < db.header.max_files → (db.metadata j).is_valid = NON_EMPTY →
      strncmp (db.metadata j).pict_id pict_id MAX_PIC_ID ≠ 0 := by
    intro j hj hv
    exact (insert_id_exists_eq_false pict_id db db.header.max_files 0).1 hex j (Nat.zero_le j)
      (by omega) hv
  refine ⟨hroom, hfresh, ?_⟩
  have hunf := do_insert_unfold env img pict_id db index hindex _ rfl hroom hex
  rcases dedup_populated env img pict_id db index hfresh with
    ⟨j, h1, h2, h3, h4, h5, h6⟩ | ⟨h1, h2⟩
  · rw [h6] at hunf
    simp only [ne_eq, not_true_eq_false, if_false] at hunf
    cases hv : env.vips_size img with
    | none =>
      rw [hunf] at hz
      exact absurd hz (update_memory_and_content_none env img _ index hv)
    | some p =>
      obtain ⟨w, ht⟩ := p
      refine ⟨w, ht, rfl, Or.inl ⟨j, h1, h2, h3, h4, h5, ?_⟩⟩
      intro hoff
      rw [hunf, update_memory_and_content_share env img _ index w ht
        (by rw [set_slot_metadata_same]; exact hoff) hv]
      simp [set_slot]
  · rw [h2] at hunf
    simp only [ne_eq, not_true_eq_false, if_false] at hunf
    have himg : img ≠ [] := by
      intro he
      subst he
      rw [hunf] at hz
      exact absurd hz (update_memory_and_content_empty env _ index
        (by rw [set_slot_metadata_same]; rfl))
    cases hv : env.vips_size img with
    | none =>
      rw [hunf] at hz
      exact absurd hz (update_memory_and_content_none env img _ index hv)
    | some p =>
      obtain ⟨w, ht⟩ := p
      refine ⟨w, ht, rfl, Or.inr ⟨h1, himg, ?_⟩⟩
      rw [hunf, update_memory_and_content_append env img _ index w ht
        (by rw [set_slot_metadata_same]; rfl) himg hv]
      simp [set_slot, res_array_set_orig]

/-! ## The scan of `do_read` -/

theorem read_skip_ge (db : pictdb_file) (n j : Nat) : j ≤ read_skip db n j := by
  induction n generalizing j with
  | zero => simp [read_skip]
  | succ n ih =>
    unfold read_skip
    split
    · have := ih (j + 1)
      omega
    · exact le_refl j

theorem read_skip_le (db : pictdb_file) (n j : Nat) (hj : j ≤ db.header.max_files) :
    read_skip db n j ≤ db.header.max_files := by
  induction n generalizing j with
  | zero => simpa [read_skip] using hj
  | succ n ih =>
    unfold read_skip
    split
    · rename_i h
      exact ih (j + 1) h.2
    · exact hj

theorem read_skip_passed (db : pictdb_file) (n j k : Nat) (h1 : j ≤ k)
    (h2 : k < read_skip db n j) : (db.metadata k).is_valid = EMPTY := by
  induction n generalizing j with
  | zero =>
    simp only [read_skip] at h2
    omega
  | succ n ih =>
    unfold read_skip at h2
    split at h2
    · rename_i h
      rcases Nat.eq_or_lt_of_le h1 with he | hlt
      · subst he
        exact h.1
      · exact ih (j + 1) hlt h2
    · omega

/-- With enough fuel the inner loop of `do_read` stops because its condition
fails at the index it returns. -/
theorem read_skip_exit (db : pictdb_file) (n j : Nat) (hfuel : db.header.max_files ≤ j + n) :
    ¬ ((db.metadata (read_skip db n j)).is_valid = EMPTY ∧
        read_skip db n j < db.header.max_files) := by
  induction n generalizing j with
  | zero =>
    simp only [read_skip]
    intro h
    omega
  | succ n ih =>
    unfold read_skip
    split
    · exact ih (j + 1) (by omega)
    · rename_i h
      exact h

/-- With enough fuel the outer loop of `do_read` stops because its condition
fails at the index it returns. -/
theorem read_find_exit (pict_id : List Nat) (db : pictdb_file) (n i : Nat)
    (hfuel : db.header.max_files < i + n) :
    ¬ (strcmp pict_id (db.metadata (read_find pict_id db n i)).pict_id ≠ 0 ∧
        read_find pict_id db n i < db.header.max_files) := by
  induction n generalizing i with
  | zero =>
    simp only [read_find]
    intro h
    omega
  | succ n ih =>
    unfold read_find
    split
    · have := read_skip_ge db db.header.max_files (i + 1)
      exact ih _ (by omega)
    · rename_i h
      exact h

/-- The scan of `do_read` stops at slot `t` when `t` carries the identifier
and is not skipped, and no slot compared before `t` carries it. -/
theorem read_find_found (pict_id : List Nat) (db : pictdb_file) (t : Nat)
    (ht : t < db.header.max_files) (hid : (db.metadata t).pict_id = pict_id) (n i : Nat)
    (hit : i ≤ t) (hfuel : t - i < n)
    (hvalid : t = i ∨ (db.metadata t).is_valid ≠ EMPTY)
    (hbefore : ∀ j, i ≤ j → j < t → (j = i ∨ (db.metadata j).is_valid ≠ EMPTY) →
      (db.metadata j).pict_id ≠ pict_id) :
    read_find pict_id db n i = t := by
  induction n generalizing i with
  | zero => omega
  | succ n ih =>
    unfold read_find
    by_cases hc : strcmp pict_id (db.metadata i).pict_id ≠ 0 ∧ i < db.header.max_files
    · rw [if_pos hc]
      have hne : i ≠ t := by
        intro he
        subst he
        apply hc.1
        simp [strcmp, hid]
      have hlt : i < t := by omega
      have htv : (db.metadata t).is_valid ≠ EMPTY := by
        rcases hvalid with h | h
        · omega
        · exact h
      have hge := read_skip_ge db db.header.max_files (i + 1)
      have hle : read_skip db db.header.max_files (i + 1) ≤ t := by
        by_contra hgt
        exact htv (read_skip_passed db db.header.max_files (i + 1) t (by omega) (by omega))
      have hex := read_skip_exit db db.header.max_files (i + 1) (by omega)
      apply ih _ hle (by omega)
      · right
        exact htv
      · intro j hj1 hj2 _
        apply hbefore j (by omega) hj2
        right
        rcases Nat.eq_or_lt_of_le hj1 with he | hlt2
        · rw [← he]
          intro hemp
          exact hex ⟨hemp, by omega⟩
        · intro hemp
          have hp := read_skip_passed db db.header.max_files (i + 1)
          rename_i hor
          rcases hor with h | h
          · omega
          · exact h hemp
    · rw [if_neg hc]
      by_contra hne
      have hlt : i < t := by omega
      apply hc
      refine ⟨?_, by omega⟩
      have := hbefore i (le_refl i) hlt (Or.inl rfl)
      simp only [strcmp, ne_eq, ite_eq_left_iff, one_ne_zero, imp_false, not_not]
      intro he
      exact this he.symm

theorem read_skip_congr (db db1 : pictdb_file) (hmax : db1.header.max_files = db.header.max_files)
    (hv : ∀ i, (db1.metadata i).is_valid = (db.metadata i).is_valid) (n j : Nat) :
    read_skip db1 n j = read_skip db n j := by
  induction n generalizing j with
  | zero => rfl
  | succ n ih => simp only [read_skip, hmax, hv, ih]

/-- The scan of `do_read` looks only at `max_files` and at the `pict_id` and
`is_valid` fields of the table. -/
theorem read_find_congr (pict_id : List Nat) (db db1 : pictdb_file)
    (hmax : db1.header.max_files = db.header.max_files)
    (hv : ∀ i, (db1.metadata i).is_valid = (db.metadata i).is_valid)
    (hp : ∀ i, (db1.metadata i).pict_id = (db.metadata i).pict_id) (n i : Nat) :
    read_find pict_id db1 n i = read_find pict_id db n i := by
  induction n generalizing i with
  | zero => rfl
  | succ n ih =>
    simp only [read_find, hmax, hp, ih, read_skip_congr db db1 hmax hv]

/-! ## The scan of `do_delete` -/

theorem delete_skip_ge (db : pictdb_file) (n j : Nat) : j ≤ delete_skip db n j := by
  induction n generalizing j with
  | zero => simp [delete_skip]
  | succ n ih =>
    unfold delete_skip
    split
    · have := ih (j + 1)
      omega
    · exact le_refl j

theorem delete_skip_passed (db : pictdb_file) (n j k : Nat) (h1 : j ≤ k)
    (h2 : k < delete_skip db n j) : (db.metadata k).is_valid = EMPTY := by
  induction n generalizing j with
  | zero =>
    simp only [delete_skip] at h2
    omega
  | succ n ih =>
    unfold delete_skip at h2
    split at h2
    · rename_i h
      rcases Nat.eq_or_lt_of_le h1 with he | hlt
      · subst he
        exact h.2
      · exact ih (j + 1) hlt h2
    · omega

/-- With enough fuel the inner loop of `do_delete` stops because its condition
fails at the index it returns. -/
theorem delete_skip_exit (db : pictdb_file) (n j : Nat)
    (hfuel : db.header.max_files ≤ j + n) :
    ¬ (delete_skip db n j < db.header.max_files ∧
        (db.metadata (delete_skip db n j)).is_valid = EMPTY) := by
  induction n generalizing j with
  | zero =>
    simp only [delete_skip]
    intro h
    omega
  | succ n ih =>
    unfold delete_skip
    split
    · exact ih (j + 1) (by omega)
    · rename_i h
      exact h

/-- With enough fuel the outer loop of `do_delete` stops because its condition
fails at the index it returns. -/
theorem delete_find_exit (picture_name : List Nat) (db : pictdb_file) (n i : Nat)
    (hfuel : db.header.max_files < i + n) :
    ¬ (delete_find picture_name db n i < db.header.max_files ∧
        strcmp picture_name (db.metadata (delete_find picture_name db n i)).pict_id ≠ 0) := by
  induction n generalizing i with
  | zero =>
    simp only [delete_find]
    intro h
    omega
  | succ n ih =>
    unfold delete_find
    split
    · have := delete_skip_ge db db.header.max_files (i + 1)
      exact ih _ (by omega)
    · rename_i h
      exact h

/-- The scan of `do_delete` stops at slot `t` when `t` carries the name and is
not skipped, and no slot compared before `t` carries it. -/
theorem delete_find_found (picture_name : List Nat) (db : pictdb_file) (t : Nat)
    (ht : t < db.header.max_files) (hid : (db.metadata t).pict_id = picture_name) (n i : Nat)
    (hit : i ≤ t) (hfuel : t - i < n)
    (hvalid : t = i ∨ (db.metadata t).is_valid ≠ EMPTY)
    (hbefore : ∀ j, i ≤ j → j < t → (j = i ∨ (db.metadata j).is_valid ≠ EMPTY) →
      (db.metadata j).pict_id ≠ picture_name) :
    delete_find picture_name db n i = t := by
  induction n generalizing i with
  | zero => omega
  | succ n ih =>
    unfold delete_find
    by_cases hc : i < db.header.max_files ∧ strcmp picture_name (db.metadata i).pict_id ≠ 0
    · rw [if_pos hc]
      have hne : i ≠ t := by
        intro he
        subst he
        apply hc.2
        simp [strcmp, hid]
      have hlt : i < t := by omega
      have htv : (db.metadata t).is_valid ≠ EMPTY := by
        rcases hvalid with h | h
        · omega
        · exact h
      have hge := delete_skip_ge db db.header.max_files (i + 1)
      have hle : delete_skip db db.header.max_files (i + 1) ≤ t := by
        by_contra hgt
        exact htv (delete_skip_passed db db.header.max_files (i + 1) t (by omega) (by omega))
      have hex := delete_skip_exit db db.header.max_files (i + 1) (by omega)
      apply ih _ hle (by omega)
      · right
        exact htv
      · intro j hj1 hj2 hor
        apply hbefore j (by omega) hj2
        right
        rcases hor with h | h
        · rw [h]
          intro hemp
          exact hex ⟨by omega, hemp⟩
        · exact h
    · rw [if_neg hc]
      by_contra hne
      have hlt : i < t := by omega
      apply hc
      refine ⟨by omega, ?_⟩
      have := hbefore i (le_refl i) hlt (Or.inl rfl)
      simp only [strcmp, ne_eq, ite_eq_left_iff, one_ne_zero, imp_false, not_not]
      intro he
      exact this he.symm

/-! ## Lazy derivatives -/

/-- The function `create_image` keeps the header and the `pict_id` and
`is_valid` fields of every slot. -/
theorem create_image_frame (env : externals) (res : Nat) (db : pictdb_file) (index : Nat) :
    (create_image env res db index).2.header = db.header ∧
      ∀ k, ((create_image env res db index).2.metadata k).pict_id = (db.metadata k).pict_id ∧
        ((create_image env res db index).2.metadata k).is_valid
          = (db.metadata k).is_valid := by
  unfold create_image
  simp only
  split
  · exact ⟨rfl, fun k => ⟨rfl, rfl⟩⟩
  · split
    · exact ⟨rfl, fun k => ⟨rfl, rfl⟩⟩
    · split
      · exact ⟨rfl, fun k => ⟨rfl, rfl⟩⟩
      · split
        · refine ⟨rfl, fun k => ?_⟩
          by_cases hk : k = index
          · subst hk
            simp
          · simp [Function.update_noteq hk]
        · refine ⟨rfl, fun k => ?_⟩
          by_cases hk : k = index
          · subst hk
            simp
          · simp [Function.update_noteq hk]

theorem lazily_resize_frame (env : externals) (res : Nat) (db : pictdb_file) (index : Nat) :
    (lazily_resize env res db index).2.header = db.header ∧
      ∀ k, ((lazily_resize env res db index).2.metadata k).pict_id = (db.metadata k).pict_id ∧
        ((lazily_resize env res db index).2.metadata k).is_valid
          = (db.metadata k).is_valid := by
  unfold lazily_resize
  split
  · exact ⟨rfl, fun k => ⟨rfl, rfl⟩⟩
  · split
    · exact ⟨rfl, fun k => ⟨rfl, rfl⟩⟩
    · split
      · exact ⟨rfl, fun k => ⟨rfl, rfl⟩⟩
      · split
        · exact ⟨rfl, fun k => ⟨rfl, rfl⟩⟩
        · exact create_image_frame env res db index

theorem resize_if_missing_frame (env : externals) (res : Nat) (db : pictdb_file)
    (index : Nat) :
    (resize_if_missing env res db index).2.header = db.header ∧
      ∀ k, ((resize_if_missing env res db index).2.metadata k).pict_id
          = (db.metadata k).pict_id ∧
        ((resize_if_missing env res db index).2.metadata k).is_valid
          = (db.metadata k).is_valid := by
  unfold resize_if_missing
  split
  · exact lazily_resize_frame env res db index
  · exact ⟨rfl, fun k => ⟨rfl, rfl⟩⟩

/-- A slot with a non-zero size for `res` is left alone by the resize step. -/
theorem resize_if_missing_present (env : externals) (res : Nat) (db : pictdb_file)
    (index : Nat) (hindex : index < db.header.max_files)
    (hsize : (db.metadata index).size.get res ≠ 0) :
    resize_if_missing env res db index = ( ZERO, db) := by
  have hres : res = RES_THUMB ∨ res = RES_SMALL ∨ res = RES_ORIG := by
    by_contra hc
    apply hsize
    simp only [not_or] at hc
    simp [res_array.get, hc.1, hc.2.1, hc.2.2]
  unfold resize_if_missing
  split
  · unfold lazily_resize
    by_cases h0 : res = RES_ORIG
    · simp [h0]
    · have h1 : ¬ (res ≠ RES_SMALL ∧ res ≠ RES_THUMB) := by
        rintro ⟨ha, hb⟩
        rcases hres with h | h | h
        · exact hb h
        · exact ha h
        · exact h0 h
      have h2 : ¬ index ≥ db.header.max_files := by omega
      simp [h0, h1, h2, hsize]
  · rfl

theorem do_read_unfold (env : externals) (pict_id : List Nat) (res : Nat) (db : pictdb_file)
    (index : Nat) (hindex : index = read_find pict_id db (db.header.max_files + 1) 0)
    (l : ret_code × pictdb_file) (hl : l = resize_if_missing env res db index)
    (rd : Nat × List Nat × FILE)
    (hrd : rd = fread ((l.2.metadata index).size.get res)
      (fseek_set l.2.fpdb ((l.2.metadata index).offset.get res))) :
    do_read env pict_id res db =
      if index ≥ db.header.max_files then ⟨ ERR_FILE_NOT_FOUND, [], 0, db⟩
      else if l.1 ≠ ZERO then ⟨l.1, [], 0, l.2⟩
      else if rd.1 ≠ 1 then
        ⟨ ERR_IO, [], (l.2.metadata index).size.get res, ⟨rd.2.2, l.2.header, l.2.metadata⟩⟩
      else
        ⟨ ZERO, rd.2.1, (l.2.metadata index).size.get res,
          ⟨rd.2.2, l.2.header, l.2.metadata⟩⟩ := by
  subst hindex hl hrd
  rfl

theorem fread_one (size : Nat) (f : FILE) (h : (fread size f).1 = 1) :
    size ≠ 0 ∧ f.pos + size ≤ f.bytes.length ∧
      fread size f = (1, (f.bytes.drop f.pos).take size, ⟨f.bytes, f.pos + size⟩) := by
  unfold fread at h ⊢
  by_cases h0 : size = 0
  · simp [h0] at h
  · by_cases h1 : f.pos + size ≤ f.bytes.length
    · simp [h0, h1]
    · simp [h0, h1] at h

/-- C10: lazy derivative idempotence.  Whenever a first `do_read(id, r)`
returns `0` (for `r` in `RES_SMALL`, `RES_THUMB`, and for `RES_ORIG` as well),
a second `do_read(id, r)` on the resulting handle returns `0` with the same
size and the same bytes, and leaves the handle as the first call left it: same
file (hence same length), same header, same metadata table.  No invariant of
the database is needed. -/
theorem do_read_twice (env : externals) (pict_id : List Nat) (res : Nat) (db : pictdb_file)
    (hz : (do_read env pict_id res db).ret = ZERO) :
    (do_read env pict_id res (do_read env pict_id res db).db).ret = ZERO ∧
      (do_read env pict_id res (do_read env pict_id res db).db).pict_size
        = (do_read env pict_id res db).pict_size ∧
      (do_read env pict_id res (do_read env pict_id res db).db).data
        = (do_read env pict_id res db).data ∧
      (do_read env pict_id res (do_read env pict_id res db).db).db
        = (do_read env pict_id res db).db ∧
      (do_read env pict_id res (do_read env pict_id res db).db).db.fpdb.bytes.length
        = (do_read env pict_id res db).db.fpdb.bytes.length := by
  have h1 := do_read_unfold env pict_id res db _ rfl _ rfl _ rfl
  by_cases hidx : read_find pict_id db (db.header.max_files + 1) 0 ≥ db.header.max_files
  · rw [h1, if_pos hidx] at hz
    simp at hz
  rw [if_neg hidx] at h1
  by_cases hl : (resize_if_missing env res db
      (read_find pict_id db (db.header.max_files + 1) 0)).1 ≠ ZERO
  · rw [h1, if_pos hl] at hz
    exact absurd hz hl
  rw [if_neg hl] at h1
  by_cases hrd : (fread
      (((resize_if_missing env res db
        (read_find pict_id db (db.header.max_files + 1) 0)).2.metadata
          (read_find pict_id db (db.header.max_files + 1) 0)).size.get res)
      (fseek_set
        (resize_if_missing env res db (read_find pict_id db (db.header.max_files + 1) 0)).2.fpdb
        (((resize_if_missing env res db
          (read_find pict_id db (db.header.max_files + 1) 0)).2.metadata
            (read_find pict_id db (db.header.max_files + 1) 0)).offset.get res))).1 ≠ 1
  · rw [h1, if_pos hrd] at hz
    simp at hz
  rw [if_neg hrd] at h1
  obtain ⟨hsz, _, hfr⟩ := fread_one _ _ (not_not.1 hrd)
  obtain ⟨hhead, hmeta⟩ := resize_if_missing_frame env res db
    (read_find pict_id db (db.header.max_files + 1) 0)
  rw [hfr] at h1
  simp only [fseek_set] at h1 hfr
  -- the second call
  have h2 := do_read_unfold env pict_id res (do_read env pict_id res db).db _ rfl _ rfl _ rfl
  have hfind : read_find pict_id (do_read env pict_id res db).db
      ((do_read env pict_id res db).db.header.max_files + 1) 0
      = read_find pict_id db (db.header.max_files + 1) 0 := by
    rw [h1]
    simp only [hhead]
    apply read_find_congr
    · simp only [hhead]
    · intro i
      exact (hmeta i).2
    · intro i
      exact (hmeta i).1
  rw [hfind] at h2
  have hmax : (do_read env pict_id res db).db.header.max_files = db.header.max_files := by
    rw [h1]
    simp only [hhead]
  have hpres : resize_if_missing env res (do_read env pict_id res db).db
      (read_find pict_id db (db.header.max_files + 1) 0)
      = ( ZERO, (do_read env pict_id res db).db) := by
    apply resize_if_missing_present
    · rw [hmax]
      omega
    · rw [h1]
      exact hsz
  rw [hpres, hmax, if_neg hidx] at h2
  simp only [ne_eq, not_true_eq_false, if_false] at h2
  have hrd2 : fread
      (((do_read env pict_id res db).db.metadata
        (read_find pict_id db (db.header.max_files + 1) 0)).size.get res)
      (fseek_set (do_read env pict_id res db).db.fpdb
        (((do_read env pict_id res db).db.metadata
          (read_find pict_id db (db.header.max_files + 1) 0)).offset.get res))
      = (1, (do_read env pict_id res db).data, (do_read env pict_id res db).db.fpdb) := by
    rw [h1]
    simp only [fseek_set]
    exact hfr
  rw [hrd2] at h2
  simp only [ne_eq, not_true_eq_false, if_false] at h2
  have hsame : (do_read env pict_id res (do_read env pict_id res db).db).db
      = (do_read env pict_id res db).db := by
    rw [h2]
  refine ⟨by rw [h2], ?_, by rw [h2], hsame, by rw [hsame]⟩
  rw [h2]
  simp only
  rw [h1]

theorem do_read_twice_witness :
    (do_read toy_env [97] RES_THUMB one_db).ret = ZERO ∧
      (do_read toy_env [97] RES_THUMB (do_read toy_env [97] RES_THUMB one_db).db).ret = ZERO ∧
      (do_read toy_env [97] RES_THUMB (do_read toy_env [97] RES_THUMB one_db).db).pict_size
        = (do_read toy_env [97] RES_THUMB one_db).pict_size ∧
      (do_read toy_env [97] RES_THUMB (do_read toy_env [97] RES_THUMB one_db).db).data
        = (do_read toy_env [97] RES_THUMB one_db).data ∧
      (do_read toy_env [97] RES_THUMB (do_read toy_env [97] RES_THUMB one_db).db).db
        = (do_read toy_env [97] RES_THUMB one_db).db ∧
      (do_read toy_env [97] RES_THUMB
          (do_read toy_env [97] RES_THUMB one_db).db).db.fpdb.bytes.length
        = (do_read toy_env [97] RES_THUMB one_db).db.fpdb.bytes.length :=
  ⟨by decide!, do_read_twice toy_env [97] RES_THUMB one_db (by decide!)⟩

/-! ## Reading back -/

/-- If every slot of the table is valid, the count of valid slots is
`max_files`. -/
theorem count_valid_full (db : pictdb_file)
    (h : ∀ j, j < db.header.max_files → (db.metadata j).is_valid = NON_EMPTY) :
    count_valid db = db.header.max_files := by
  unfold count_valid
  rw [List.countP_eq_length.2, List.length_range]
  intro a ha
  simpa using h a (List.mem_range.1 ha)

/-- When the header counts the valid slots and the database is not full, the
free-slot search of `do_insert` stops inside the table on a slot that is not
valid. -/
theorem insert_find_slot_free (db : pictdb_file) (hcount : count_inv db)
    (hroom : db.header.num_files ≠ db.header.max_files) :
    insert_find_slot db db.header.max_files 0 < db.header.max_files ∧
      (db.metadata (insert_find_slot db db.header.max_files 0)).is_valid ≠ NON_EMPTY := by
  have hle := insert_find_slot_le db db.header.max_files 0 (Nat.zero_le _)
  have hpass := (insert_find_slot_passed db db.header.max_files 0).2
  have hex := insert_find_slot_exit db db.header.max_files 0 (by omega)
  have hlt : insert_find_slot db db.header.max_files 0 < db.header.max_files := by
    by_contra hge
    have heq : insert_find_slot db db.header.max_files 0 = db.header.max_files := by omega
    apply hroom
    rw [hcount, count_valid_full]
    intro j hj
    exact (hpass j (Nat.zero_le j) (by omega)).2
  exact ⟨hlt, fun hv => hex ⟨hlt, hv⟩⟩

/-- The call `do_read(id, RES_ORIG)` when the scan stops at a slot of the table
whose original payload lies inside the file. -/
theorem do_read_orig_eq (env : externals) (pict_id : List Nat) (db : pictdb_file) (index : Nat)
    (hfind : read_find pict_id db (db.header.max_files + 1) 0 = index)
    (hindex : index < db.header.max_files)
    (hsize : (db.metadata index).size.get RES_ORIG ≠ 0)
    (hin : (db.metadata index).offset.get RES_ORIG + (db.metadata index).size.get RES_ORIG
      ≤ db.fpdb.bytes.length) :
    (do_read env pict_id RES_ORIG db).ret = ZERO ∧
      (do_read env pict_id RES_ORIG db).pict_size = (db.metadata index).size.get RES_ORIG ∧
      (do_read env pict_id RES_ORIG db).data =
        (db.fpdb.bytes.drop ((db.metadata index).offset.get RES_ORIG)).take
          ((db.metadata index).size.get RES_ORIG) := by
  have hnot : ¬ index ≥ db.header.max_files := by omega
  have hl : (if (db.metadata index).offset.get RES_ORIG = 0 ∨
      (db.metadata index).size.get RES_ORIG = 0
      then lazily_resize env RES_ORIG db index else ( ZERO, db)) = ( ZERO, db) := by
    split
    · simp [lazily_resize]
    · rfl
  unfold do_read
  simp only [hfind, hnot, if_false, hl, ne_eq, not_true_eq_false]
  simp [fread, fseek_set, hsize, hin]

/-- C1: insert/read round trip.  On a database that satisfies the invariants
of the data model (the catalog is in the file, the header counts the valid
slots, every valid slot has a non-zero original offset and size and its
payload lies in the payload region, its `SHA` is the digest of that payload),
with digests that do not collide between the stored payloads and `P`, for a
payload `P` shorter than `2^32` bytes and an identifier of at most 127 bytes:
if `do_insert(P, |P|, id)` returns `0` then `do_read(id, RES_ORIG)` on the
resulting handle returns `0`, with size `|P|` and data exactly `P`. -/
theorem insert_read_roundtrip (env : externals) (P pict_id : List Nat) (db : pictdb_file)
    (hcat : catalog_persisted db) (hcount : count_inv db) (horig : orig_inv db)
    (hpay : payload_inv db) (hsha : sha_inv env db)
    (hcoll : ∀ i, i < db.header.max_files → (db.metadata i).is_valid = NON_EMPTY →
      compare_SHA (env.SHA256 (stored_orig db i)) (env.SHA256 P) = 0 → stored_orig db i = P)
    (hlen : P.length < 2 ^ 32) (hid : pict_id.length ≤ MAX_PIC_ID)
    (hz : (do_insert env P pict_id db).1 = ZERO) :
    (do_read env pict_id RES_ORIG (do_insert env P pict_id db).2).ret = ZERO ∧
      (do_read env pict_id RES_ORIG (do_insert env P pict_id db).2).pict_size = P.length ∧
      (do_read env pict_id RES_ORIG (do_insert env P pict_id db).2).data = P := by
  obtain ⟨hroom, hfresh, w, ht, _, hcases⟩ :=
    do_insert_zero_shape env P pict_id db _ rfl hz
  obtain ⟨hlt, _⟩ := insert_find_slot_free db hcount hroom
  have hpass := (insert_find_slot_passed db db.header.max_files 0).2
  have htake : strncpy pict_id MAX_PIC_ID = pict_id := List.take_of_length_le hid
  have hslot : sizeof_header + insert_find_slot db db.header.max_files 0 * sizeof_metadata
      + sizeof_metadata ≤ catalog_size db := by
    unfold catalog_size
    have : (insert_find_slot db db.header.max_files 0 + 1) * sizeof_metadata
        ≤ db.header.max_files * sizeof_metadata := Nat.mul_le_mul_right _ hlt
    simp only [sizeof_metadata, sizeof_header] at *
    omega
  have hcat1 : catalog_size db ≤ db.fpdb.bytes.length := hcat
  -- the scan of `do_read` finds the new slot in any state that keeps the other slots
  have hscan : ∀ (db1 : pictdb_file), db1.header.max_files = db.header.max_files →
      (db1.metadata (insert_find_slot db db.header.max_files 0)).pict_id = pict_id →
      (db1.metadata (insert_find_slot db db.header.max_files 0)).is_valid = NON_EMPTY →
      (∀ j, j ≠ insert_find_slot db db.header.max_files 0 → db1.metadata j = db.metadata j) →
      read_find pict_id db1 (db1.header.max_files + 1) 0
        = insert_find_slot db db.header.max_files 0 := by
    intro db1 hmax hp hv hoth
    apply read_find_found pict_id db1 _ (by omega) hp _ _ (Nat.zero_le _) (by omega)
    · right
      rw [hv]
      decide
    · intro j _ hj _ he
      have hjv := (hpass j (Nat.zero_le j) hj).2
      have := hfresh j (by omega) hjv
      rw [hoth j (by omega)] at he
      apply this
      simp [strncmp, he]
  rcases hcases with ⟨j, hj1, hj2, hj3, hj4, _, hj6⟩ | ⟨_, himg, heq⟩
  · obtain ⟨ho, hs⟩ := horig j hj1 hj3
    obtain ⟨hp1, hp2⟩ := hpay j hj1 hj3
    have heq := hj6 ho
    have hstored : stored_orig db j = P := by
      apply hcoll j hj1 hj3
      exact compare_SHA_trans _ _ _ (compare_SHA_symm _ _ (hsha j hj1 hj3)) hj4
    rw [heq]
    have hlen2 : ∀ (b1 b2 : List Nat), b1.length = sizeof_header → b2.length = sizeof_metadata →
        (write_at (write_at db.fpdb.bytes 0 b1)
          (sizeof_header + insert_find_slot db db.header.max_files 0 * sizeof_metadata)
          b2).length = db.fpdb.bytes.length := by
      intro b1 b2 h1 h2
      apply write_at_twice_length <;> omega
    have hdrop : ∀ (b1 b2 : List Nat), b1.length = sizeof_header →
        b2.length = sizeof_metadata →
        (write_at (write_at db.fpdb.bytes 0 b1)
          (sizeof_header + insert_find_slot db db.header.max_files 0 * sizeof_metadata)
          b2).drop ((db.metadata j).offset.get RES_ORIG)
          = db.fpdb.bytes.drop ((db.metadata j).offset.get RES_ORIG) := by
      intro b1 b2 h1 h2
      apply write_at_twice_drop <;> omega
    have hr := do_read_orig_eq env pict_id
      (⟨⟨write_at (write_at db.fpdb.bytes 0 (header_bytes (header_after_insert db.header)))
            (sizeof_header + insert_find_slot db db.header.max_files 0 * sizeof_metadata)
            (metadata_bytes ⟨strncpy pict_id MAX_PIC_ID, env.SHA256 P,
              (w % 2 ^ 32, ht % 2 ^ 32), (db.metadata j).size, (db.metadata j).offset,
              NON_EMPTY,
              (db.metadata (insert_find_slot db db.header.max_files 0)).unused_16⟩),
          sizeof_header + insert_find_slot db db.header.max_files 0 * sizeof_metadata
            + sizeof_metadata⟩,
        header_after_insert db.header,
        Function.update db.metadata (insert_find_slot db db.header.max_files 0)
          ⟨strncpy pict_id MAX_PIC_ID, env.SHA256 P, (w % 2 ^ 32, ht % 2 ^ 32),
            (db.metadata j).size, (db.metadata j).offset, NON_EMPTY,
            (db.metadata (insert_find_slot db db.header.max_files 0)).unused_16⟩⟩ : pictdb_file)
      (insert_find_slot db db.header.max_files 0)
      (hscan _ rfl (by simp [htake]) (by simp)
        (fun k hk => by simp [Function.update_noteq hk]))
      hlt (by simp; omega)
      (by
        simp only [Function.update_same]
        rw [hlen2 _ _ (header_bytes_length _) (metadata_bytes_length _)]
        exact hp2)
    simp only [Function.update_same] at hr
    rw [hdrop _ _ (header_bytes_length _) (metadata_bytes_length _)] at hr
    have hst : (db.fpdb.bytes.drop ((db.metadata j).offset.get RES_ORIG)).take
        ((db.metadata j).size.get RES_ORIG) = P := hstored
    refine ⟨hr.1, ?_, by rw [hr.2.2, hst]⟩
    rw [hr.2.1, ← hst, List.length_take, List.length_drop]
    omega
  · rw [heq]
    have hlen2 : ∀ (b1 b2 : List Nat), b1.length = sizeof_header → b2.length = sizeof_metadata →
        (write_at (write_at (db.fpdb.bytes ++ P) 0 b1)
          (sizeof_header + insert_find_slot db db.header.max_files 0 * sizeof_metadata)
          b2).length = db.fpdb.bytes.length + P.length := by
      intro b1 b2 h1 h2
      rw [write_at_twice_length, List.length_append] <;>
        simp only [List.length_append] <;> omega
    have hdrop : ∀ (b1 b2 : List Nat), b1.length = sizeof_header →
        b2.length = sizeof_metadata →
        (write_at (write_at (db.fpdb.bytes ++ P) 0 b1)
          (sizeof_header + insert_find_slot db db.header.max_files 0 * sizeof_metadata)
          b2).drop db.fpdb.bytes.length = P := by
      intro b1 b2 h1 h2
      rw [write_at_twice_drop, List.drop_left] <;> omega
    have hPpos : P.length ≠ 0 := fun h0 => himg (List.length_eq_zero.1 h0)
    have hr := do_read_orig_eq env pict_id
      (⟨⟨write_at
            (write_at (db.fpdb.bytes ++ P) 0 (header_bytes (header_after_insert db.header)))
            (sizeof_header + insert_find_slot db db.header.max_files 0 * sizeof_metadata)
            (metadata_bytes ⟨strncpy pict_id MAX_PIC_ID, env.SHA256 P,
              (w % 2 ^ 32, ht % 2 ^ 32), ⟨0, 0, P.length % 2 ^ 32⟩,
              ⟨0, 0, db.fpdb.bytes.length⟩, NON_EMPTY,
              (db.metadata (insert_find_slot db db.header.max_files 0)).unused_16⟩),
          sizeof_header + insert_find_slot db db.header.max_files 0 * sizeof_metadata
            + sizeof_metadata⟩,
        header_after_insert db.header,
        Function.update db.metadata (insert_find_slot db db.header.max_files 0)
          ⟨strncpy pict_id MAX_PIC_ID, env.SHA256 P, (w % 2 ^ 32, ht % 2 ^ 32),
            ⟨0, 0, P.length % 2 ^ 32⟩, ⟨0, 0, db.fpdb.bytes.length⟩, NON_EMPTY,
            (db.metadata (insert_find_slot db db.header.max_files 0)).unused_16⟩⟩ :
          pictdb_file)
      (insert_find_slot db db.header.max_files 0)
      (hscan _ rfl (by simp [htake]) (by simp)
        (fun k hk => by simp [Function.update_noteq hk]))
      hlt
      (by
        simp only [Function.update_same, res_array_get_orig, Nat.mod_eq_of_lt hlen]
        exact hPpos)
      (by
        simp only [Function.update_same, res_array_get_orig, Nat.mod_eq_of_lt hlen]
        rw [hlen2 _ _ (header_bytes_length _) (metadata_bytes_length _)])
    obtain ⟨hr1, hr2, hr3⟩ := hr
    refine ⟨hr1, ?_, ?_⟩
    · rw [hr2]
      simp only [Function.update_same, res_array_get_orig, Nat.mod_eq_of_lt hlen]
    · rw [hr3]
      simp only [Function.update_same, res_array_get_orig, Nat.mod_eq_of_lt hlen]
      rw [hdrop _ _ (header_bytes_length _) (metadata_bytes_length _)]
      exact List.take_of_length_le (le_refl _)

theorem insert_read_roundtrip_witness :
    (catalog_persisted one_db ∧ count_inv one_db ∧ orig_inv one_db ∧ payload_inv one_db ∧
        sha_inv toy_env one_db ∧ (do_insert toy_env [4, 5] [98] one_db).1 = ZERO) ∧
      (do_read toy_env [98] RES_ORIG (do_insert toy_env [4, 5] [98] one_db).2).ret = ZERO ∧
      (do_read toy_env [98] RES_ORIG (do_insert toy_env [4, 5] [98] one_db).2).pict_size
        = [4, 5].length ∧
      (do_read toy_env [98] RES_ORIG (do_insert toy_env [4, 5] [98] one_db).2).data = [4, 5] :=
  ⟨by decide!,
    insert_read_roundtrip toy_env [4, 5] [98] one_db (by decide!) (by decide!) (by decide!)
      (by decide!) (by decide!) (by decide!) (by decide!) (by decide!) (by decide!)⟩

/-! ## The scans of `do_read` and `do_delete` compare slot 0 without testing
its validity -/

/-- C2 (the code departs from the claim): after `do_create` with capacity 1,
a successful `do_insert` of `[1, 2, 3]` as `a` and a successful `do_delete` of
`a`, no valid slot carries `a`, yet `do_read(a, RES_ORIG)` returns `0` with the
deleted payload instead of `ERR_FILE_NOT_FOUND`: the scan compares the
identifier of slot 0 before any validity test. -/
theorem do_read_deleted_id_found :
    (do_create (blank_db 1)).1 = ZERO ∧
      (do_insert toy_env [1, 2, 3] [97] (fresh_db 1)).1 = ZERO ∧
      (do_delete [97] (do_insert toy_env [1, 2, 3] [97] (fresh_db 1)).2).1 = ZERO ∧
      (∀ i, i < deleted_db.header.max_files → (deleted_db.metadata i).is_valid = NON_EMPTY →
        (deleted_db.metadata i).pict_id ≠ [97]) ∧
      (do_read toy_env [97] RES_ORIG deleted_db).ret = ZERO ∧
      (do_read toy_env [97] RES_ORIG deleted_db).data = [1, 2, 3] ∧
      (do_read toy_env [97] RES_ORIG deleted_db).ret ≠ ERR_FILE_NOT_FOUND := by
  decide!

/-- C3 (the code departs from the claim): in the database of capacity 2 that
held `a` and `b` and from which `a` was deleted, `num_files` is 1 and no valid
slot carries `a`, yet a second `do_delete(a)` returns `0` instead of
`ERR_FILE_NOT_FOUND`. -/
theorem do_delete_deleted_id_found :
    0 < tombstone_db.header.num_files ∧
      (∀ i, i < tombstone_db.header.max_files →
        (tombstone_db.metadata i).is_valid = NON_EMPTY →
        (tombstone_db.metadata i).pict_id ≠ [97]) ∧
      (do_delete [97] tombstone_db).1 = ZERO ∧
      (do_delete [97] tombstone_db).1 ≠ ERR_FILE_NOT_FOUND := by
  decide!

/-- C4 (the code departs from the claim): the run `do_create` (capacity 2),
`do_insert` of `a`, `do_insert` of `b`, `do_delete(a)`, `do_delete(a)` consists
of successful calls only and ends with `num_files = 0` while one slot is still
valid. -/
theorem count_invariant_broken :
    (do_create (blank_db 2)).1 = ZERO ∧
      (do_insert toy_env [1, 2, 3] [97] (fresh_db 2)).1 = ZERO ∧
      (do_insert toy_env [4, 5] [98] one_db).1 = ZERO ∧
      (do_delete [97] two_db).1 = ZERO ∧
      (do_delete [97] tombstone_db).1 = ZERO ∧
      (do_delete [97] tombstone_db).2.header.num_files = 0 ∧
      count_valid (do_delete [97] tombstone_db).2 = 1 ∧
      ¬ count_inv (do_delete [97] tombstone_db).2 := by
  decide!

/-! ## Dedup on insert -/

/-- C5 (counterexample): in `shared_db`, which satisfies the invariants, slot 1
is valid and holds the payload `[1, 2, 3]`; a successful `do_insert` of that
payload under the fresh identifier `b` fills slot 2, whose thumbnail offset
and size are not those of slot 1 (they are those of slot 0, the lowest slot
with the digest). -/
theorem dedup_insert_derivatives_differ :
    db_invariants toy_env shared_db ∧
      1 < shared_db.header.max_files ∧
      (shared_db.metadata 1).is_valid = NON_EMPTY ∧
      stored_orig shared_db 1 = [1, 2, 3] ∧
      (∀ i, i < shared_db.header.max_files → (shared_db.metadata i).is_valid = NON_EMPTY →
        (shared_db.metadata i).pict_id ≠ [98]) ∧
      (do_insert toy_env [1, 2, 3] [98] shared_db).1 = ZERO ∧
      insert_find_slot shared_db shared_db.header.max_files 0 = 2 ∧
      ((do_insert toy_env [1, 2, 3] [98] shared_db).2.metadata 2).offset.get RES_THUMB
        ≠ (shared_db.metadata 1).offset.get RES_THUMB ∧
      ((do_insert toy_env [1, 2, 3] [98] shared_db).2.metadata 2).size.get RES_THUMB
        ≠ (shared_db.metadata 1).size.get RES_THUMB := by
  decide!

/-- C5 (amended): on a database that satisfies the invariants (catalog in the
file, header count, non-zero original offsets, `SHA` the digest of the stored
payload, equal digests share the original offset and size) in which a valid
slot `a` holds the payload `P`, a successful `do_insert(P, |P|, b)` fills the
free slot with the sizes and offsets, for all three resolutions, of the
lowest-index valid slot `j` whose digest is that of `P`; its original offset
and size are those of slot `a`; and nothing is appended: the file has the same
length, and the same payload region, before and after. -/
theorem dedup_insert_shares (env : externals) (P pict_id : List Nat) (db : pictdb_file)
    (a : Nat) (hcat : catalog_persisted db) (hcount : count_inv db) (horig : orig_inv db)
    (hsha : sha_inv env db) (hdedup : dedup_inv db)
    (ha : a < db.header.max_files) (hvalid : (db.metadata a).is_valid = NON_EMPTY)
    (hholds : stored_orig db a = P)
    (hz : (do_insert env P pict_id db).1 = ZERO) :
    ∃ j, j < db.header.max_files ∧ (db.metadata j).is_valid = NON_EMPTY ∧
      compare_SHA (db.metadata j).SHA (env.SHA256 P) = 0 ∧
      (∀ k, k < j → (db.metadata k).is_valid = NON_EMPTY →
        compare_SHA (db.metadata k).SHA (env.SHA256 P) ≠ 0) ∧
      ((do_insert env P pict_id db).2.metadata
          (insert_find_slot db db.header.max_files 0)).size = (db.metadata j).size ∧
      ((do_insert env P pict_id db).2.metadata
          (insert_find_slot db db.header.max_files 0)).offset = (db.metadata j).offset ∧
      ((do_insert env P pict_id db).2.metadata
          (insert_find_slot db db.header.max_files 0)).offset.get RES_ORIG
        = (db.metadata a).offset.get RES_ORIG ∧
      ((do_insert env P pict_id db).2.metadata
          (insert_find_slot db db.header.max_files 0)).size.get RES_ORIG
        = (db.metadata a).size.get RES_ORIG ∧
      (do_insert env P pict_id db).2.fpdb.bytes.length = db.fpdb.bytes.length ∧
      (do_insert env P pict_id db).2.fpdb.bytes.drop (catalog_size db)
        = db.fpdb.bytes.drop (catalog_size db) := by
  obtain ⟨hroom, _, w, ht, _, hcases⟩ := do_insert_zero_shape env P pict_id db _ rfl hz
  obtain ⟨hlt, hfree⟩ := insert_find_slot_free db hcount hroom
  have hcmp : compare_SHA (db.metadata a).SHA (env.SHA256 P) = 0 := by
    have := hsha a ha hvalid
    rw [hholds] at this
    exact this
  have hane : a ≠ insert_find_slot db db.header.max_files 0 := by
    intro he
    rw [← he] at hfree
    exact hfree hvalid
  have hslot : sizeof_header + insert_find_slot db db.header.max_files 0 * sizeof_metadata
      + sizeof_metadata ≤ catalog_size db := by
    unfold catalog_size
    have : (insert_find_slot db db.header.max_files 0 + 1) * sizeof_metadata
        ≤ db.header.max_files * sizeof_metadata := Nat.mul_le_mul_right _ hlt
    simp only [sizeof_metadata, sizeof_header] at *
    omega
  have hcat1 : catalog_size db ≤ db.fpdb.bytes.length := hcat
  rcases hcases with ⟨j, hj1, hj2, hj3, hj4, hj5, hj6⟩ | ⟨hno, _, _⟩
  · have heq := hj6 (horig j hj1 hj3).1
    have hshare := hdedup j hj1 a ha
      ⟨hj3, hvalid, compare_SHA_trans _ _ _ hj4 (compare_SHA_symm _ _ hcmp)⟩
    refine ⟨j, hj1, hj3, hj4, ?_, ?_, ?_, ?_, ?_, ?_, ?_⟩
    · intro k hk hkv
      apply hj5 k hk _ hkv
      intro he
      rw [he] at hkv
      exact hfree hkv
    · rw [heq]
      simp
    · rw [heq]
      simp
    · rw [heq]
      simpa using hshare.1
    · rw [heq]
      simpa using hshare.2
    · rw [heq]
      simp only
      apply write_at_twice_length
      · rw [header_bytes_length]
        omega
      · rw [metadata_bytes_length]
        omega
    · rw [heq]
      simp only
      apply write_at_twice_drop
      · rw [header_bytes_length]
        omega
      · rw [metadata_bytes_length]
        omega
  · exact absurd hcmp (hno a ha hane hvalid)

theorem dedup_insert_shares_witness :
    (do_insert toy_env [1, 2, 3] [98] shared_db).1 = ZERO ∧
      ∃ j, j < shared_db.header.max_files ∧ (shared_db.metadata j).is_valid = NON_EMPTY ∧
        compare_SHA (shared_db.metadata j).SHA (toy_env.SHA256 [1, 2, 3]) = 0 ∧
        (∀ k, k < j → (shared_db.metadata k).is_valid = NON_EMPTY →
          compare_SHA (shared_db.metadata k).SHA (toy_env.SHA256 [1, 2, 3]) ≠ 0) ∧
        ((do_insert toy_env [1, 2, 3] [98] shared_db).2.metadata
            (insert_find_slot shared_db shared_db.header.max_files 0)).size
          = (shared_db.metadata j).size ∧
        ((do_insert toy_env [1, 2, 3] [98] shared_db).2.metadata
            (insert_find_slot shared_db shared_db.header.max_files 0)).offset
          = (shared_db.metadata j).offset ∧
        ((do_insert toy_env [1, 2, 3] [98] shared_db).2.metadata
            (insert_find_slot shared_db shared_db.header.max_files 0)).offset.get RES_ORIG
          = (shared_db.metadata 1).offset.get RES_ORIG ∧
        ((do_insert toy_env [1, 2, 3] [98] shared_db).2.metadata
            (insert_find_slot shared_db shared_db.header.max_files 0)).size.get RES_ORIG
          = (shared_db.metadata 1).size.get RES_ORIG ∧
        (do_insert toy_env [1, 2, 3] [98] shared_db).2.fpdb.bytes.length
          = shared_db.fpdb.bytes.length ∧
        (do_insert toy_env [1, 2, 3] [98] shared_db).2.fpdb.bytes.drop (catalog_size shared_db)
          = shared_db.fpdb.bytes.drop (catalog_size shared_db) :=
  ⟨by decide!,
    dedup_insert_shares toy_env [1, 2, 3] [98] shared_db 1 (by decide!) (by decide!)
      (by decide!) (by decide!) (by decide!) (by decide!) (by decide!) (by decide!)
      (by decide!)⟩

/-! ## Rejected inserts -/

/-- C6: on a database with `num_files == max_files`, `do_insert` returns
`ERR_FULL_DATABASE` and hands back the handle unchanged: same header, same
metadata table, same file; hence every `do_read` gives the same result after
the call as before. -/
theorem do_insert_full_database (env : externals) (img pict_id : List Nat) (db : pictdb_file)
    (hfull : db.header.num_files = db.header.max_files) :
    do_insert env img pict_id db = ( ERR_FULL_DATABASE, db) ∧
      ∀ (id : List Nat) (res : Nat),
        do_read env id res (do_insert env img pict_id db).2 = do_read env id res db := by
  have h : do_insert env img pict_id db = ( ERR_FULL_DATABASE, db) := by
    simp [do_insert, hfull]
  refine ⟨h, ?_⟩
  intro id res
  rw [h]

theorem do_insert_full_database_witness :
    (do_insert toy_env [1, 2, 3] [97] (fresh_db 1)).2.header.num_files
        = (do_insert toy_env [1, 2, 3] [97] (fresh_db 1)).2.header.max_files ∧
      (do_insert toy_env [4, 5] [98] (do_insert toy_env [1, 2, 3] [97] (fresh_db 1)).2
          = ( ERR_FULL_DATABASE, (do_insert toy_env [1, 2, 3] [97] (fresh_db 1)).2) ∧
        ∀ (id : List Nat) (res : Nat),
          do_read toy_env id res
              (do_insert toy_env [4, 5] [98]
                (do_insert toy_env [1, 2, 3] [97] (fresh_db 1)).2).2
            = do_read toy_env id res (do_insert toy_env [1, 2, 3] [97] (fresh_db 1)).2) :=
  ⟨by decide!,
    do_insert_full_database toy_env [4, 5] [98]
      (do_insert toy_env [1, 2, 3] [97] (fresh_db 1)).2 (by decide!)⟩

/-- C7: on a database with `num_files < max_files`, inserting under an
identifier that is the `pict_id` of a valid slot returns `ERR_DUPLICATE_ID` and
hands back the handle unchanged: same header, same metadata table, same
file. -/
theorem do_insert_duplicate_id (env : externals) (img pict_id : List Nat) (db : pictdb_file)
    (hroom : db.header.num_files < db.header.max_files)
    (i : Nat) (hi : i < db.header.max_files)
    (hvalid : (db.metadata i).is_valid = NON_EMPTY)
    (hid : (db.metadata i).pict_id = pict_id) :
    do_insert env img pict_id db = ( ERR_DUPLICATE_ID, db) := by
  have hne : db.header.num_files ≠ db.header.max_files := by omega
  have hex : insert_id_exists pict_id db db.header.max_files 0 = true :=
    insert_id_exists_eq_true pict_id db db.header.max_files 0 i (Nat.zero_le i) (by omega)
      hvalid (by simp [strncmp, hid])
  simp [do_insert, hne, hex]

theorem do_insert_duplicate_id_witness :
    (do_insert toy_env [1, 2, 3] [97] (fresh_db 2)).2.header.num_files
        < (do_insert toy_env [1, 2, 3] [97] (fresh_db 2)).2.header.max_files ∧
      do_insert toy_env [4, 5] [97] (do_insert toy_env [1, 2, 3] [97] (fresh_db 2)).2
        = ( ERR_DUPLICATE_ID, (do_insert toy_env [1, 2, 3] [97] (fresh_db 2)).2) :=
  ⟨by decide!,
    do_insert_duplicate_id toy_env [4, 5] [97]
      (do_insert toy_env [1, 2, 3] [97] (fresh_db 2)).2 (by decide!) 0 (by decide!)
      (by decide!) (by decide!)⟩

/-! ## Effect of an insert that appends -/

/-- C8 (counterexample): on a freshly created database of capacity 1 the
insert of `[1, 2, 3]` under an identifier of 128 bytes succeeds, and the
`pict_id` of the slot it fills is not the identifier: `strncpy` keeps its
first 127 bytes. -/
theorem insert_long_id_truncated :
    db_invariants toy_env (fresh_db 1) ∧
      (fresh_db 1).header.num_files < (fresh_db 1).header.max_files ∧
      (∀ i, i < (fresh_db 1).header.max_files →
        ((fresh_db 1).metadata i).is_valid = NON_EMPTY →
        ((fresh_db 1).metadata i).pict_id ≠ List.replicate 128 97 ∧
        compare_SHA ((fresh_db 1).metadata i).SHA (toy_env.SHA256 [1, 2, 3]) ≠ 0) ∧
      (do_insert toy_env [1, 2, 3] (List.replicate 128 97) (fresh_db 1)).1 = ZERO ∧
      insert_find_slot (fresh_db 1) (fresh_db 1).header.max_files 0 = 0 ∧
      ((do_insert toy_env [1, 2, 3] (List.replicate 128 97) (fresh_db 1)).2.metadata 0).pict_id
        ≠ List.replicate 128 97 ∧
      ((do_insert toy_env [1, 2, 3] (List.replicate 128 97) (fresh_db 1)).2.metadata 0).pict_id
        = List.replicate 127 97 := by
  decide!

/-- C8 (amended): on a database whose catalog is in the file and whose header
counts the valid slots, a successful `do_insert` of a payload whose digest
differs from that of every valid slot fills the lowest-index slot `i` that is
not `NON_EMPTY`: `pict_id` is the identifier cut to its first 127 bytes, `SHA`
the digest of the payload, `size[RES_ORIG]` the payload length modulo `2^32`,
`offset[RES_ORIG]` the file length before the insert, sizes and offsets of the
derivatives `0`, `res_orig` the probed `(width, height)`, `is_valid`
`NON_EMPTY`.  `num_files` and `db_version` are incremented by 1 (modulo
`2^32`), the other header fields and every other slot are unchanged, and the
file is the old payload region followed by exactly the payload bytes. -/
theorem insert_append_effect (env : externals) (P pict_id : List Nat) (db : pictdb_file)
    (hcat : catalog_persisted db) (hcount : count_inv db)
    (hnew : ∀ k, k < db.header.max_files → (db.metadata k).is_valid = NON_EMPTY →
      compare_SHA (db.metadata k).SHA (env.SHA256 P) ≠ 0)
    (hz : (do_insert env P pict_id db).1 = ZERO) :
    insert_find_slot db db.header.max_files 0 < db.header.max_files ∧
    (db.metadata (insert_find_slot db db.header.max_files 0)).is_valid ≠ NON_EMPTY ∧
    (∀ j, j < insert_find_slot db db.header.max_files 0 →
      (db.metadata j).is_valid = NON_EMPTY) ∧
    (∃ w ht, env.vips_size P = some (w, ht) ∧
      (do_insert env P pict_id db).2.metadata (insert_find_slot db db.header.max_files 0) =
        ⟨pict_id.take MAX_PIC_ID, env.SHA256 P, (w % 2 ^ 32, ht % 2 ^ 32),
          ⟨0, 0, P.length % 2 ^ 32⟩, ⟨0, 0, db.fpdb.bytes.length⟩, NON_EMPTY,
          (db.metadata (insert_find_slot db db.header.max_files 0)).unused_16⟩) ∧
    (∀ j, j ≠ insert_find_slot db db.header.max_files 0 →
      (do_insert env P pict_id db).2.metadata j = db.metadata j) ∧
    (do_insert env P pict_id db).2.header.num_files = (db.header.num_files + 1) % 2 ^ 32 ∧
    (do_insert env P pict_id db).2.header.db_version = (db.header.db_version + 1) % 2 ^ 32 ∧
    (do_insert env P pict_id db).2.header.db_name = db.header.db_name ∧
    (do_insert env P pict_id db).2.header.max_files = db.header.max_files ∧
    (do_insert env P pict_id db).2.header.res_resized = db.header.res_resized ∧
    (do_insert env P pict_id db).2.fpdb.bytes.length = db.fpdb.bytes.length + P.length ∧
    (do_insert env P pict_id db).2.fpdb.bytes.drop db.fpdb.bytes.length = P ∧
    (do_insert env P pict_id db).2.fpdb.bytes.drop (catalog_size db)
      = db.fpdb.bytes.drop (catalog_size db) ++ P := by
  obtain ⟨hroom, _, w, ht, hv, hcases⟩ := do_insert_zero_shape env P pict_id db _ rfl hz
  obtain ⟨hlt, hfree⟩ := insert_find_slot_free db hcount hroom
  have hpass := (insert_find_slot_passed db db.header.max_files 0).2
  have hslot : sizeof_header + insert_find_slot db db.header.max_files 0 * sizeof_metadata
      + sizeof_metadata ≤ catalog_size db := by
    unfold catalog_size
    have : (insert_find_slot db db.header.max_files 0 + 1) * sizeof_metadata
        ≤ db.header.max_files * sizeof_metadata := Nat.mul_le_mul_right _ hlt
    simp only [sizeof_metadata, sizeof_header] at *
    omega
  have hcat1 : catalog_size db ≤ db.fpdb.bytes.length := hcat
  refine ⟨hlt, hfree, fun j hj => (hpass j (Nat.zero_le j) hj).2, ?_⟩
  rcases hcases with ⟨j, hj1, _, hj3, hj4, _, _⟩ | ⟨_, _, heq⟩
  · exact absurd hj4 (hnew j hj1 hj3)
  · rw [heq]
    refine ⟨⟨w, ht, hv, by simp [strncpy]⟩, ?_, rfl, rfl, rfl, rfl, rfl, ?_, ?_, ?_⟩
    · intro j hj
      simp [Function.update_noteq hj]
    · simp only
      rw [write_at_twice_length, List.length_append]
      · rw [header_bytes_length, List.length_append]
        omega
      · rw [metadata_bytes_length, List.length_append]
        omega
    · simp only
      rw [write_at_twice_drop, List.drop_left]
      · rw [header_bytes_length]
        omega
      · rw [metadata_bytes_length]
        omega
    · simp only
      rw [write_at_twice_drop, List.drop_append_of_le_length hcat1]
      · rw [header_bytes_length]
        omega
      · rw [metadata_bytes_length]
        omega

theorem insert_append_effect_witness :
    (catalog_persisted one_db ∧ count_inv one_db ∧
        (do_insert toy_env [4, 5] [98] one_db).1 = ZERO) ∧
      insert_find_slot one_db one_db.header.max_files 0 < one_db.header.max_files ∧
      (one_db.metadata (insert_find_slot one_db one_db.header.max_files 0)).is_valid
        ≠ NON_EMPTY ∧
      (∀ j, j < insert_find_slot one_db one_db.header.max_files 0 →
        (one_db.metadata j).is_valid = NON_EMPTY) ∧
      (∃ w ht, toy_env.vips_size [4, 5] = some (w, ht) ∧
        (do_insert toy_env [4, 5] [98] one_db).2.metadata
            (insert_find_slot one_db one_db.header.max_files 0) =
          ⟨[98].take MAX_PIC_ID, toy_env.SHA256 [4, 5], (w % 2 ^ 32, ht % 2 ^ 32),
            ⟨0, 0, [4, 5].length % 2 ^ 32⟩, ⟨0, 0, one_db.fpdb.bytes.length⟩, NON_EMPTY,
            (one_db.metadata
              (insert_find_slot one_db one_db.header.max_files 0)).unused_16⟩) ∧
      (∀ j, j ≠ insert_find_slot one_db one_db.header.max_files 0 →
        (do_insert toy_env [4, 5] [98] one_db).2.metadata j = one_db.metadata j) ∧
      (do_insert toy_env [4, 5] [98] one_db).2.header.num_files
        = (one_db.header.num_files + 1) % 2 ^ 32 ∧
      (do_insert toy_env [4, 5] [98] one_db).2.header.db_version
        = (one_db.header.db_version + 1) % 2 ^ 32 ∧
      (do_insert toy_env [4, 5] [98] one_db).2.header.db_name = one_db.header.db_name ∧
      (do_insert toy_env [4, 5] [98] one_db).2.header.max_files = one_db.header.max_files ∧
      (do_insert toy_env [4, 5] [98] one_db).2.header.res_resized
        = one_db.header.res_resized ∧
      (do_insert toy_env [4, 5] [98] one_db).2.fpdb.bytes.length
        = one_db.fpdb.bytes.length + [4, 5].length ∧
      (do_insert toy_env [4, 5] [98] one_db).2.fpdb.bytes.drop one_db.fpdb.bytes.length
        = [4, 5] ∧
      (do_insert toy_env [4, 5] [98] one_db).2.fpdb.bytes.drop (catalog_size one_db)
        = one_db.fpdb.bytes.drop (catalog_size one_db) ++ [4, 5] :=
  ⟨by decide!,
    insert_append_effect toy_env [4, 5] [98] one_db (by decide!) (by decide!) (by decide!)
      (by decide!)⟩

/-! ## Effect of a delete -/

/-- C9 (counterexample): `undercount_db` is reached from `do_create` by
successful calls; its slot 1 is valid and carries `b`, yet `do_delete(b)`
returns `ERR_IO` and changes nothing, because the header has `num_files = 0`. -/
theorem do_delete_valid_id_refused :
    1 < undercount_db.header.max_files ∧
      (undercount_db.metadata 1).is_valid = NON_EMPTY ∧
      (undercount_db.metadata 1).pict_id = [98] ∧
      (do_delete [98] undercount_db).1 = ERR_IO ∧
      (do_delete [98] undercount_db).1 ≠ ZERO ∧
      ((do_delete [98] undercount_db).2.metadata 1).is_valid = NON_EMPTY := by
  decide!

/-- C9 (amended): on a database with `num_files ≠ 0` in which `picture_name` is
the `pict_id` of a valid slot `i` of the table and of no slot the scan compares
before `i` (slot 0 and the slots below `i` that are not `EMPTY`),
`do_delete` returns `0`, sets `is_valid` of slot `i` to `EMPTY` and leaves its
other fields, decrements `num_files` by 1, increments `db_version` by 1
(modulo `2^32`), leaves the other header fields and every other slot, and
leaves every byte of the payload region of the file. -/
theorem do_delete_effect (picture_name : List Nat) (db : pictdb_file) (i : Nat)
    (hnum : db.header.num_files ≠ 0) (hi : i < db.header.max_files)
    (hvalid : (db.metadata i).is_valid = NON_EMPTY)
    (hid : (db.metadata i).pict_id = picture_name)
    (hfirst : ∀ j, j < i → (j = 0 ∨ (db.metadata j).is_valid ≠ EMPTY) →
      (db.metadata j).pict_id ≠ picture_name) :
    (do_delete picture_name db).1 = ZERO ∧
    (do_delete picture_name db).2.metadata i =
      ⟨(db.metadata i).pict_id, (db.metadata i).SHA, (db.metadata i).res_orig,
        (db.metadata i).size, (db.metadata i).offset, EMPTY, (db.metadata i).unused_16⟩ ∧
    (∀ j, j ≠ i → (do_delete picture_name db).2.metadata j = db.metadata j) ∧
    (do_delete picture_name db).2.header.num_files = db.header.num_files - 1 ∧
    (do_delete picture_name db).2.header.db_version = (db.header.db_version + 1) % 2 ^ 32 ∧
    (do_delete picture_name db).2.header.db_name = db.header.db_name ∧
    (do_delete picture_name db).2.header.max_files = db.header.max_files ∧
    (do_delete picture_name db).2.header.res_resized = db.header.res_resized ∧
    (do_delete picture_name db).2.fpdb.bytes.drop (catalog_size db)
      = db.fpdb.bytes.drop (catalog_size db) := by
  have hfind : delete_find picture_name db (db.header.max_files + 1) 0 = i := by
    apply delete_find_found picture_name db i hi hid _ _ (Nat.zero_le i) (by omega)
    · right
      rw [hvalid]
      decide
    · intro j _ hj hor
      exact hfirst j hj hor
  have hnot : ¬ i ≥ db.header.max_files := by omega
  have hslot : sizeof_header + i * sizeof_metadata + sizeof_metadata ≤ catalog_size db := by
    unfold catalog_size
    have : (i + 1) * sizeof_metadata ≤ db.header.max_files * sizeof_metadata :=
      Nat.mul_le_mul_right _ hi
    simp only [sizeof_metadata, sizeof_header] at *
    omega
  have heq : do_delete picture_name db =
      ( ZERO, ⟨⟨write_at
            (write_at db.fpdb.bytes (sizeof_header + i * sizeof_metadata)
              (metadata_bytes ⟨(db.metadata i).pict_id, (db.metadata i).SHA,
                (db.metadata i).res_orig, (db.metadata i).size, (db.metadata i).offset, EMPTY,
                (db.metadata i).unused_16⟩))
            0
            (header_bytes ⟨db.header.db_name, (db.header.db_version + 1) % 2 ^ 32,
              db.header.num_files - 1, db.header.max_files, db.header.res_resized,
              db.header.unused_32, db.header.unused_64⟩),
          0 + sizeof_header⟩,
        ⟨db.header.db_name, (db.header.db_version + 1) % 2 ^ 32, db.header.num_files - 1,
          db.header.max_files, db.header.res_resized, db.header.unused_32,
          db.header.unused_64⟩,
        Function.update db.metadata i
          ⟨(db.metadata i).pict_id, (db.metadata i).SHA, (db.metadata i).res_orig,
            (db.metadata i).size, (db.metadata i).offset, EMPTY,
            (db.metadata i).unused_16⟩⟩) := by
    unfold do_delete
    rw [if_neg hnum]
    simp only [hfind]
    rw [if_neg hnot]
    simp only [fwrite_metadata]
    simp only [fseek_set]
    simp only [if_true]
    simp only [fwrite_header]
    simp only [ne_eq, not_true_eq_false, if_false]
  rw [heq]
  refine ⟨rfl, by simp, ?_, rfl, rfl, rfl, rfl, rfl, ?_⟩
  · intro j hj
    simp [Function.update_noteq hj]
  · simp only
    apply write_at_twice_drop
    · rw [metadata_bytes_length]
      omega
    · rw [header_bytes_length]
      simp only [sizeof_header] at *
      omega

theorem do_delete_effect_witness :
    (two_db.header.num_files ≠ 0 ∧ (two_db.metadata 1).is_valid = NON_EMPTY ∧
        (two_db.metadata 1).pict_id = [98]) ∧
      (do_delete [98] two_db).1 = ZERO ∧
      (do_delete [98] two_db).2.metadata 1 =
        ⟨(two_db.metadata 1).pict_id, (two_db.metadata 1).SHA, (two_db.metadata 1).res_orig,
          (two_db.metadata 1).size, (two_db.metadata 1).offset, EMPTY,
          (two_db.metadata 1).unused_16⟩ ∧
      (∀ j, j ≠ 1 → (do_delete [98] two_db).2.metadata j = two_db.metadata j) ∧
      (do_delete [98] two_db).2.header.num_files = two_db.header.num_files - 1 ∧
      (do_delete [98] two_db).2.header.db_version
        = (two_db.header.db_version + 1) % 2 ^ 32 ∧
      (do_delete [98] two_db).2.header.db_name = two_db.header.db_name ∧
      (do_delete [98] two_db).2.header.max_files = two_db.header.max_files ∧
      (do_delete [98] two_db).2.header.res_resized = two_db.header.res_resized ∧
      (do_delete [98] two_db).2.fpdb.bytes.drop (catalog_size two_db)
        = two_db.fpdb.bytes.drop (catalog_size two_db) :=
  ⟨by decide!,
    do_delete_effect [98] two_db 1 (by decide!) (by decide!) (by decide!) (by decide!)
      (by decide!)⟩


/-! ## The state after `do_create` -/

theorem table_bytes_length (metadata : Nat → pict_metadata) (n : Nat) :
    (table_bytes metadata n).length = n * sizeof_metadata := by
  induction n with
  | zero => simp [table_bytes]
  | succ n ih =>
    unfold table_bytes at ih ⊢
    rw [List.range_succ, List.flatMap_append, List.length_append, ih]
    simp [metadata_bytes_length, Nat.succ_mul]

theorem do_create_eq (db : pictdb_file) :
    do_create db =
      ( ZERO, ⟨⟨header_bytes ⟨CAT_TXT, 0, 0, db.header.max_files, db.header.res_resized,
              db.header.unused_32, db.header.unused_64⟩
            ++ table_bytes (fun _ => zero_metadata) db.header.max_files,
          sizeof_header + db.header.max_files * sizeof_metadata⟩,
        ⟨CAT_TXT, 0, 0, db.header.max_files, db.header.res_resized, db.header.unused_32,
          db.header.unused_64⟩,
        fun _ => zero_metadata⟩) := by
  unfold do_create
  simp only [fwrite_header]
  simp only [ne_eq, not_true_eq_false, if_false, zero_add]
  have h1 : strncpy CAT_TXT MAX_DB_NAME = CAT_TXT := by decide
  rw [h1]
  have h2 : ∀ (h : pictdb_header) (t : List Nat),
      write_at (write_at [] 0 (header_bytes h)) sizeof_header t = header_bytes h ++ t := by
    intro h t
    have h3 : write_at [] 0 (header_bytes h) = header_bytes h := by
      simp [write_at]
    rw [h3]
    have h4 := write_at_end (header_bytes h) t
    rw [header_bytes_length] at h4
    exact h4
  simp only [h2, table_bytes_length]
  rfl

theorem CAT_TXT_eq : CAT_TXT = (String.toList "EPFL PictDB binary").map Char.toNat := by
  decide

/-- C15: `do_create` returns `0` and leaves a handle whose `db_name` is
"EPFL PictDB binary", whose `db_version` and `num_files` are `0`, whose
`max_files` and `res_resized` are those it was given, whose `max_files` slots
are all `EMPTY`, and whose file is exactly the header followed by the
`max_files` slots, `sizeof(header) + max_files * sizeof(metadata)` bytes. -/
theorem do_create_postcondition (db : pictdb_file) :
    (do_create db).1 = ZERO ∧
    (do_create db).2.header.db_name = (String.toList "EPFL PictDB binary").map Char.toNat ∧
    (do_create db).2.header.db_version = 0 ∧
    (do_create db).2.header.num_files = 0 ∧
    (do_create db).2.header.max_files = db.header.max_files ∧
    (do_create db).2.header.res_resized = db.header.res_resized ∧
    (∀ i, i < db.header.max_files → ((do_create db).2.metadata i).is_valid = EMPTY) ∧
    (do_create db).2.fpdb.bytes =
      header_bytes (do_create db).2.header
        ++ table_bytes (do_create db).2.metadata db.header.max_files ∧
    (do_create db).2.fpdb.bytes.length
      = sizeof_header + db.header.max_files * sizeof_metadata := by
  rw [do_create_eq]
  refine ⟨rfl, CAT_TXT_eq, rfl, rfl, rfl, rfl, fun i _ => rfl, rfl, ?_⟩
  simp only [List.length_append, header_bytes_length, table_bytes_length]

/-! ## The shape of the successful calls -/

/-- The state after a successful `do_delete`: the slot where the scan stopped
is marked `EMPTY`, the header counters are updated, and the slot and the
header are written over the catalog. -/
theorem do_delete_zero_shape (picture_name : List Nat) (db : pictdb_file)
    (hz : (do_delete picture_name db).1 = ZERO) :
    db.header.num_files ≠ 0 ∧
    delete_find picture_name db (db.header.max_files + 1) 0 < db.header.max_files ∧
    do_delete picture_name db =
      ( ZERO, ⟨⟨write_at
            (write_at db.fpdb.bytes
              (sizeof_header
                + delete_find picture_name db (db.header.max_files + 1) 0 * sizeof_metadata)
              (metadata_bytes
                ⟨(db.metadata (delete_find picture_name db (db.header.max_files + 1) 0)).pict_id,
                  (db.metadata (delete_find picture_name db (db.header.max_files + 1) 0)).SHA,
                  (db.metadata
                    (delete_find picture_name db (db.header.max_files + 1) 0)).res_orig,
                  (db.metadata (delete_find picture_name db (db.header.max_files + 1) 0)).size,
                  (db.metadata (delete_find picture_name db (db.header.max_files + 1) 0)).offset,
                  EMPTY,
                  (db.metadata
                    (delete_find picture_name db (db.header.max_files + 1) 0)).unused_16⟩))
            0
            (header_bytes ⟨db.header.db_name, (db.header.db_version + 1) % 2 ^ 32,
              db.header.num_files - 1, db.header.max_files, db.header.res_resized,
              db.header.unused_32, db.header.unused_64⟩),
          0 + sizeof_header⟩,
        ⟨db.header.db_name, (db.header.db_version + 1) % 2 ^ 32, db.header.num_files - 1,
          db.header.max_files, db.header.res_resized, db.header.unused_32,
          db.header.unused_64⟩,
        Function.update db.metadata (delete_find picture_name db (db.header.max_files + 1) 0)
          ⟨(db.metadata (delete_find picture_name db (db.header.max_files + 1) 0)).pict_id,
            (db.metadata (delete_find picture_name db (db.header.max_files + 1) 0)).SHA,
            (db.metadata (delete_find picture_name db (db.header.max_files + 1) 0)).res_orig,
            (db.metadata (delete_find picture_name db (db.header.max_files + 1) 0)).size,
            (db.metadata (delete_find picture_name db (db.header.max_files + 1) 0)).offset,
            EMPTY,
            (db.metadata
              (delete_find picture_name db (db.header.max_files + 1) 0)).unused_16⟩⟩) := by
  have hnum : db.header.num_files ≠ 0 := by
    intro h
    simp [do_delete, h] at hz
  have hnot : ¬ delete_find picture_name db (db.header.max_files + 1) 0
      ≥ db.header.max_files := by
    intro h
    unfold do_delete at hz
    rw [if_neg hnum] at hz
    simp only at hz
    rw [if_pos h] at hz
    simp at hz
  refine ⟨hnum, by omega, ?_⟩
  unfold do_delete
  rw [if_neg hnum]
  simp only
  rw [if_neg hnot]
  simp only [fwrite_metadata]
  simp only [fseek_set]
  simp only [if_true]
  simp only [fwrite_header]
  simp only [ne_eq, not_true_eq_false, if_false]

/-- The state after a successful `create_image`: the original was read, the
codec gave a non-empty image, which is appended at the end of the file; its
position and length are recorded in the slot, which is written over the
catalog. -/
theorem create_image_zero_shape (env : externals) (res : Nat) (db : pictdb_file) (index : Nat)
    (hz : (create_image env res db index).1 = ZERO) :
    (db.metadata index).size.get RES_ORIG ≠ 0 ∧
    (db.metadata index).offset.get RES_ORIG + (db.metadata index).size.get RES_ORIG
      ≤ db.fpdb.bytes.length ∧
    ∃ newContent, newContent ≠ [] ∧
      env.vips_resize (stored_orig db index) (db.header.res_resized.getD (2 * res) 0)
        (db.header.res_resized.getD (2 * res + 1) 0) = some newContent ∧
      create_image env res db index =
        ( ZERO, ⟨⟨write_at (db.fpdb.bytes ++ newContent)
              (sizeof_header + index * sizeof_metadata)
              (metadata_bytes ⟨(db.metadata index).pict_id, (db.metadata index).SHA,
                (db.metadata index).res_orig,
                (db.metadata index).size.set res (newContent.length % 2 ^ 32),
                (db.metadata index).offset.set res db.fpdb.bytes.length,
                (db.metadata index).is_valid, (db.metadata index).unused_16⟩),
            sizeof_header + index * sizeof_metadata + sizeof_metadata⟩,
          db.header,
          Function.update db.metadata index
            ⟨(db.metadata index).pict_id, (db.metadata index).SHA,
              (db.metadata index).res_orig,
              (db.metadata index).size.set res (newContent.length % 2 ^ 32),
              (db.metadata index).offset.set res db.fpdb.bytes.length,
              (db.metadata index).is_valid, (db.metadata index).unused_16⟩⟩) := by
  have hrd : (fread ((db.metadata index).size.get RES_ORIG)
      (fseek_set db.fpdb ((db.metadata index).offset.get RES_ORIG))).1 = 1 := by
    by_contra h
    unfold create_image at hz
    simp only at hz
    rw [if_pos h] at hz
    simp at hz
  obtain ⟨h1, h2, h3⟩ := fread_one _ _ hrd
  simp only [fseek_set] at h2 h3
  refine ⟨h1, h2, ?_⟩
  unfold create_image at hz ⊢
  simp only [fseek_set] at hz ⊢
  rw [h3] at hz ⊢
  simp only [ne_eq, not_true_eq_false, if_false] at hz ⊢
  cases hv : env.vips_resize
      (List.take ((db.metadata index).size.get RES_ORIG)
        (List.drop ((db.metadata index).offset.get RES_ORIG) db.fpdb.bytes))
      (db.header.res_resized.getD (2 * res) 0) (db.header.res_resized.getD (2 * res + 1) 0) with
  | none =>
    rw [hv] at hz
    simp at hz
  | some newContent =>
    rw [hv] at hz
    simp only at hz ⊢
    have hne : newContent ≠ [] := by
      intro he
      subst he
      simp [fwrite] at hz
    have hl : newContent.length ≠ 0 := fun h0 => hne (List.length_eq_zero.1 h0)
    refine ⟨newContent, hne, hv, ?_⟩
    simp only [fseek_end, ftell]
    rw [fwrite_nonempty _ _ hl]
    simp only [ne_eq, not_true_eq_false, if_false, write_at_end]
    simp only [fwrite_metadata]
    simp only [ne_eq, not_true_eq_false, if_false]

/-- A successful resize step either leaves the handle alone or is a call of
`create_image` for a derivative whose offset and size are both zero. -/
theorem resize_if_missing_zero_cases (env : externals) (res : Nat) (db : pictdb_file)
    (index : Nat) (hz : (resize_if_missing env res db index).1 = ZERO) :
    resize_if_missing env res db index = ( ZERO, db) ∨
      ((res = RES_SMALL ∨ res = RES_THUMB) ∧ index < db.header.max_files ∧
        (db.metadata index).size.get res = 0 ∧ (db.metadata index).offset.get res = 0 ∧
        resize_if_missing env res db index = create_image env res db index) := by
  unfold resize_if_missing at hz ⊢
  by_cases h : (db.metadata index).offset.get res = 0 ∨ (db.metadata index).size.get res = 0
  · rw [if_pos h] at hz ⊢
    unfold lazily_resize at hz ⊢
    by_cases h0 : res = RES_ORIG
    · left
      rw [if_pos h0]
    · rw [if_neg h0] at hz ⊢
      by_cases h1 : res ≠ RES_SMALL ∧ res ≠ RES_THUMB
      · rw [if_pos h1] at hz
        simp at hz
      · rw [if_neg h1] at hz ⊢
        by_cases h2 : index ≥ db.header.max_files
        · rw [if_pos h2] at hz
          simp at hz
        · rw [if_neg h2] at hz ⊢
          by_cases h3 : (db.metadata index).size.get res ≠ 0 ∨
              (db.metadata index).offset.get res ≠ 0
          · left
            rw [if_pos h3]
          · right
            rw [if_neg h3]
            simp only [not_or, not_not] at h3
            refine ⟨?_, by omega, h3.1, h3.2, rfl⟩
            by_contra hc
            simp only [not_or] at hc
            exact h1 ⟨hc.1, hc.2⟩
  · left
    rw [if_neg h]

/-- The shape of a successful `do_read`: the scan stopped inside the table,
the resize step returned `0`, and the requested bytes lie inside the file. -/
theorem do_read_zero_shape (env : externals) (pict_id : List Nat) (res : Nat)
    (db : pictdb_file) (index : Nat)
    (hindex : index = read_find pict_id db (db.header.max_files + 1) 0)
    (l : ret_code × pictdb_file) (hl : l = resize_if_missing env res db index)
    (hz : (do_read env pict_id res db).ret = ZERO) :
    index < db.header.max_files ∧ l.1 = ZERO ∧
    (l.2.metadata index).size.get res ≠ 0 ∧
    (l.2.metadata index).offset.get res + (l.2.metadata index).size.get res
      ≤ l.2.fpdb.bytes.length ∧
    do_read env pict_id res db =
      ⟨ ZERO,
        (l.2.fpdb.bytes.drop ((l.2.metadata index).offset.get res)).take
          ((l.2.metadata index).size.get res),
        (l.2.metadata index).size.get res,
        ⟨⟨l.2.fpdb.bytes,
            (l.2.metadata index).offset.get res + (l.2.metadata index).size.get res⟩,
          l.2.header, l.2.metadata⟩⟩ := by
  have h1 := do_read_unfold env pict_id res db index hindex l hl _ rfl
  by_cases hidx : index ≥ db.header.max_files
  · rw [h1, if_pos hidx] at hz
    simp at hz
  rw [if_neg hidx] at h1
  by_cases hl1 : l.1 ≠ ZERO
  · rw [h1, if_pos hl1] at hz
    exact absurd hz hl1
  rw [if_neg hl1] at h1
  by_cases hrd : (fread ((l.2.metadata index).size.get res)
      (fseek_set l.2.fpdb ((l.2.metadata index).offset.get res))).1 ≠ 1
  · rw [h1, if_pos hrd] at hz
    simp at hz
  rw [if_neg hrd] at h1
  obtain ⟨hsz, hin, hfr⟩ := fread_one _ _ (not_not.1 hrd)
  rw [hfr] at h1
  simp only [fseek_set] at h1 hin
  exact ⟨by omega, not_not.1 hl1, hsz, hin, h1⟩

theorem write_at_length_ge (b : List Nat) (p : Nat) (buf : List Nat) :
    b.length ≤ (write_at b p buf).length := by
  rw [write_at_length]
  omega

theorem res_array_get_set_same (a : res_array) (res v : Nat) (h : res < NB_RES) :
    (a.set res v).get res = v := by
  have h3 : res = 0 ∨ res = 1 ∨ res = 2 := by
    simp only [NB_RES] at h
    omega
  rcases h3 with h | h | h <;> subst h <;> rfl

theorem res_array_get_set_other (a : res_array) (res r v : Nat) (h : r ≠ res) :
    (a.set res v).get r = a.get r := by
  unfold res_array.set
  by_cases h0 : res = RES_THUMB
  · subst h0
    simp [res_array.get, h]
  · rw [if_neg h0]
    by_cases h1 : res = RES_SMALL
    · subst h1
      simp [res_array.get, h]
    · rw [if_neg h1]
      by_cases h2 : res = RES_ORIG
      · subst h2
        simp [res_array.get, h]
      · rw [if_neg h2]

/-! ## Invariants of the reachable states -/

/-- What a successful `do_insert` does to the table, when the valid slots have
non-zero original offsets: only the slot found by the free-slot search
changes; it becomes valid, carries the identifier cut to 127 bytes and the
digest of the payload, and either adopts the sizes and offsets of a valid slot
with the same digest or, when there is none, points at the payload appended at
the old end of the file. -/
theorem do_insert_zero_meta (env : externals) (P pict_id : List Nat) (db : pictdb_file)
    (index : Nat) (hindex : index = insert_find_slot db db.header.max_files 0)
    (hoff : ∀ j, j < db.header.max_files → (db.metadata j).is_valid = NON_EMPTY →
      (db.metadata j).offset.get RES_ORIG ≠ 0)
    (hz : (do_insert env P pict_id db).1 = ZERO) :
    (do_insert env P pict_id db).2.header.max_files = db.header.max_files ∧
    db.fpdb.bytes.length ≤ (do_insert env P pict_id db).2.fpdb.bytes.length ∧
    (∀ k, k ≠ index → (do_insert env P pict_id db).2.metadata k = db.metadata k) ∧
    ((do_insert env P pict_id db).2.metadata index).is_valid = NON_EMPTY ∧
    ((do_insert env P pict_id db).2.metadata index).pict_id = pict_id.take MAX_PIC_ID ∧
    ((do_insert env P pict_id db).2.metadata index).SHA = env.SHA256 P ∧
    (∀ j, j < db.header.max_files → (db.metadata j).is_valid = NON_EMPTY →
      strncmp (db.metadata j).pict_id pict_id MAX_PIC_ID ≠ 0) ∧
    ((∃ j, j < db.header.max_files ∧ j ≠ index ∧ (db.metadata j).is_valid = NON_EMPTY ∧
        compare_SHA (db.metadata j).SHA (env.SHA256 P) = 0 ∧
        ((do_insert env P pict_id db).2.metadata index).size = (db.metadata j).size ∧
        ((do_insert env P pict_id db).2.metadata index).offset = (db.metadata j).offset) ∨
      ((∀ k, k < db.header.max_files → k ≠ index → (db.metadata k).is_valid = NON_EMPTY →
          compare_SHA (db.metadata k).SHA (env.SHA256 P) ≠ 0) ∧
        P ≠ [] ∧
        ((do_insert env P pict_id db).2.metadata index).size = ⟨0, 0, P.length % 2 ^ 32⟩ ∧
        ((do_insert env P pict_id db).2.metadata index).offset
          = ⟨0, 0, db.fpdb.bytes.length⟩)) := by
  obtain ⟨_, hfresh, w, ht, _, hcases⟩ := do_insert_zero_shape env P pict_id db index hindex hz
  rcases hcases with ⟨j, hj1, hj2, hj3, hj4, _, hj6⟩ | ⟨hno, himg, heq⟩
  · have heq := hj6 (hoff j hj1 hj3)
    rw [heq]
    refine ⟨rfl, ?_, ?_, by simp, by simp [strncpy], by simp, hfresh,
      Or.inl ⟨j, hj1, hj2, hj3, hj4, by simp, by simp⟩⟩
    · simp only
      exact le_trans (write_at_length_ge _ _ _) (write_at_length_ge _ _ _)
    · intro k hk
      simp [Function.update_noteq hk]
  · rw [heq]
    refine ⟨rfl, ?_, ?_, by simp, by simp [strncpy], by simp, hfresh,
      Or.inr ⟨hno, himg, by simp, by simp⟩⟩
    · simp only
      refine le_trans ?_ (le_trans (write_at_length_ge _ _ _) (write_at_length_ge _ _ _))
      simp
    · intro k hk
      simp [Function.update_noteq hk]

/-- What a successful `do_delete` does to the table: one slot of the table
is marked `EMPTY`, nothing else changes. -/
theorem do_delete_zero_meta (picture_name : List Nat) (db : pictdb_file)
    (hz : (do_delete picture_name db).1 = ZERO) :
    (do_delete picture_name db).2.header.max_files = db.header.max_files ∧
    db.fpdb.bytes.length ≤ (do_delete picture_name db).2.fpdb.bytes.length ∧
    ∃ index, index < db.header.max_files ∧
      (∀ k, k ≠ index → (do_delete picture_name db).2.metadata k = db.metadata k) ∧
      ((do_delete picture_name db).2.metadata index).is_valid = EMPTY := by
  obtain ⟨_, hlt, heq⟩ := do_delete_zero_shape picture_name db hz
  rw [heq]
  refine ⟨rfl, ?_, _, hlt, ?_, by simp⟩
  · simp only
    exact le_trans (write_at_length_ge _ _ _) (write_at_length_ge _ _ _)
  · intro k hk
    simp [Function.update_noteq hk]

/-- What a successful `do_read` does to the handle: the header is kept, the
file does not shrink, and either the table is kept or one derivative of one
slot, whose offset and size were zero, gets a non-zero offset and a non-zero
size. -/
theorem do_read_zero_meta (env : externals) (pict_id : List Nat) (res : Nat)
    (db : pictdb_file) (hz : (do_read env pict_id res db).ret = ZERO) :
    (do_read env pict_id res db).db.header = db.header ∧
    db.fpdb.bytes.length ≤ (do_read env pict_id res db).db.fpdb.bytes.length ∧
    ((do_read env pict_id res db).db.metadata = db.metadata ∨
      ∃ index off sz, (res = RES_SMALL ∨ res = RES_THUMB) ∧ off ≠ 0 ∧ sz ≠ 0 ∧
        (do_read env pict_id res db).db.metadata =
          Function.update db.metadata index
            ⟨(db.metadata index).pict_id, (db.metadata index).SHA,
              (db.metadata index).res_orig, (db.metadata index).size.set res sz,
              (db.metadata index).offset.set res off, (db.metadata index).is_valid,
              (db.metadata index).unused_16⟩) := by
  obtain ⟨hlt, hl1, hsz, hin, heq⟩ := do_read_zero_shape env pict_id res db _ rfl _ rfl hz
  rcases resize_if_missing_zero_cases env res db _ hl1 with hsame | ⟨hres, _, _, _, hci⟩
  · rw [hsame] at heq
    rw [heq]
    exact ⟨rfl, le_refl _, Or.inl rfl⟩
  · rw [hci] at heq hsz hl1
    obtain ⟨h1, h2, newContent, hne, _, hcr⟩ := create_image_zero_shape env res db _ hl1
    have hres3 : res < NB_RES := by
      rcases hres with h | h <;> subst h <;> decide
    rw [hcr] at heq hsz
    simp only [Function.update_same, res_array_get_set_same _ _ _ hres3] at hsz
    rw [heq]
    refine ⟨rfl, ?_, Or.inr ⟨_, db.fpdb.bytes.length, newContent.length % 2 ^ 32, hres, ?_,
      hsz, rfl⟩⟩
    · simp only
      refine le_trans ?_ (write_at_length_ge _ _ _)
      simp
    · omega

theorem catalog_size_pos (db : pictdb_file) : 0 < catalog_size db := by
  unfold catalog_size
  simp only [sizeof_header]
  omega

theorem strncmp_ne_of_fresh (a pict_id : List Nat)
    (h : strncmp a pict_id MAX_PIC_ID ≠ 0) : a ≠ pict_id.take MAX_PIC_ID := by
  intro he
  apply h
  rw [he]
  simp [strncmp, List.take_take]

theorem meta_inv_create (db : pictdb_file) : meta_inv (do_create db).2 := by
  have hlen := (do_create_postcondition db).2.2.2.2.2.2.2.2
  rw [do_create_eq] at hlen ⊢
  refine ⟨?_, ?_, ?_, ?_, ?_⟩
  · unfold catalog_persisted catalog_size
    rw [hlen]
  · intro i _ hv
    simp [zero_metadata] at hv
  · intro i _ j _ hv
    simp [zero_metadata] at hv
  · intro i _ j _ hv
    simp [zero_metadata] at hv
  · intro i _ hv
    simp [zero_metadata] at hv

theorem meta_inv_insert (env : externals) (P pict_id : List Nat) (db : pictdb_file)
    (hinv : meta_inv db) (hz : (do_insert env P pict_id db).1 = ZERO) :
    meta_inv (do_insert env P pict_id db).2 := by
  obtain ⟨hcat, hreg, huniq, hded, hder⟩ := hinv
  have hoff : ∀ j, j < db.header.max_files → (db.metadata j).is_valid = NON_EMPTY →
      (db.metadata j).offset.get RES_ORIG ≠ 0 := by
    intro j hj hv
    have := hreg j hj hv
    have := catalog_size_pos db
    omega
  obtain ⟨hmax, hlen, hoth, hval, hpid, hsha, hfresh, hcases⟩ :=
    do_insert_zero_meta env P pict_id db _ rfl hoff hz
  have hcs : catalog_size (do_insert env P pict_id db).2 = catalog_size db := by
    unfold catalog_size
    rw [hmax]
  -- every valid slot of the new table other than the filled one is an old valid slot
  have hold : ∀ k, k ≠ insert_find_slot db db.header.max_files 0 →
      ((do_insert env P pict_id db).2.metadata k).is_valid = NON_EMPTY →
      (db.metadata k).is_valid = NON_EMPTY := by
    intro k hk hv
    rw [hoth k hk] at hv
    exact hv
  -- the original offset and size of the filled slot
  have hnew_reg : catalog_size db
      ≤ ((do_insert env P pict_id db).2.metadata
          (insert_find_slot db db.header.max_files 0)).offset.get RES_ORIG := by
    rcases hcases with ⟨j, hj1, _, hj3, _, _, ho⟩ | ⟨_, _, _, ho⟩
    · rw [ho]
      exact hreg j hj1 hj3
    · rw [ho]
      exact hcat
  -- a valid old slot with the digest of the payload shares the original with the filled slot
  have hnew_ded : ∀ k, k < db.header.max_files → k ≠ insert_find_slot db db.header.max_files 0 →
      (db.metadata k).is_valid = NON_EMPTY →
      compare_SHA (db.metadata k).SHA (env.SHA256 P) = 0 →
      (db.metadata k).offset.get RES_ORIG
          = ((do_insert env P pict_id db).2.metadata
              (insert_find_slot db db.header.max_files 0)).offset.get RES_ORIG ∧
        (db.metadata k).size.get RES_ORIG
          = ((do_insert env P pict_id db).2.metadata
              (insert_find_slot db db.header.max_files 0)).size.get RES_ORIG := by
    intro k hk hkne hkv hkc
    rcases hcases with ⟨j, hj1, _, hj3, hj4, hs, ho⟩ | ⟨hno, _, _, _⟩
    · rw [hs, ho]
      exact hded k hk j hj1
        ⟨hkv, hj3, compare_SHA_trans _ _ _ hkc (compare_SHA_symm _ _ hj4)⟩
    · exact absurd hkc (hno k hk hkne hkv)
  refine ⟨?_, ?_, ?_, ?_, ?_⟩
  · unfold catalog_persisted
    rw [hcs]
    exact le_trans hcat hlen
  · intro i hi hv
    rw [hmax] at hi
    rw [hcs]
    by_cases hie : i = insert_find_slot db db.header.max_files 0
    · rw [hie]
      exact hnew_reg
    · rw [hoth i hie]
      exact hreg i hi (hold i hie hv)
  · intro i hi j hj hv
    rw [hmax] at hi hj
    obtain ⟨hvi, hvj, hij⟩ := hv
    by_cases hie : i = insert_find_slot db db.header.max_files 0
    · have hje : j ≠ insert_find_slot db db.header.max_files 0 := fun h => hij (hie.trans h.symm)
      rw [hie, hpid, hoth j hje]
      exact (strncmp_ne_of_fresh _ _ (hfresh j hj (hold j hje hvj))).symm
    · by_cases hje : j = insert_find_slot db db.header.max_files 0
      · rw [hje, hpid, hoth i hie]
        exact strncmp_ne_of_fresh _ _ (hfresh i hi (hold i hie hvi))
      · rw [hoth i hie, hoth j hje]
        exact huniq i hi j hj ⟨hold i hie hvi, hold j hje hvj, hij⟩
  · intro i hi j hj hv
    rw [hmax] at hi hj
    obtain ⟨hvi, hvj, hc⟩ := hv
    by_cases hie : i = insert_find_slot db db.header.max_files 0
    · by_cases hje : j = insert_find_slot db db.header.max_files 0
      · rw [hie, hje]
        exact ⟨rfl, rfl⟩
      · rw [hie, hsha, hoth j hje] at hc
        have := hnew_ded j hj hje (hold j hje hvj) (compare_SHA_symm _ _ hc)
        rw [hie, hoth j hje]
        exact ⟨this.1.symm, this.2.symm⟩
    · by_cases hje : j = insert_find_slot db db.header.max_files 0
      · rw [hje, hsha, hoth i hie] at hc
        have := hnew_ded i hi hie (hold i hie hvi) hc
        rw [hje, hoth i hie]
        exact this
      · rw [hoth i hie, hoth j hje] at hc ⊢
        exact hded i hi j hj ⟨hold i hie hvi, hold j hje hvj, hc⟩
  · intro i hi hv
    rw [hmax] at hi
    by_cases hie : i = insert_find_slot db db.header.max_files 0
    · rw [hie]
      rcases hcases with ⟨j, hj1, _, hj3, _, hs, ho⟩ | ⟨_, _, hs, ho⟩
      · rw [hs, ho]
        exact hder j hj1 hj3
      · rw [hs, ho]
        exact ⟨Iff.rfl, Iff.rfl⟩
    · rw [hoth i hie]
      exact hder i hi (hold i hie hv)

theorem meta_inv_delete (picture_name : List Nat) (db : pictdb_file)
    (hinv : meta_inv db) (hz : (do_delete picture_name db).1 = ZERO) :
    meta_inv (do_delete picture_name db).2 := by
  obtain ⟨hcat, hreg, huniq, hded, hder⟩ := hinv
  obtain ⟨hmax, hlen, index, _, hoth, hemp⟩ := do_delete_zero_meta picture_name db hz
  have hcs : catalog_size (do_delete picture_name db).2 = catalog_size db := by
    unfold catalog_size
    rw [hmax]
  have hold : ∀ k, ((do_delete picture_name db).2.metadata k).is_valid = NON_EMPTY →
      k ≠ index ∧ (db.metadata k).is_valid = NON_EMPTY := by
    intro k hv
    have hk : k ≠ index := by
      intro he
      rw [he, hemp] at hv
      exact absurd hv (by decide)
    rw [hoth k hk] at hv
    exact ⟨hk, hv⟩
  refine ⟨?_, ?_, ?_, ?_, ?_⟩
  · unfold catalog_persisted
    rw [hcs]
    exact le_trans hcat hlen
  · intro i hi hv
    rw [hmax] at hi
    obtain ⟨hie, hvo⟩ := hold i hv
    rw [hcs, hoth i hie]
    exact hreg i hi hvo
  · intro i hi j hj hv
    rw [hmax] at hi hj
    obtain ⟨hie, hvi⟩ := hold i hv.1
    obtain ⟨hje, hvj⟩ := hold j hv.2.1
    rw [hoth i hie, hoth j hje]
    exact huniq i hi j hj ⟨hvi, hvj, hv.2.2⟩
  · intro i hi j hj hv
    rw [hmax] at hi hj
    obtain ⟨hie, hvi⟩ := hold i hv.1
    obtain ⟨hje, hvj⟩ := hold j hv.2.1
    have hc := hv.2.2
    rw [hoth i hie, hoth j hje] at hc ⊢
    exact hded i hi j hj ⟨hvi, hvj, hc⟩
  · intro i hi hv
    rw [hmax] at hi
    obtain ⟨hie, hvo⟩ := hold i hv
    rw [hoth i hie]
    exact hder i hi hvo

/-- A successful `do_read` keeps `pict_id`, `SHA`, `is_valid` and the
original offset and size of every slot, and keeps the derivatives of a slot
consistent. -/
theorem do_read_zero_fields (env : externals) (pict_id : List Nat) (res : Nat)
    (db : pictdb_file) (hz : (do_read env pict_id res db).ret = ZERO) (k : Nat) :
    ((do_read env pict_id res db).db.metadata k).pict_id = (db.metadata k).pict_id ∧
    ((do_read env pict_id res db).db.metadata k).SHA = (db.metadata k).SHA ∧
    ((do_read env pict_id res db).db.metadata k).is_valid = (db.metadata k).is_valid ∧
    ((do_read env pict_id res db).db.metadata k).offset.get RES_ORIG
      = (db.metadata k).offset.get RES_ORIG ∧
    ((do_read env pict_id res db).db.metadata k).size.get RES_ORIG
      = (db.metadata k).size.get RES_ORIG ∧
    ((((db.metadata k).offset.get RES_THUMB = 0 ↔ (db.metadata k).size.get RES_THUMB = 0) ∧
        ((db.metadata k).offset.get RES_SMALL = 0 ↔ (db.metadata k).size.get RES_SMALL = 0)) →
      ((((do_read env pict_id res db).db.metadata k).offset.get RES_THUMB = 0 ↔
          ((do_read env pict_id res db).db.metadata k).size.get RES_THUMB = 0) ∧
        (((do_read env pict_id res db).db.metadata k).offset.get RES_SMALL = 0 ↔
          ((do_read env pict_id res db).db.metadata k).size.get RES_SMALL = 0))) := by
  obtain ⟨_, _, hmeta⟩ := do_read_zero_meta env pict_id res db hz
  rcases hmeta with hsame | ⟨index, off, sz, hres, hoff, hsz, heq⟩
  · rw [hsame]
    exact ⟨rfl, rfl, rfl, rfl, rfl, fun h => h⟩
  · rw [heq]
    by_cases hk : k = index
    · subst hk
      rcases hres with h | h
      · subst h
        refine ⟨by simp, by simp, by simp, by simp [res_array.get, res_array.set],
          by simp [res_array.get, res_array.set], ?_⟩
        intro hd
        simp only [Function.update_same]
        refine ⟨hd.1, ?_⟩
        simp [res_array.get, res_array.set, hoff, hsz]
      · subst h
        refine ⟨by simp, by simp, by simp, by simp [res_array.get, res_array.set],
          by simp [res_array.get, res_array.set], ?_⟩
        intro hd
        simp only [Function.update_same]
        refine ⟨?_, hd.2⟩
        simp [res_array.get, res_array.set, hoff, hsz]
    · rw [Function.update_noteq hk]
      exact ⟨rfl, rfl, rfl, rfl, rfl, fun h => h⟩

theorem meta_inv_read (env : externals) (pict_id : List Nat) (res : Nat) (db : pictdb_file)
    (hinv : meta_inv db) (hz : (do_read env pict_id res db).ret = ZERO) :
    meta_inv (do_read env pict_id res db).db := by
  obtain ⟨hcat, hreg, huniq, hded, hder⟩ := hinv
  obtain ⟨hhead, hlen, _⟩ := do_read_zero_meta env pict_id res db hz
  have hf := do_read_zero_fields env pict_id res db hz
  have hcs : catalog_size (do_read env pict_id res db).db = catalog_size db := by
    unfold catalog_size
    rw [hhead]
  refine ⟨?_, ?_, ?_, ?_, ?_⟩
  · unfold catalog_persisted
    rw [hcs]
    exact le_trans hcat hlen
  · intro i hi hv
    rw [hhead] at hi
    rw [(hf i).2.2.1] at hv
    rw [hcs, (hf i).2.2.2.1]
    exact hreg i hi hv
  · intro i hi j hj hv
    rw [hhead] at hi hj
    rw [(hf i).2.2.1, (hf j).2.2.1] at hv
    rw [(hf i).1, (hf j).1]
    exact huniq i hi j hj hv
  · intro i hi j hj hv
    rw [hhead] at hi hj
    rw [(hf i).2.2.1, (hf j).2.2.1, (hf i).2.1, (hf j).2.1] at hv
    rw [(hf i).2.2.2.1, (hf j).2.2.2.1, (hf i).2.2.2.2.1, (hf j).2.2.2.2.1]
    exact hded i hi j hj hv
  · intro i hi hv
    rw [hhead] at hi
    rw [(hf i).2.2.1] at hv
    exact (hf i).2.2.2.2.2 (hder i hi hv)

/-- Every reachable state satisfies the invariants on the metadata. -/
theorem reachable_meta_inv (env : externals) (ok : List Nat → Prop) (db : pictdb_file)
    (h : reachable env ok db) : meta_inv db := by
  induction h with
  | create db _ => exact meta_inv_create db
  | insert db img pict_id _ _ hz ih => exact meta_inv_insert env img pict_id db ih hz
  | delete db picture_name _ hz ih => exact meta_inv_delete picture_name db ih hz
  | read db pict_id res _ hz ih => exact meta_inv_read env pict_id res db ih hz

/-- Every state reached with payloads shorter than `2^32` bytes has a non-zero
original size in every valid slot. -/
theorem reachable_orig_size_inv (env : externals) (db : pictdb_file)
    (h : reachable env fits_uint32 db) : orig_size_inv db := by
  induction h with
  | create db _ =>
    rw [do_create_eq]
    intro i _ hv
    simp [zero_metadata] at hv
  | insert db img pict_id hr hok hz ih =>
    obtain ⟨_, hreg, _, _, _⟩ := reachable_meta_inv env fits_uint32 db hr
    have hoff : ∀ j, j < db.header.max_files → (db.metadata j).is_valid = NON_EMPTY →
        (db.metadata j).offset.get RES_ORIG ≠ 0 := by
      intro j hj hv
      have := hreg j hj hv
      have := catalog_size_pos db
      omega
    obtain ⟨hmax, _, hoth, _, _, _, _, hcases⟩ :=
      do_insert_zero_meta env img pict_id db _ rfl hoff hz
    intro i hi hv
    rw [hmax] at hi
    by_cases hie : i = insert_find_slot db db.header.max_files 0
    · rw [hie]
      rcases hcases with ⟨j, hj1, _, hj3, _, hs, _⟩ | ⟨_, himg, hs, _⟩
      · rw [hs]
        exact ih j hj1 hj3
      · rw [hs]
        have hlt : img.length < 2 ^ 32 := hok
        have hpos : 0 < img.length := List.length_pos.2 himg
        simp only [res_array_get_orig, Nat.mod_eq_of_lt hlt]
        exact hpos
    · rw [hoth i hie] at hv ⊢
      exact ih i hi hv
  | delete db picture_name _ hz ih =>
    obtain ⟨hmax, _, index, _, hoth, hemp⟩ := do_delete_zero_meta picture_name db hz
    intro i hi hv
    rw [hmax] at hi
    have hie : i ≠ index := by
      intro he
      rw [he, hemp] at hv
      exact absurd hv (by decide)
    rw [hoth i hie] at hv ⊢
    exact ih i hi hv
  | read db pict_id res _ hz ih =>
    obtain ⟨hhead, _, _⟩ := do_read_zero_meta env pict_id res db hz
    have hf := do_read_zero_fields env pict_id res db hz
    intro i hi hv
    rw [hhead] at hi
    rw [(hf i).2.2.1] at hv
    rw [(hf i).2.2.2.2.1]
    exact ih i hi hv

/-! ## The reachable fixtures -/

theorem fresh_db_reachable (n : Nat) : reachable toy_env fits_uint32 (fresh_db n) :=
  reachable.create (blank_db n) (do_create_postcondition (blank_db n)).1

theorem one_db_reachable : reachable toy_env fits_uint32 one_db :=
  reachable.insert (fresh_db 2) [1, 2, 3] [97] (fresh_db_reachable 2) (by decide) (by decide!)

theorem two_db_reachable : reachable toy_env fits_uint32 two_db :=
  reachable.insert one_db [4, 5] [98] one_db_reachable (by decide) (by decide!)

theorem shared_db_reachable : reachable toy_env fits_uint32 shared_db :=
  reachable.read _ [99] RES_THUMB
    (reachable.insert _ [1, 2, 3] [99]
      (reachable.insert (fresh_db 3) [1, 2, 3] [97] (fresh_db_reachable 3) (by decide)
        (by decide!))
      (by decide) (by decide!))
    (by decide!)

/-! ## The invariants as claimed -/

/-- C11 (counterexample): `one_db` is reached from `do_create` by one
successful `do_insert`; its slot 0 is valid and its original offset is equal
to, hence not strictly greater than,
`sizeof(header) + max_files * sizeof(metadata)`. -/
theorem first_payload_at_catalog_end :
    reachable toy_env fits_uint32 one_db ∧
      0 < one_db.header.max_files ∧
      (one_db.metadata 0).is_valid = NON_EMPTY ∧
      (one_db.metadata 0).offset.get RES_ORIG
        = sizeof_header + one_db.header.max_files * sizeof_metadata ∧
      ¬ ((one_db.metadata 0).offset.get RES_ORIG
        > sizeof_header + one_db.header.max_files * sizeof_metadata) :=
  ⟨one_db_reachable, by decide!⟩

/-- C11 (amended): in every state reached from a successful `do_create` by
successful `do_insert` (of payloads shorter than `2^32` bytes), `do_delete`
and `do_read` calls, every valid slot has `offset[RES_ORIG]` at least
`sizeof(header) + max_files * sizeof(metadata)` and `size[RES_ORIG] > 0`. -/
theorem reachable_orig_payload (env : externals) (db : pictdb_file)
    (h : reachable env fits_uint32 db) (i : Nat) (hi : i < db.header.max_files)
    (hv : (db.metadata i).is_valid = NON_EMPTY) :
    sizeof_header + db.header.max_files * sizeof_metadata
        ≤ (db.metadata i).offset.get RES_ORIG ∧
      0 < (db.metadata i).size.get RES_ORIG :=
  ⟨(reachable_meta_inv env fits_uint32 db h).2.1 i hi hv,
    reachable_orig_size_inv env db h i hi hv⟩

theorem reachable_orig_payload_witness :
    reachable toy_env fits_uint32 two_db ∧
      sizeof_header + two_db.header.max_files * sizeof_metadata
          ≤ (two_db.metadata 1).offset.get RES_ORIG ∧
      0 < (two_db.metadata 1).size.get RES_ORIG :=
  ⟨two_db_reachable,
    reachable_orig_payload toy_env two_db two_db_reachable 1 (by decide!) (by decide!)⟩

/-- C12: in every state reached from a successful `do_create` by successful
`do_insert`, `do_delete` and `do_read` calls, two distinct valid slots have
different `pict_id` values. -/
theorem reachable_unique_ids (env : externals) (ok : List Nat → Prop) (db : pictdb_file)
    (h : reachable env ok db) (i j : Nat) (hi : i < db.header.max_files)
    (hj : j < db.header.max_files) (hvi : (db.metadata i).is_valid = NON_EMPTY)
    (hvj : (db.metadata j).is_valid = NON_EMPTY) (hij : i ≠ j) :
    (db.metadata i).pict_id ≠ (db.metadata j).pict_id :=
  (reachable_meta_inv env ok db h).2.2.1 i hi j hj ⟨hvi, hvj, hij⟩

theorem reachable_unique_ids_witness :
    reachable toy_env fits_uint32 two_db ∧
      (two_db.metadata 0).pict_id ≠ (two_db.metadata 1).pict_id :=
  ⟨two_db_reachable,
    reachable_unique_ids toy_env fits_uint32 two_db two_db_reachable 0 1 (by decide!)
      (by decide!) (by decide!) (by decide!) (by decide)⟩

/-- C13: in every state reached from a successful `do_create` by successful
`do_insert`, `do_delete` and `do_read` calls, two valid slots whose `SHA`
fields are bytewise equal have the same `offset[RES_ORIG]` and the same
`size[RES_ORIG]`. -/
theorem reachable_dedup (env : externals) (ok : List Nat → Prop) (db : pictdb_file)
    (h : reachable env ok db) (i j : Nat) (hi : i < db.header.max_files)
    (hj : j < db.header.max_files) (hvi : (db.metadata i).is_valid = NON_EMPTY)
    (hvj : (db.metadata j).is_valid = NON_EMPTY)
    (hsha : compare_SHA (db.metadata i).SHA (db.metadata j).SHA = 0) :
    (db.metadata i).offset.get RES_ORIG = (db.metadata j).offset.get RES_ORIG ∧
      (db.metadata i).size.get RES_ORIG = (db.metadata j).size.get RES_ORIG :=
  (reachable_meta_inv env ok db h).2.2.2.1 i hi j hj ⟨hvi, hvj, hsha⟩

theorem reachable_dedup_witness :
    (reachable toy_env fits_uint32 shared_db ∧
        compare_SHA (shared_db.metadata 0).SHA (shared_db.metadata 1).SHA = 0) ∧
      (shared_db.metadata 0).offset.get RES_ORIG = (shared_db.metadata 1).offset.get RES_ORIG ∧
      (shared_db.metadata 0).size.get RES_ORIG = (shared_db.metadata 1).size.get RES_ORIG :=
  ⟨⟨shared_db_reachable, by decide!⟩,
    reachable_dedup toy_env fits_uint32 shared_db shared_db_reachable 0 1 (by decide!)
      (by decide!) (by decide!) (by decide!) (by decide!)⟩

/-- C14: in every state reached from a successful `do_create` by successful
`do_insert`, `do_delete` and `do_read` calls, every valid slot has, for the
thumbnail and for the small resolution, a zero offset exactly when it has a
zero size. -/
theorem reachable_derivatives (env : externals) (ok : List Nat → Prop) (db : pictdb_file)
    (h : reachable env ok db) (i : Nat) (hi : i < db.header.max_files)
    (hv : (db.metadata i).is_valid = NON_EMPTY) :
    ((db.metadata i).offset.get RES_THUMB = 0 ↔ (db.metadata i).size.get RES_THUMB = 0) ∧
      ((db.metadata i).offset.get RES_SMALL = 0 ↔ (db.metadata i).size.get RES_SMALL = 0) :=
  (reachable_meta_inv env ok db h).2.2.2.2 i hi hv

theorem reachable_derivatives_witness :
    (reachable toy_env fits_uint32 shared_db ∧
        (shared_db.metadata 1).offset.get RES_THUMB ≠ 0) ∧
      ((shared_db.metadata 1).offset.get RES_THUMB = 0 ↔
        (shared_db.metadata 1).size.get RES_THUMB = 0) ∧
      ((shared_db.metadata 1).offset.get RES_SMALL = 0 ↔
        (shared_db.metadata 1).size.get RES_SMALL = 0) :=
  ⟨⟨shared_db_reachable, by decide!⟩,
    reachable_derivatives toy_env fits_uint32 shared_db shared_db_reachable 1 (by decide!)
      (by decide!)⟩

/-! ## The catalog on disk follows the handle -/

theorem file_slice_length (b : List Nat) (q n : Nat) (h : q + n ≤ b.length) :
    (file_slice b q n).length = n := by
  simp [file_slice]
  omega

theorem file_slice_length_le (b : List Nat) (q n : Nat) (h : (file_slice b q n).length = n)
    (hn : 0 < n) : q + n ≤ b.length := by
  simp [file_slice] at h
  omega

theorem file_slice_write_same (b : List Nat) (p : Nat) (buf : List Nat) :
    file_slice (write_at b p buf) p buf.length = buf := by
  have hlen : (b.take p ++ List.replicate (p - b.length) 0).length = p := by
    simp
    omega
  unfold file_slice write_at
  rw [List.append_assoc, List.append_assoc, ← List.append_assoc (b.take p),
    List.drop_append_eq_append_drop, hlen, List.drop_of_length_le (by omega), List.nil_append,
    Nat.sub_self, List.drop_zero, List.take_append_eq_append_take, List.take_length,
    Nat.sub_self, List.take_zero, List.append_nil]

theorem file_slice_write_after (b : List Nat) (p : Nat) (buf : List Nat) (q n : Nat)
    (h : p + buf.length ≤ q) : file_slice (write_at b p buf) q n = file_slice b q n := by
  unfold file_slice
  rw [write_at_drop b p buf q h]

theorem file_slice_write_before (b : List Nat) (p : Nat) (buf : List Nat) (q n : Nat)
    (h : q + n ≤ p) (hp : p ≤ b.length) :
    file_slice (write_at b p buf) q n = file_slice b q n := by
  have h0 : p - b.length = 0 := by omega
  unfold file_slice write_at
  rw [h0, List.replicate_zero, List.append_nil, List.append_assoc,
    List.drop_append_of_le_length (by rw [List.length_take]; omega),
    List.take_append_of_le_length (by rw [List.length_drop, List.length_take]; omega),
    List.drop_take, List.take_take]
  congr 1
  omega

theorem file_slice_append_left (b c : List Nat) (q n : Nat) (h : q + n ≤ b.length) :
    file_slice (b ++ c) q n = file_slice b q n := by
  unfold file_slice
  rw [List.drop_append_of_le_length (by omega),
    List.take_append_of_le_length (by rw [List.length_drop]; omega)]

/-- A file whose catalog follows the handle holds the whole catalog. -/
theorem persisted_catalog (db : pictdb_file) (h : persisted db) : catalog_persisted db := by
  unfold catalog_persisted catalog_size
  obtain ⟨hh, hs⟩ := h
  by_cases h0 : db.header.max_files = 0
  · have := file_slice_length_le db.fpdb.bytes 0 sizeof_header
      (by rw [hh, header_bytes_length]) (by decide)
    rw [h0]
    omega
  · have := file_slice_length_le db.fpdb.bytes
      (sizeof_header + (db.header.max_files - 1) * sizeof_metadata) sizeof_metadata
      (by rw [hs _ (by omega), metadata_bytes_length]) (by decide)
    have h1 : db.header.max_files = (db.header.max_files - 1) + 1 := by omega
    rw [h1, Nat.add_mul]
    omega

/-- The file after a successful `update_memory_and_content`: the old bytes,
or the old bytes followed by the image, over which the new header is written
at offset `0` and the new slot at its place in the table. -/
theorem update_memory_and_content_zero_flush (env : externals) (img : List Nat)
    (db : pictdb_file) (index : Nat)
    (hz : (update_memory_and_content env img db index).1 = ZERO) :
    ∃ B, (B = db.fpdb.bytes ∨ B = db.fpdb.bytes ++ img) ∧
      (update_memory_and_content env img db index).2.fpdb.bytes =
        write_at
          (write_at B 0 (header_bytes (update_memory_and_content env img db index).2.header))
          (sizeof_header + index * sizeof_metadata)
          (metadata_bytes ((update_memory_and_content env img db index).2.metadata index)) ∧
      (update_memory_and_content env img db index).2.header = header_after_insert db.header ∧
      ∀ k, k ≠ index →
        (update_memory_and_content env img db index).2.metadata k = db.metadata k := by
  cases hv : env.vips_size img with
  | none => exact absurd hz (update_memory_and_content_none env img db index hv)
  | some p =>
    obtain ⟨w, ht⟩ := p
    by_cases hoff : (db.metadata index).offset.get RES_ORIG = 0
    · have himg : img ≠ [] := by
        intro he
        subst he
        exact absurd hz (update_memory_and_content_empty env db index hoff)
      rw [update_memory_and_content_append env img db index w ht hoff himg hv]
      refine ⟨db.fpdb.bytes ++ img, Or.inr rfl, ?_, rfl, ?_⟩
      · simp only [Function.update_same]
      · intro k hk
        simp only [Function.update_noteq hk]
    · rw [update_memory_and_content_share env img db index w ht hoff hv]
      refine ⟨db.fpdb.bytes, Or.inl rfl, ?_, rfl, ?_⟩
      · simp only [Function.update_same]
      · intro k hk
        simp only [Function.update_noteq hk]

/-- The file after a successful `do_insert`, without any assumption on the
database: the old bytes, or the old bytes followed by the payload, over which
the new header and the filled slot are written. -/
theorem do_insert_zero_flush (env : externals) (P pict_id : List Nat) (db : pictdb_file)
    (index : Nat) (hindex : index = insert_find_slot db db.header.max_files 0)
    (hz : (do_insert env P pict_id db).1 = ZERO) :
    ∃ B, (B = db.fpdb.bytes ∨ B = db.fpdb.bytes ++ P) ∧
      (do_insert env P pict_id db).2.fpdb.bytes =
        write_at (write_at B 0 (header_bytes (do_insert env P pict_id db).2.header))
          (sizeof_header + index * sizeof_metadata)
          (metadata_bytes ((do_insert env P pict_id db).2.metadata index)) ∧
      (do_insert env P pict_id db).2.header = header_after_insert db.header ∧
      ∀ k, k ≠ index → (do_insert env P pict_id db).2.metadata k = db.metadata k := by
  obtain ⟨hroom, hfresh, _⟩ := do_insert_zero_shape env P pict_id db index hindex hz
  have hex : insert_id_exists pict_id db db.header.max_files 0 = false := by
    rw [insert_id_exists_eq_false]
    intro j _ hj hv
    exact hfresh j (by omega) hv
  have hunf := do_insert_unfold env P pict_id db index hindex _ rfl hroom hex
  rcases dedup_populated env P pict_id db index hfresh with
    ⟨j, _, _, _, _, _, h6⟩ | ⟨_, h2⟩
  · rw [h6] at hunf
    simp only [ne_eq, not_true_eq_false, if_false] at hunf
    rw [hunf] at hz ⊢
    obtain ⟨B, hB, hb, hh, ho⟩ := update_memory_and_content_zero_flush env P _ index hz
    refine ⟨B, hB, hb, hh, ?_⟩
    intro k hk
    rw [ho k hk, set_slot_metadata_other _ _ _ _ hk]
  · rw [h2] at hunf
    simp only [ne_eq, not_true_eq_false, if_false] at hunf
    rw [hunf] at hz ⊢
    obtain ⟨B, hB, hb, hh, ho⟩ := update_memory_and_content_zero_flush env P _ index hz
    refine ⟨B, hB, hb, hh, ?_⟩
    intro k hk
    rw [ho k hk, set_slot_metadata_other _ _ _ _ hk]

/-- Writing a header at offset `0` and then a slot at its place in the table
of a file that holds the catalog: the header and that slot read back, and the
other slots are untouched. -/
theorem slices_header_then_slot (B hb mb : List Nat) (index : Nat)
    (hhb : hb.length = sizeof_header) (hmb : mb.length = sizeof_metadata)
    (hlen : sizeof_header + index * sizeof_metadata ≤ B.length) :
    file_slice (write_at (write_at B 0 hb) (sizeof_header + index * sizeof_metadata) mb)
        0 sizeof_header = hb ∧
    file_slice (write_at (write_at B 0 hb) (sizeof_header + index * sizeof_metadata) mb)
        (sizeof_header + index * sizeof_metadata) sizeof_metadata = mb ∧
    ∀ k, k ≠ index →
      file_slice (write_at (write_at B 0 hb) (sizeof_header + index * sizeof_metadata) mb)
          (sizeof_header + k * sizeof_metadata) sizeof_metadata
        = file_slice B (sizeof_header + k * sizeof_metadata) sizeof_metadata := by
  have hX : B.length ≤ (write_at B 0 hb).length := write_at_length_ge _ _ _
  refine ⟨?_, ?_, ?_⟩
  · rw [file_slice_write_before _ _ _ _ _ (by omega) (by omega), ← hhb]
    exact file_slice_write_same _ _ _
  · rw [← hmb]
    exact file_slice_write_same _ _ _
  · intro k hk
    have hstep : file_slice (write_at B 0 hb) (sizeof_header + k * sizeof_metadata)
        sizeof_metadata = file_slice B (sizeof_header + k * sizeof_metadata) sizeof_metadata :=
      file_slice_write_after _ _ _ _ _ (by omega)
    rcases Nat.lt_or_gt_of_ne hk with hlt | hgt
    · have : (k + 1) * sizeof_metadata ≤ index * sizeof_metadata :=
        Nat.mul_le_mul_right _ hlt
      rw [file_slice_write_before _ _ _ _ _ (by rw [Nat.add_mul] at this; omega) (by omega),
        hstep]
    · have : (index + 1) * sizeof_metadata ≤ k * sizeof_metadata :=
        Nat.mul_le_mul_right _ hgt
      rw [file_slice_write_after _ _ _ _ _ (by rw [Nat.add_mul] at this; omega), hstep]

/-- Writing a slot at its place in the table and then a header at offset `0`. -/
theorem slices_slot_then_header (B hb mb : List Nat) (index : Nat)
    (hhb : hb.length = sizeof_header) (hmb : mb.length = sizeof_metadata)
    (hlen : sizeof_header + index * sizeof_metadata + sizeof_metadata ≤ B.length) :
    file_slice (write_at (write_at B (sizeof_header + index * sizeof_metadata) mb) 0 hb)
        0 sizeof_header = hb ∧
    file_slice (write_at (write_at B (sizeof_header + index * sizeof_metadata) mb) 0 hb)
        (sizeof_header + index * sizeof_metadata) sizeof_metadata = mb ∧
    ∀ k, k ≠ index →
      file_slice (write_at (write_at B (sizeof_header + index * sizeof_metadata) mb) 0 hb)
          (sizeof_header + k * sizeof_metadata) sizeof_metadata
        = file_slice B (sizeof_header + k * sizeof_metadata) sizeof_metadata := by
  refine ⟨?_, ?_, ?_⟩
  · rw [← hhb]
    exact file_slice_write_same _ _ _
  · rw [file_slice_write_after _ _ _ _ _ (by omega), ← hmb]
    exact file_slice_write_same _ _ _
  · intro k hk
    rw [file_slice_write_after _ _ _ _ _ (by omega)]
    rcases Nat.lt_or_gt_of_ne hk with hlt | hgt
    · have : (k + 1) * sizeof_metadata ≤ index * sizeof_metadata :=
        Nat.mul_le_mul_right _ hlt
      rw [file_slice_write_before _ _ _ _ _ (by rw [Nat.add_mul] at this; omega) (by omega)]
    · have : (index + 1) * sizeof_metadata ≤ k * sizeof_metadata :=
        Nat.mul_le_mul_right _ hgt
      rw [file_slice_write_after _ _ _ _ _ (by rw [Nat.add_mul] at this; omega)]

theorem slot_end_le_catalog (db : pictdb_file) (k : Nat) (hk : k < db.header.max_files) :
    sizeof_header + k * sizeof_metadata + sizeof_metadata ≤ catalog_size db := by
  unfold catalog_size
  have : (k + 1) * sizeof_metadata ≤ db.header.max_files * sizeof_metadata :=
    Nat.mul_le_mul_right _ hk
  rw [Nat.add_mul] at this
  omega

theorem persisted_insert (env : externals) (P pict_id : List Nat) (db : pictdb_file)
    (hp : persisted db) (hz : (do_insert env P pict_id db).1 = ZERO) :
    persisted (do_insert env P pict_id db).2 := by
  have hcat : catalog_size db ≤ db.fpdb.bytes.length := persisted_catalog db hp
  obtain ⟨B, hB, hb, hh, ho⟩ := do_insert_zero_flush env P pict_id db _ rfl hz
  have hmax : (do_insert env P pict_id db).2.header.max_files = db.header.max_files := by
    rw [hh]
    rfl
  have hle := insert_find_slot_le db db.header.max_files 0 (Nat.zero_le _)
  have hidx : sizeof_header + insert_find_slot db db.header.max_files 0 * sizeof_metadata
      ≤ catalog_size db := by
    unfold catalog_size
    have := Nat.mul_le_mul_right sizeof_metadata hle
    omega
  have hBlen : db.fpdb.bytes.length ≤ B.length := by
    rcases hB with h | h <;> rw [h]
    simp
  have hBs : ∀ k, k < db.header.max_files →
      file_slice B (sizeof_header + k * sizeof_metadata) sizeof_metadata
        = file_slice db.fpdb.bytes (sizeof_header + k * sizeof_metadata) sizeof_metadata := by
    intro k hk
    rcases hB with h | h <;> rw [h]
    have := slot_end_le_catalog db k hk
    exact file_slice_append_left _ _ _ _ (by omega)
  obtain ⟨s1, s2, s3⟩ := slices_header_then_slot B
    (header_bytes (do_insert env P pict_id db).2.header)
    (metadata_bytes ((do_insert env P pict_id db).2.metadata
      (insert_find_slot db db.header.max_files 0)))
    (insert_find_slot db db.header.max_files 0) (header_bytes_length _)
    (metadata_bytes_length _) (by omega)
  unfold persisted
  rw [hb, hmax]
  refine ⟨s1, ?_⟩
  intro k hk
  by_cases hki : k = insert_find_slot db db.header.max_files 0
  · rw [hki]
    exact s2
  · rw [s3 k hki, hBs k hk, ho k hki]
    exact hp.2 k hk

theorem persisted_delete (picture_name : List Nat) (db : pictdb_file)
    (hp : persisted db) (hz : (do_delete picture_name db).1 = ZERO) :
    persisted (do_delete picture_name db).2 := by
  have hcat : catalog_size db ≤ db.fpdb.bytes.length := persisted_catalog db hp
  obtain ⟨_, hlt, heq⟩ := do_delete_zero_shape picture_name db hz
  have hslot := slot_end_le_catalog db _ hlt
  rw [heq]
  unfold persisted
  simp only
  obtain ⟨s1, s2, s3⟩ := slices_slot_then_header db.fpdb.bytes
    (header_bytes ⟨db.header.db_name, (db.header.db_version + 1) % 2 ^ 32,
      db.header.num_files - 1, db.header.max_files, db.header.res_resized,
      db.header.unused_32, db.header.unused_64⟩)
    (metadata_bytes
      ⟨(db.metadata (delete_find picture_name db (db.header.max_files + 1) 0)).pict_id,
        (db.metadata (delete_find picture_name db (db.header.max_files + 1) 0)).SHA,
        (db.metadata (delete_find picture_name db (db.header.max_files + 1) 0)).res_orig,
        (db.metadata (delete_find picture_name db (db.header.max_files + 1) 0)).size,
        (db.metadata (delete_find picture_name db (db.header.max_files + 1) 0)).offset,
        EMPTY,
        (db.metadata (delete_find picture_name db (db.header.max_files + 1) 0)).unused_16⟩)
    (delete_find picture_name db (db.header.max_files + 1) 0) (header_bytes_length _)
    (metadata_bytes_length _) (by omega)
  refine ⟨s1, ?_⟩
  intro k hk
  by_cases hki : k = delete_find picture_name db (db.header.max_files + 1) 0
  · rw [hki, Function.update_same]
    exact s2
  · rw [s3 k hki, Function.update_noteq hki]
    exact hp.2 k hk

theorem persisted_read (env : externals) (pict_id : List Nat) (res : Nat) (db : pictdb_file)
    (hp : persisted db) (hz : (do_read env pict_id res db).ret = ZERO) :
    persisted (do_read env pict_id res db).db := by
  have hcat : catalog_size db ≤ db.fpdb.bytes.length := persisted_catalog db hp
  obtain ⟨hlt, hl1, _, _, heq⟩ := do_read_zero_shape env pict_id res db _ rfl _ rfl hz
  rcases resize_if_missing_zero_cases env res db _ hl1 with hsame | ⟨_, _, _, _, hci⟩
  · rw [hsame] at heq
    rw [heq]
    exact hp
  · rw [hci] at heq hl1
    obtain ⟨_, _, newContent, _, _, hcr⟩ := create_image_zero_shape env res db _ hl1
    rw [hcr] at heq
    rw [heq]
    have hslot := slot_end_le_catalog db _ hlt
    unfold persisted
    simp only
    refine ⟨?_, ?_⟩
    · rw [file_slice_write_before _ _ _ _ _ (by omega)
        (by rw [List.length_append]; omega),
        file_slice_append_left _ _ _ _ (by simp only [sizeof_header] at *; omega)]
      exact hp.1
    · intro k hk
      by_cases hki : k = read_find pict_id db (db.header.max_files + 1) 0
      · rw [hki, Function.update_same]
        have := file_slice_write_same (db.fpdb.bytes ++ newContent)
          (sizeof_header + read_find pict_id db (db.header.max_files + 1) 0 * sizeof_metadata)
          (metadata_bytes
            ⟨(db.metadata (read_find pict_id db (db.header.max_files + 1) 0)).pict_id,
              (db.metadata (read_find pict_id db (db.header.max_files + 1) 0)).SHA,
              (db.metadata (read_find pict_id db (db.header.max_files + 1) 0)).res_orig,
              (db.metadata (read_find pict_id db (db.header.max_files + 1) 0)).size.set res
                (newContent.length % 2 ^ 32),
              (db.metadata (read_find pict_id db (db.header.max_files + 1) 0)).offset.set res
                db.fpdb.bytes.length,
              (db.metadata (read_find pict_id db (db.header.max_files + 1) 0)).is_valid,
              (db.metadata (read_find pict_id db (db.header.max_files + 1) 0)).unused_16⟩)
        rw [metadata_bytes_length] at this
        exact this
      · have hk2 := slot_end_le_catalog db k hk
        rw [Function.update_noteq hki, ← hp.2 k hk,
          ← file_slice_append_left db.fpdb.bytes newContent _ _ (by omega)]
        rcases Nat.lt_or_gt_of_ne hki with h | h
        · have : (k + 1) * sizeof_metadata
              ≤ read_find pict_id db (db.header.max_files + 1) 0 * sizeof_metadata :=
            Nat.mul_le_mul_right _ h
          exact file_slice_write_before _ _ _ _ _ (by rw [Nat.add_mul] at this; omega)
            (by rw [List.length_append]; omega)
        · have : (read_find pict_id db (db.header.max_files + 1) 0 + 1) * sizeof_metadata
              ≤ k * sizeof_metadata := Nat.mul_le_mul_right _ h
          exact file_slice_write_after _ _ _ _ _
            (by rw [metadata_bytes_length, Nat.add_mul] at *; omega)

/-! ## `do_open` -/

theorem file_slice_file_slice (b : List Nat) (p m q n : Nat) (h : q + n ≤ m) :
    file_slice (file_slice b p m) q n = file_slice b (p + q) n := by
  unfold file_slice
  rw [List.drop_take, List.take_take, List.drop_drop]
  congr 1
  omega

theorem fread_header (bytes : List Nat) (h : sizeof_header ≤ bytes.length) :
    fread sizeof_header ⟨bytes, 0⟩ = (1, bytes.take sizeof_header, ⟨bytes, sizeof_header⟩) := by
  unfold fread
  have h1 : (0 : Nat) + sizeof_header ≤ bytes.length := by omega
  simp only [h1, if_true]
  simp

/-- The function `do_open` on a file that holds a header. -/
theorem do_open_unfold (bytes : List Nat) (h : sizeof_header ≤ bytes.length)
    (header : pictdb_header) (hheader : header = decode_header (bytes.take sizeof_header))
    (rn : Nat × List Nat × FILE)
    (hrn : rn = fread_items sizeof_metadata header.max_files ⟨bytes, sizeof_header⟩) :
    do_open bytes =
      if header.max_files > MAX_MAX_FILES then
        ( ERR_IO, ⟨⟨bytes, sizeof_header⟩, header, fun _ => zero_metadata⟩)
      else if rn.1 ≠ header.max_files then
        ( ERR_IO, ⟨rn.2.2, header, fun k =>
          if k < rn.1 then
            decode_metadata (file_slice rn.2.1 (k * sizeof_metadata) sizeof_metadata)
          else zero_metadata⟩)
      else
        ( ZERO, ⟨rn.2.2, header, fun k =>
          if k < rn.1 then
            decode_metadata (file_slice rn.2.1 (k * sizeof_metadata) sizeof_metadata)
          else zero_metadata⟩) := by
  subst hheader hrn
  unfold do_open
  simp only [fread_header bytes h]
  simp only [ne_eq, not_true_eq_false, if_false]

theorem do_open_short (bytes : List Nat) (h : ¬ sizeof_header ≤ bytes.length) :
    (do_open bytes).1 = ERR_IO := by
  unfold do_open fread
  simp [h]

/-- A successful `do_open` has read a header with `max_files <= 100000` and
exactly `max_files` slots, which the file holds and which fill the table. -/
theorem do_open_zero_shape (bytes : List Nat) (hz : (do_open bytes).1 = ZERO) :
    (do_open bytes).2.header = decode_header (bytes.take sizeof_header) ∧
      (do_open bytes).2.header.max_files ≤ MAX_MAX_FILES ∧
      (fread_items sizeof_metadata (do_open bytes).2.header.max_files
        ⟨bytes, sizeof_header⟩).1 = (do_open bytes).2.header.max_files ∧
      sizeof_header + (do_open bytes).2.header.max_files * sizeof_metadata ≤ bytes.length ∧
      ∀ k, k < (do_open bytes).2.header.max_files →
        (do_open bytes).2.metadata k =
          decode_metadata
            (file_slice bytes (sizeof_header + k * sizeof_metadata) sizeof_metadata) := by
  by_cases h : sizeof_header ≤ bytes.length
  · have hunf := do_open_unfold bytes h _ rfl _ rfl
    by_cases hmax : (decode_header (bytes.take sizeof_header)).max_files > MAX_MAX_FILES
    · rw [hunf, if_pos hmax] at hz
      simp at hz
    · rw [if_neg hmax] at hunf
      by_cases hn : (fread_items sizeof_metadata
          (decode_header (bytes.take sizeof_header)).max_files ⟨bytes, sizeof_header⟩).1
          ≠ (decode_header (bytes.take sizeof_header)).max_files
      · rw [hunf, if_pos hn] at hz
        simp at hz
      · rw [if_neg hn] at hunf
        have hn1 := not_not.1 hn
        rw [hunf]
        simp only
        have hfit : sizeof_header
            + (decode_header (bytes.take sizeof_header)).max_files * sizeof_metadata
            ≤ bytes.length := by
          have hmin : (decode_header (bytes.take sizeof_header)).max_files
              ≤ (bytes.length - sizeof_header) / sizeof_metadata := by
            simp only [fread_items] at hn1
            omega
          have := Nat.mul_le_of_le_div _ _ _ hmin
          omega
        refine ⟨trivial, by omega, hn1, hfit, ?_⟩
        intro k hk
        rw [hn1, if_pos hk]
        simp only [fread_items]
        have hk2 : (k + 1) * sizeof_metadata
            ≤ (decode_header (bytes.take sizeof_header)).max_files * sizeof_metadata :=
          Nat.mul_le_mul_right _ hk
        have hmin : min (decode_header (bytes.take sizeof_header)).max_files
            ((bytes.length - sizeof_header) / sizeof_metadata)
            = (decode_header (bytes.take sizeof_header)).max_files := by
          simp only [fread_items] at hn1
          exact hn1
        rw [hmin]
        have := file_slice_file_slice bytes sizeof_header
          ((decode_header (bytes.take sizeof_header)).max_files * sizeof_metadata)
          (k * sizeof_metadata) sizeof_metadata (by rw [Nat.add_mul] at hk2; omega)
        unfold file_slice at this ⊢
        rw [this]
  · rw [do_open_short bytes h] at hz
    exact absurd hz (by decide)

/-- C17: on a file whose header can be read, `do_open` returns `ERR_IO` when
the header has `max_files > 100000`; and when `do_open` returns `0`, the handle
has `max_files <= 100000`, the second `fread` has read exactly `max_files`
slots, the file holds them all, and slot `k` of the table is the record at
offset `sizeof(header) + k * sizeof(metadata)` for every `k < max_files`. -/
theorem do_open_max_files (bytes : List Nat) :
    (sizeof_header ≤ bytes.length →
      (decode_header (bytes.take sizeof_header)).max_files > MAX_MAX_FILES →
      (do_open bytes).1 = ERR_IO) ∧
    ((do_open bytes).1 = ZERO →
      (do_open bytes).2.header = decode_header (bytes.take sizeof_header) ∧
      (do_open bytes).2.header.max_files ≤ MAX_MAX_FILES ∧
      (fread_items sizeof_metadata (do_open bytes).2.header.max_files
        ⟨bytes, sizeof_header⟩).1 = (do_open bytes).2.header.max_files ∧
      sizeof_header + (do_open bytes).2.header.max_files * sizeof_metadata ≤ bytes.length ∧
      ∀ k, k < (do_open bytes).2.header.max_files →
        (do_open bytes).2.metadata k =
          decode_metadata
            (file_slice bytes (sizeof_header + k * sizeof_metadata) sizeof_metadata)) :=
  ⟨fun h hmax => by rw [do_open_unfold bytes h _ rfl _ rfl, if_pos hmax],
    do_open_zero_shape bytes⟩

theorem do_open_max_files_witness :
    (do_open two_db.fpdb.bytes).1 = ZERO ∧
      (do_open two_db.fpdb.bytes).2.header = decode_header (two_db.fpdb.bytes.take sizeof_header) ∧
      (do_open two_db.fpdb.bytes).2.header.max_files ≤ MAX_MAX_FILES ∧
      (fread_items sizeof_metadata (do_open two_db.fpdb.bytes).2.header.max_files
        ⟨two_db.fpdb.bytes, sizeof_header⟩).1 = (do_open two_db.fpdb.bytes).2.header.max_files ∧
      sizeof_header + (do_open two_db.fpdb.bytes).2.header.max_files * sizeof_metadata
        ≤ two_db.fpdb.bytes.length ∧
      ∀ k, k < (do_open two_db.fpdb.bytes).2.header.max_files →
        (do_open two_db.fpdb.bytes).2.metadata k =
          decode_metadata
            (file_slice two_db.fpdb.bytes (sizeof_header + k * sizeof_metadata)
              sizeof_metadata) :=
  ⟨by decide!, (do_open_max_files two_db.fpdb.bytes).2 (by decide!)⟩

/-! ## Reading the object representations back -/

theorem le_value_le_bytes (w v : Nat) : le_value (le_bytes w v) = v % 256 ^ w := by
  induction w generalizing v with
  | zero => simp [le_bytes, le_value, Nat.mod_one]
  | succ w ih =>
    simp only [le_bytes, le_value, ih]
    rw [Nat.pow_succ, Nat.mul_comm (256 ^ w) 256, Nat.mod_mul, Nat.add_comm]

theorem le_value_le_bytes_of_lt (w v : Nat) (h : v < 256 ^ w) :
    le_value (le_bytes w v) = v := by
  rw [le_value_le_bytes, Nat.mod_eq_of_lt h]

theorem file_slice_append_skip (a b : List Nat) (q n : Nat) (h : a.length ≤ q) :
    file_slice (a ++ b) q n = file_slice b (q - a.length) n := by
  unfold file_slice
  rw [List.drop_append_eq_append_drop, List.drop_of_length_le h, List.nil_append]

theorem file_slice_append_head (a b : List Nat) (n : Nat) (h : a.length = n) :
    file_slice (a ++ b) 0 n = a := by
  unfold file_slice
  rw [List.drop_zero, ← h, List.take_left]

theorem file_slice_self (a : List Nat) (n : Nat) (h : a.length = n) :
    file_slice a 0 n = a := by
  unfold file_slice
  rw [List.drop_zero, ← h, List.take_length]

theorem map_mod_of_lt (s : List Nat) (h : ∀ b, b ∈ s → b < 256) :
    s.map (fun b => b % 256) = s := by
  induction s with
  | nil => rfl
  | cons a s ih =>
    simp only [List.map_cons]
    rw [Nat.mod_eq_of_lt (h a (List.mem_cons_self a s)),
      ih (fun b hb => h b (List.mem_cons_of_mem a hb))]

/-- A string that fits the array is read back from the array. -/
theorem c_string_fixed_bytes (n : Nat) (s : List Nat) (h : c_string_ok n s) :
    c_string (fixed_bytes (n + 1) s) = s := by
  obtain ⟨hlen, hb⟩ := h
  unfold c_string fixed_bytes
  rw [map_mod_of_lt s (fun b hm => (hb b hm).2), List.take_of_length_le (by omega)]
  have hrep : List.replicate (n + 1 - s.length) 0
      = 0 :: List.replicate (n - s.length) 0 := by
    have : n + 1 - s.length = (n - s.length) + 1 := by omega
    rw [this, List.replicate_succ]
  rw [hrep, List.takeWhile_append_of_pos]
  · simp
  · intro a ha
    have := (hb a ha).1
    simp
    omega

/-- A digest of 32 bytes is read back from the array. -/
theorem fixed_bytes_full (n : Nat) (s : List Nat) (hlen : s.length = n)
    (hb : ∀ b, b ∈ s → b < 256) : fixed_bytes n s = s := by
  unfold fixed_bytes
  rw [map_mod_of_lt s hb, List.take_of_length_le (by omega), hlen, Nat.sub_self]
  simp

theorem decode_header_bytes (h : pictdb_header) (ht : header_typed h) :
    decode_header (header_bytes h) = h := by
  obtain ⟨h1, h2, h3, h4, h5, h6, h7, h8⟩ := ht
  have e0 : file_slice (header_bytes h) 0 (MAX_DB_NAME + 1)
      = fixed_bytes (MAX_DB_NAME + 1) h.db_name := by
    simp only [header_bytes, List.append_assoc, file_slice_append_skip, file_slice_append_head,
      file_slice_self, le_bytes_length, fixed_bytes_length, MAX_DB_NAME, Nat.reduceAdd,
      Nat.reduceLeDiff, Nat.reduceSub, Nat.le_refl]
  have e1 : file_slice (header_bytes h) 32 4 = le_bytes 4 h.db_version := by
    simp only [header_bytes, List.append_assoc, file_slice_append_skip, file_slice_append_head,
      file_slice_self, le_bytes_length, fixed_bytes_length, MAX_DB_NAME, Nat.reduceAdd,
      Nat.reduceLeDiff, Nat.reduceSub, Nat.le_refl]
  have e2 : file_slice (header_bytes h) 36 4 = le_bytes 4 h.num_files := by
    simp only [header_bytes, List.append_assoc, file_slice_append_skip, file_slice_append_head,
      file_slice_self, le_bytes_length, fixed_bytes_length, MAX_DB_NAME, Nat.reduceAdd,
      Nat.reduceLeDiff, Nat.reduceSub, Nat.le_refl]
  have e3 : file_slice (header_bytes h) 40 4 = le_bytes 4 h.max_files := by
    simp only [header_bytes, List.append_assoc, file_slice_append_skip, file_slice_append_head,
      file_slice_self, le_bytes_length, fixed_bytes_length, MAX_DB_NAME, Nat.reduceAdd,
      Nat.reduceLeDiff, Nat.reduceSub, Nat.le_refl]
  have e4 : file_slice (header_bytes h) 44 2 = le_bytes 2 (h.res_resized.getD 0 0) := by
    simp only [header_bytes, List.append_assoc, file_slice_append_skip, file_slice_append_head,
      file_slice_self, le_bytes_length, fixed_bytes_length, MAX_DB_NAME, Nat.reduceAdd,
      Nat.reduceLeDiff, Nat.reduceSub, Nat.le_refl]
  have e5 : file_slice (header_bytes h) 46 2 = le_bytes 2 (h.res_resized.getD 1 0) := by
    simp only [header_bytes, List.append_assoc, file_slice_append_skip, file_slice_append_head,
      file_slice_self, le_bytes_length, fixed_bytes_length, MAX_DB_NAME, Nat.reduceAdd,
      Nat.reduceLeDiff, Nat.reduceSub, Nat.le_refl]
  have e6 : file_slice (header_bytes h) 48 2 = le_bytes 2 (h.res_resized.getD 2 0) := by
    simp only [header_bytes, List.append_assoc, file_slice_append_skip, file_slice_append_head,
      file_slice_self, le_bytes_length, fixed_bytes_length, MAX_DB_NAME, Nat.reduceAdd,
      Nat.reduceLeDiff, Nat.reduceSub, Nat.le_refl]
  have e7 : file_slice (header_bytes h) 50 2 = le_bytes 2 (h.res_resized.getD 3 0) := by
    simp only [header_bytes, List.append_assoc, file_slice_append_skip, file_slice_append_head,
      file_slice_self, le_bytes_length, fixed_bytes_length, MAX_DB_NAME, Nat.reduceAdd,
      Nat.reduceLeDiff, Nat.reduceSub, Nat.le_refl]
  have e8 : file_slice (header_bytes h) 52 4 = le_bytes 4 h.unused_32 := by
    simp only [header_bytes, List.append_assoc, file_slice_append_skip, file_slice_append_head,
      file_slice_self, le_bytes_length, fixed_bytes_length, MAX_DB_NAME, Nat.reduceAdd,
      Nat.reduceLeDiff, Nat.reduceSub, Nat.le_refl]
  have e9 : file_slice (header_bytes h) 56 8 = le_bytes 8 h.unused_64 := by
    simp only [header_bytes, List.append_assoc, file_slice_append_skip, file_slice_append_head,
      file_slice_self, le_bytes_length, fixed_bytes_length, MAX_DB_NAME, Nat.reduceAdd,
      Nat.reduceLeDiff, Nat.reduceSub, Nat.le_refl]
  unfold decode_header
  rw [e0, e1, e2, e3, e4, e5, e6, e7, e8, e9, c_string_fixed_bytes _ _ h1,
    le_value_le_bytes_of_lt 4 _ h2, le_value_le_bytes_of_lt 4 _ h3,
    le_value_le_bytes_of_lt 4 _ h4, le_value_le_bytes_of_lt 4 _ h7,
    le_value_le_bytes_of_lt 8 _ h8]
  obtain ⟨n, v, c, m, rs, u1, u2⟩ := h
  simp only at h5 h6 ⊢
  match rs, h5 with
  | [a, b, c1, d], _ =>
    have ha := h6 a (by simp)
    have hb := h6 b (by simp)
    have hc := h6 c1 (by simp)
    have hd := h6 d (by simp)
    simp only [List.getD_cons_zero, List.getD_cons_succ]
    rw [le_value_le_bytes_of_lt 2 _ ha, le_value_le_bytes_of_lt 2 _ hb,
      le_value_le_bytes_of_lt 2 _ hc, le_value_le_bytes_of_lt 2 _ hd]

theorem decode_metadata_bytes (m : pict_metadata) (ht : metadata_typed m) :
    decode_metadata (metadata_bytes m) = m := by
  obtain ⟨h1, h2, h3, h4, h5, h6, h7, h8, h9, h10, h11, h12, h13⟩ := ht
  have e0 : file_slice (metadata_bytes m) 0 (MAX_PIC_ID + 1) = fixed_bytes (MAX_PIC_ID + 1) m.pict_id := by
    simp only [metadata_bytes, List.append_assoc, file_slice_append_skip,
      file_slice_append_head, file_slice_self, le_bytes_length, fixed_bytes_length,
      List.length_replicate, MAX_PIC_ID, SHA256_DIGEST_LENGTH, Nat.reduceAdd, Nat.reduceLeDiff,
      Nat.reduceSub, Nat.le_refl]
  have e1 : file_slice (metadata_bytes m) 128 SHA256_DIGEST_LENGTH = fixed_bytes SHA256_DIGEST_LENGTH m.SHA := by
    simp only [metadata_bytes, List.append_assoc, file_slice_append_skip,
      file_slice_append_head, file_slice_self, le_bytes_length, fixed_bytes_length,
      List.length_replicate, MAX_PIC_ID, SHA256_DIGEST_LENGTH, Nat.reduceAdd, Nat.reduceLeDiff,
      Nat.reduceSub, Nat.le_refl]
  have e2 : file_slice (metadata_bytes m) 160 4 = le_bytes 4 m.res_orig.1 := by
    simp only [metadata_bytes, List.append_assoc, file_slice_append_skip,
      file_slice_append_head, file_slice_self, le_bytes_length, fixed_bytes_length,
      List.length_replicate, MAX_PIC_ID, SHA256_DIGEST_LENGTH, Nat.reduceAdd, Nat.reduceLeDiff,
      Nat.reduceSub, Nat.le_refl]
  have e3 : file_slice (metadata_bytes m) 164 4 = le_bytes 4 m.res_orig.2 := by
    simp only [metadata_bytes, List.append_assoc, file_slice_append_skip,
      file_slice_append_head, file_slice_self, le_bytes_length, fixed_bytes_length,
      List.length_replicate, MAX_PIC_ID, SHA256_DIGEST_LENGTH, Nat.reduceAdd, Nat.reduceLeDiff,
      Nat.reduceSub, Nat.le_refl]
  have e4 : file_slice (metadata_bytes m) 168 4 = le_bytes 4 m.size.thumb := by
    simp only [metadata_bytes, List.append_assoc, file_slice_append_skip,
      file_slice_append_head, file_slice_self, le_bytes_length, fixed_bytes_length,
      List.length_replicate, MAX_PIC_ID, SHA256_DIGEST_LENGTH, Nat.reduceAdd, Nat.reduceLeDiff,
      Nat.reduceSub, Nat.le_refl]
  have e5 : file_slice (metadata_bytes m) 172 4 = le_bytes 4 m.size.small := by
    simp only [metadata_bytes, List.append_assoc, file_slice_append_skip,
      file_slice_append_head, file_slice_self, le_bytes_length, fixed_bytes_length,
      List.length_replicate, MAX_PIC_ID, SHA256_DIGEST_LENGTH, Nat.reduceAdd, Nat.reduceLeDiff,
      Nat.reduceSub, Nat.le_refl]
  have e6 : file_slice (metadata_bytes m) 176 4 = le_bytes 4 m.size.orig := by
    simp only [metadata_bytes, List.append_assoc, file_slice_append_skip,
      file_slice_append_head, file_slice_self, le_bytes_length, fixed_bytes_length,
      List.length_replicate, MAX_PIC_ID, SHA256_DIGEST_LENGTH, Nat.reduceAdd, Nat.reduceLeDiff,
      Nat.reduceSub, Nat.le_refl]
  have e7 : file_slice (metadata_bytes m) 184 8 = le_bytes 8 m.offset.thumb := by
    simp only [metadata_bytes, List.append_assoc, file_slice_append_skip,
      file_slice_append_head, file_slice_self, le_bytes_length, fixed_bytes_length,
      List.length_replicate, MAX_PIC_ID, SHA256_DIGEST_LENGTH, Nat.reduceAdd, Nat.reduceLeDiff,
      Nat.reduceSub, Nat.le_refl]
  have e8 : file_slice (metadata_bytes m) 192 8 = le_bytes 8 m.offset.small := by
    simp only [metadata_bytes, List.append_assoc, file_slice_append_skip,
      file_slice_append_head, file_slice_self, le_bytes_length, fixed_bytes_length,
      List.length_replicate, MAX_PIC_ID, SHA256_DIGEST_LENGTH, Nat.reduceAdd, Nat.reduceLeDiff,
      Nat.reduceSub, Nat.le_refl]
  have e9 : file_slice (metadata_bytes m) 200 8 = le_bytes 8 m.offset.orig := by
    simp only [metadata_bytes, List.append_assoc, file_slice_append_skip,
      file_slice_append_head, file_slice_self, le_bytes_length, fixed_bytes_length,
      List.length_replicate, MAX_PIC_ID, SHA256_DIGEST_LENGTH, Nat.reduceAdd, Nat.reduceLeDiff,
      Nat.reduceSub, Nat.le_refl]
  have e10 : file_slice (metadata_bytes m) 208 2 = le_bytes 2 m.is_valid := by
    simp only [metadata_bytes, List.append_assoc, file_slice_append_skip,
      file_slice_append_head, file_slice_self, le_bytes_length, fixed_bytes_length,
      List.length_replicate, MAX_PIC_ID, SHA256_DIGEST_LENGTH, Nat.reduceAdd, Nat.reduceLeDiff,
      Nat.reduceSub, Nat.le_refl]
  have e11 : file_slice (metadata_bytes m) 210 2 = le_bytes 2 m.unused_16 := by
    simp only [metadata_bytes, List.append_assoc, file_slice_append_skip,
      file_slice_append_head, file_slice_self, le_bytes_length, fixed_bytes_length,
      List.length_replicate, MAX_PIC_ID, SHA256_DIGEST_LENGTH, Nat.reduceAdd, Nat.reduceLeDiff,
      Nat.reduceSub, Nat.le_refl]
  unfold decode_metadata
  rw [e0, e1, e2, e3, e4, e5, e6, e7, e8, e9, e10, e11, c_string_fixed_bytes _ _ h1,
    fixed_bytes_full _ _ h2 h3, le_value_le_bytes_of_lt 4 _ h4, le_value_le_bytes_of_lt 4 _ h5,
    le_value_le_bytes_of_lt 4 _ h6, le_value_le_bytes_of_lt 4 _ h7,
    le_value_le_bytes_of_lt 4 _ h8, le_value_le_bytes_of_lt 8 _ h9,
    le_value_le_bytes_of_lt 8 _ h10, le_value_le_bytes_of_lt 8 _ h11,
    le_value_le_bytes_of_lt 2 _ h12, le_value_le_bytes_of_lt 2 _ h13]

/-- Opening a file whose catalog follows a handle with well-typed fields and
`max_files <= 100000` gives back the header and the table of that handle. -/
theorem do_open_persisted (db : pictdb_file) (hp : persisted db)
    (hh : header_typed db.header)
    (hm : ∀ k, k < db.header.max_files → metadata_typed (db.metadata k))
    (hmax : db.header.max_files ≤ MAX_MAX_FILES) :
    (do_open db.fpdb.bytes).1 = ZERO ∧ (do_open db.fpdb.bytes).2.header = db.header ∧
      ∀ k, k < db.header.max_files → (do_open db.fpdb.bytes).2.metadata k = db.metadata k := by
  have hcat : catalog_size db ≤ db.fpdb.bytes.length := persisted_catalog db hp
  unfold catalog_size at hcat
  have h64 : sizeof_header ≤ db.fpdb.bytes.length := by omega
  have hhead : decode_header (db.fpdb.bytes.take sizeof_header) = db.header := by
    have : db.fpdb.bytes.take sizeof_header = file_slice db.fpdb.bytes 0 sizeof_header := by
      simp [file_slice]
    rw [this, hp.1, decode_header_bytes _ hh]
  have hz : (do_open db.fpdb.bytes).1 = ZERO := by
    rw [do_open_unfold db.fpdb.bytes h64 _ rfl _ rfl, hhead, if_neg (by omega)]
    have hcount : (fread_items sizeof_metadata db.header.max_files
        ⟨db.fpdb.bytes, sizeof_header⟩).1 = db.header.max_files := by
      simp only [fread_items]
      have : db.header.max_files ≤ (db.fpdb.bytes.length - sizeof_header) / sizeof_metadata := by
        rw [Nat.le_div_iff_mul_le (by decide)]
        omega
      omega
    rw [if_neg (by rw [hcount]; exact fun h => h rfl)]
  obtain ⟨h1, _, _, _, h5⟩ := do_open_zero_shape db.fpdb.bytes hz
  rw [hhead] at h1
  refine ⟨hz, h1, ?_⟩
  intro k hk
  rw [h5 k (by rw [h1]; exact hk), hp.2 k hk, decode_metadata_bytes _ (hm k hk)]

/-- C16: if the header at file offset `0` and every slot `k < max_files` at
offset `sizeof(header) + k * sizeof(metadata)` are the object representations
of the in-memory header and slots, they are so again after a successful
`do_insert`, after a successful `do_delete` and after a successful `do_read`
(whether or not it builds a derivative).  And whenever they are so, for a
handle with well-typed fields and `max_files <= 100000`, `do_open` on the file
returns `0` with the header and the table of the handle. -/
theorem persisted_preserved (env : externals) (db : pictdb_file) (hp : persisted db) :
    (∀ P pict_id, (do_insert env P pict_id db).1 = ZERO →
      persisted (do_insert env P pict_id db).2) ∧
    (∀ picture_name, (do_delete picture_name db).1 = ZERO →
      persisted (do_delete picture_name db).2) ∧
    (∀ pict_id res, (do_read env pict_id res db).ret = ZERO →
      persisted (do_read env pict_id res db).db) ∧
    (∀ s : pictdb_file, persisted s → header_typed s.header →
      (∀ k, k < s.header.max_files → metadata_typed (s.metadata k)) →
      s.header.max_files ≤ MAX_MAX_FILES →
      (do_open s.fpdb.bytes).1 = ZERO ∧ (do_open s.fpdb.bytes).2.header = s.header ∧
        ∀ k, k < s.header.max_files → (do_open s.fpdb.bytes).2.metadata k = s.metadata k) :=
  ⟨fun P pict_id hz => persisted_insert env P pict_id db hp hz,
    fun picture_name hz => persisted_delete picture_name db hp hz,
    fun pict_id res hz => persisted_read env pict_id res db hp hz,
    fun s hs hh hm hmax => do_open_persisted s hs hh hm hmax⟩

theorem persisted_preserved_witness :
    (persisted one_db ∧ (do_insert toy_env [4, 5] [98] one_db).1 = ZERO ∧
        (do_delete [97] one_db).1 = ZERO ∧ (do_read toy_env [97] RES_THUMB one_db).ret = ZERO) ∧
      persisted (do_insert toy_env [4, 5] [98] one_db).2 ∧
      persisted (do_delete [97] one_db).2 ∧
      persisted (do_read toy_env [97] RES_THUMB one_db).db ∧
      (do_open (do_read toy_env [97] RES_THUMB one_db).db.fpdb.bytes).1 = ZERO ∧
      (do_open (do_read toy_env [97] RES_THUMB one_db).db.fpdb.bytes).2.header
        = (do_read toy_env [97] RES_THUMB one_db).db.header ∧
      ∀ k, k < (do_read toy_env [97] RES_THUMB one_db).db.header.max_files →
        (do_open (do_read toy_env [97] RES_THUMB one_db).db.fpdb.bytes).2.metadata k
          = (do_read toy_env [97] RES_THUMB one_db).db.metadata k :=
  ⟨by decide!,
    (persisted_preserved toy_env one_db (by decide!)).1 [4, 5] [98] (by decide!),
    (persisted_preserved toy_env one_db (by decide!)).2.1 [97] (by decide!),
    (persisted_preserved toy_env one_db (by decide!)).2.2.1 [97] RES_THUMB (by decide!),
    (persisted_preserved toy_env one_db (by decide!)).2.2.2
      (do_read toy_env [97] RES_THUMB one_db).db (by decide!) (by decide!) (by decide!)
      (by decide!)⟩

/-! ## The listing -/

theorem fread_bytes (size : Nat) (f : FILE) : (fread size f).2.2.bytes = f.bytes := by
  unfold fread
  split
  · rfl
  · split <;> rfl

theorem resize_if_missing_orig (env : externals) (db : pictdb_file) (index : Nat) :
    resize_if_missing env RES_ORIG db index = ( ZERO, db) := by
  unfold resize_if_missing lazily_resize
  simp

/-- A call `do_read(id, RES_ORIG)` changes neither the header, nor the table,
nor the bytes of the file, whatever it returns. -/
theorem do_read_orig_frame (env : externals) (pict_id : List Nat) (db : pictdb_file) :
    (do_read env pict_id RES_ORIG db).db.header = db.header ∧
      (do_read env pict_id RES_ORIG db).db.metadata = db.metadata ∧
      (do_read env pict_id RES_ORIG db).db.fpdb.bytes = db.fpdb.bytes := by
  rw [do_read_unfold env pict_id RES_ORIG db _ rfl _ rfl _ rfl, resize_if_missing_orig]
  split
  · exact ⟨rfl, rfl, rfl⟩
  · split
    · exact ⟨rfl, rfl, rfl⟩
    · split
      · exact ⟨rfl, rfl, fread_bytes _ _⟩
      · exact ⟨rfl, rfl, fread_bytes _ _⟩

theorem gbcollect_step_frame (env : externals) (i : Nat) (db_file db_temp : pictdb_file) :
    (gbcollect_step env i db_file db_temp).2.1.header = db_file.header ∧
      (gbcollect_step env i db_file db_temp).2.1.metadata = db_file.metadata ∧
      (gbcollect_step env i db_file db_temp).2.1.fpdb.bytes = db_file.fpdb.bytes := by
  unfold gbcollect_step
  split
  · simp only
    split
    · exact do_read_orig_frame env _ db_file
    · split
      · exact do_read_orig_frame env _ db_file
      · split
        · exact do_read_orig_frame env _ db_file
        · split
          · exact do_read_orig_frame env _ db_file
          · exact do_read_orig_frame env _ db_file
  · exact ⟨rfl, rfl, rfl⟩

theorem do_gbcollect_unfold (env : externals) (db_file stack : pictdb_file)
    (l : ret_code × pictdb_file × pictdb_file)
    (hl : l = gbcollect_loop env db_file.header.max_files 0 db_file
      (do_create (initialize_pictdb db_file stack)).2) :
    do_gbcollect env db_file stack =
      if l.1 ≠ ZERO then ⟨l.1, l.2.1, l.2.2, some l.2.1.fpdb.bytes, none⟩
      else ⟨ ZERO, l.2.1, l.2.2, some l.2.2.fpdb.bytes, none⟩ := by
  subst hl
  unfold do_gbcollect
  have hc : (do_create (initialize_pictdb db_file stack)).1 = ZERO := by
    rw [do_create_eq]
  simp only [hc, ne_eq, not_true_eq_false, if_false]

theorem valid_slots_succ_valid (db : pictdb_file) (i : Nat)
    (h : (db.metadata i).is_valid = NON_EMPTY) :
    valid_slots db (i + 1) = valid_slots db i ++ [i] := by
  simp [valid_slots, List.range_succ, List.filter_append, h]

theorem valid_slots_succ_invalid (db : pictdb_file) (i : Nat)
    (h : ¬ (db.metadata i).is_valid = NON_EMPTY) :
    valid_slots db (i + 1) = valid_slots db i := by
  simp [valid_slots, List.range_succ, List.filter_append, h]

theorem valid_slots_length_le (db : pictdb_file) (i : Nat) : (valid_slots db i).length ≤ i := by
  unfold valid_slots
  exact (List.length_filter_le _ _).trans (by simp)

theorem mem_valid_slots (db : pictdb_file) (n j : Nat) :
    j ∈ valid_slots db n ↔ j < n ∧ (db.metadata j).is_valid = NON_EMPTY := by
  simp [valid_slots]

theorem count_valid_eq_length (db : pictdb_file) :
    count_valid db = (valid_slots db db.header.max_files).length := by
  unfold count_valid valid_slots
  exact List.countP_eq_length_filter _ _

theorem map_range_elem {α : Type} (f g : Nat → α) (k : Nat) (l : List Nat)
    (h : (List.range k).map f = l.map g) (t : Nat) (ht : t < k) : ∃ j, j ∈ l ∧ f t = g j := by
  have hm : f t ∈ (List.range k).map f := List.mem_map.2 ⟨t, List.mem_range.2 ht, rfl⟩
  rw [h] at hm
  obtain ⟨j, hj, hg⟩ := List.mem_map.1 hm
  exact ⟨j, hj, hg.symm⟩

theorem map_range_elem_rev {α : Type} (f g : Nat → α) (k : Nat) (l : List Nat)
    (h : (List.range k).map f = l.map g) (j : Nat) (hj : j ∈ l) : ∃ t, t < k ∧ f t = g j := by
  have hm : g j ∈ l.map g := List.mem_map.2 ⟨j, hj, rfl⟩
  rw [← h] at hm
  obtain ⟨t, ht, hg⟩ := List.mem_map.1 hm
  exact ⟨t, List.mem_range.1 ht, hg⟩

/-- The code and the bytes returned by `do_read(id, RES_ORIG)` do not depend on
the position of the stream. -/
theorem do_read_orig_cursor (env : externals) (pict_id : List Nat) (s src : pictdb_file)
    (h1 : s.header = src.header) (h2 : s.metadata = src.metadata)
    (h3 : s.fpdb.bytes = src.fpdb.bytes) :
    (do_read env pict_id RES_ORIG s).ret = (do_read env pict_id RES_ORIG src).ret ∧
      (do_read env pict_id RES_ORIG s).data = (do_read env pict_id RES_ORIG src).data := by
  have hf : read_find pict_id s (s.header.max_files + 1) 0
      = read_find pict_id src (src.header.max_files + 1) 0 := by
    rw [read_find_congr pict_id src s (by rw [h1]) (fun i => by rw [h2]) (fun i => by rw [h2]),
      h1]
  rw [do_read_unfold env pict_id RES_ORIG s _ rfl _ rfl _ rfl,
    do_read_unfold env pict_id RES_ORIG src _ rfl _ rfl _ rfl, resize_if_missing_orig,
    resize_if_missing_orig, hf]
  simp only [h1, h2, fseek_set, h3]
  split
  · exact ⟨rfl, rfl⟩
  · split
    · exact ⟨rfl, rfl⟩
    · split <;> exact ⟨rfl, rfl⟩

/-- A successful `do_read(id, RES_ORIG)` on a database whose slots have 32-bit
sizes returns a non-empty payload shorter than `2 ^ 32`. -/
theorem do_read_orig_length (env : externals) (pict_id : List Nat) (db : pictdb_file)
    (hm : ∀ i, i < db.header.max_files → metadata_typed (db.metadata i))
    (hz : (do_read env pict_id RES_ORIG db).ret = ZERO) :
    (do_read env pict_id RES_ORIG db).data ≠ [] ∧
      (do_read env pict_id RES_ORIG db).data.length < 2 ^ 32 := by
  obtain ⟨hlt, _, hsz, hin, heq⟩ := do_read_zero_shape env pict_id RES_ORIG db _ rfl _ rfl hz
  rw [resize_if_missing_orig] at hsz hin heq
  simp only at hsz hin heq
  have hlen : (do_read env pict_id RES_ORIG db).data.length
      = (db.metadata (read_find pict_id db (db.header.max_files + 1) 0)).size.get RES_ORIG := by
    rw [heq]
    simp only [List.length_take, List.length_drop]
    omega
  have ht := (hm _ hlt).2.2.2.2.2.2.2.1
  have hget : (db.metadata (read_find pict_id db (db.header.max_files + 1) 0)).size.get RES_ORIG
      = (db.metadata (read_find pict_id db (db.header.max_files + 1) 0)).size.orig := rfl
  refine ⟨?_, ?_⟩
  · intro h0
    rw [h0] at hlen
    exact hsz hlen.symm
  · rw [hlen, hget]
    exact ht

/-- A successful `do_read` leaves the bytes of the payload region as they
were. -/
theorem do_read_payload_slice (env : externals) (pict_id : List Nat) (res : Nat)
    (db : pictdb_file)
    (hz : (do_read env pict_id res db).ret = ZERO) (q n : Nat) (hq : catalog_size db ≤ q)
    (hn : q + n ≤ db.fpdb.bytes.length) :
    file_slice (do_read env pict_id res db).db.fpdb.bytes q n = file_slice db.fpdb.bytes q n := by
  obtain ⟨hlt, hl1, _, _, heq⟩ := do_read_zero_shape env pict_id res db _ rfl _ rfl hz
  rcases resize_if_missing_zero_cases env res db _ hl1 with hsame | ⟨_, _, _, _, hci⟩
  · rw [hsame] at heq
    rw [heq]
  · rw [hci] at heq hl1
    obtain ⟨_, _, newContent, _, _, hcr⟩ := create_image_zero_shape env res db _ hl1
    rw [hcr] at heq
    rw [heq]
    have hslot := slot_end_le_catalog db _ hlt
    simp only
    rw [file_slice_write_after _ _ _ _ _ (by rw [metadata_bytes_length]; omega),
      file_slice_append_left _ _ _ _ hn]

/-- What a successful `do_insert` does to a database whose file holds the
catalog, when the first free slot is inside the table. -/
theorem do_insert_scratch (env : externals) (P pict_id : List Nat) (db : pictdb_file)
    (index : Nat) (hindex : index = insert_find_slot db db.header.max_files 0)
    (hcat : catalog_persisted db) (hlt : index < db.header.max_files)
    (hoff : ∀ j, j < db.header.max_files → (db.metadata j).is_valid = NON_EMPTY →
      (db.metadata j).offset.get RES_ORIG ≠ 0)
    (hz : (do_insert env P pict_id db).1 = ZERO) :
    (do_insert env P pict_id db).2.header = header_after_insert db.header ∧
    (∀ k, k ≠ index → (do_insert env P pict_id db).2.metadata k = db.metadata k) ∧
    ((do_insert env P pict_id db).2.metadata index).is_valid = NON_EMPTY ∧
    ((do_insert env P pict_id db).2.metadata index).pict_id = pict_id.take MAX_PIC_ID ∧
    ((do_insert env P pict_id db).2.metadata index).SHA = env.SHA256 P ∧
    db.fpdb.bytes.length ≤ (do_insert env P pict_id db).2.fpdb.bytes.length ∧
    (∀ q n, catalog_size db ≤ q → q + n ≤ db.fpdb.bytes.length →
      file_slice (do_insert env P pict_id db).2.fpdb.bytes q n = file_slice db.fpdb.bytes q n) ∧
    (∀ j, j < db.header.max_files → (db.metadata j).is_valid = NON_EMPTY →
      (db.metadata j).pict_id ≠ pict_id.take MAX_PIC_ID) ∧
    ((∃ j, j < db.header.max_files ∧ j ≠ index ∧ (db.metadata j).is_valid = NON_EMPTY ∧
        compare_SHA (db.metadata j).SHA (env.SHA256 P) = 0 ∧
        ((do_insert env P pict_id db).2.metadata index).size = (db.metadata j).size ∧
        ((do_insert env P pict_id db).2.metadata index).offset = (db.metadata j).offset) ∨
      (P ≠ [] ∧
        ((do_insert env P pict_id db).2.metadata index).size.get RES_ORIG
          = P.length % 2 ^ 32 ∧
        ((do_insert env P pict_id db).2.metadata index).offset.get RES_ORIG
          = db.fpdb.bytes.length ∧
        file_slice (do_insert env P pict_id db).2.fpdb.bytes db.fpdb.bytes.length P.length = P ∧
        db.fpdb.bytes.length + P.length
          ≤ (do_insert env P pict_id db).2.fpdb.bytes.length)) := by
  obtain ⟨_, hfresh, w, ht, _, hcases⟩ := do_insert_zero_shape env P pict_id db index hindex hz
  have hslot := slot_end_le_catalog db index hlt
  have hcat2 : catalog_size db ≤ db.fpdb.bytes.length := hcat
  have hfresh2 : ∀ j, j < db.header.max_files → (db.metadata j).is_valid = NON_EMPTY →
      (db.metadata j).pict_id ≠ pict_id.take MAX_PIC_ID :=
    fun j hj hv => strncmp_ne_of_fresh _ _ (hfresh j hj hv)
  rcases hcases with ⟨j, hj, hji, hvj, hsha, _, heq⟩ | ⟨_, hne, heq⟩
  · rw [heq (hoff j hj hvj)]
    simp only
    refine ⟨trivial, ?_, ?_, ?_, ?_, ?_, ?_, hfresh2, ?_⟩
    · intro k hk
      rw [Function.update_noteq hk]
    · rw [Function.update_same]
    · rw [Function.update_same]
      rfl
    · rw [Function.update_same]
    · exact (write_at_length_ge _ _ _).trans (write_at_length_ge _ _ _)
    · intro q n hq hn
      rw [file_slice_write_after _ _ _ _ _ (by rw [metadata_bytes_length]; omega),
        file_slice_write_after _ _ _ _ _ (by
          rw [header_bytes_length]
          simp only [catalog_size, sizeof_header] at *
          omega)]
    · left
      refine ⟨j, hj, hji, hvj, hsha, ?_, ?_⟩
      · rw [Function.update_same]
      · rw [Function.update_same]
  · rw [heq]
    simp only
    have hafter : ∀ q n, catalog_size db ≤ q →
        file_slice (write_at (write_at (db.fpdb.bytes ++ P) 0
            (header_bytes (header_after_insert db.header)))
          (sizeof_header + index * sizeof_metadata)
          (metadata_bytes ⟨strncpy pict_id MAX_PIC_ID, env.SHA256 P,
            (w % 2 ^ 32, ht % 2 ^ 32), ⟨0, 0, P.length % 2 ^ 32⟩,
            ⟨0, 0, db.fpdb.bytes.length⟩, NON_EMPTY, (db.metadata index).unused_16⟩)) q n
          = file_slice (db.fpdb.bytes ++ P) q n := by
      intro q n hq
      rw [file_slice_write_after _ _ _ _ _ (by rw [metadata_bytes_length]; omega),
        file_slice_write_after _ _ _ _ _ (by
          rw [header_bytes_length]
          simp only [catalog_size, sizeof_header] at *
          omega)]
    refine ⟨trivial, ?_, ?_, ?_, ?_, ?_, ?_, hfresh2, ?_⟩
    · intro k hk
      rw [Function.update_noteq hk]
    · rw [Function.update_same]
    · rw [Function.update_same]
      rfl
    · rw [Function.update_same]
    · refine le_trans ?_ ((write_at_length_ge _ _ _).trans (write_at_length_ge _ _ _))
      rw [List.length_append]
      omega
    · intro q n hq hn
      rw [hafter q n hq, file_slice_append_left _ _ _ _ hn]
    · right
      refine ⟨hne, ?_, ?_, ?_, ?_⟩
      · rw [Function.update_same]
        rfl
      · rw [Function.update_same]
        rfl
      · rw [hafter _ _ hcat2, file_slice_append_skip _ _ _ _ (Nat.le_refl _), Nat.sub_self,
          file_slice_self _ _ rfl]
      · refine le_trans ?_ ((write_at_length_ge _ _ _).trans (write_at_length_ge _ _ _))
        rw [List.length_append]

theorem table_bytes_slice (m : Nat → pict_metadata) (n k : Nat) (hk : k < n) :
    file_slice (table_bytes m n) (k * sizeof_metadata) sizeof_metadata = metadata_bytes (m k) := by
  induction n with
  | zero => omega
  | succ n ih =>
    have hsucc : table_bytes m (n + 1) = table_bytes m n ++ metadata_bytes (m n) := by
      simp [table_bytes, List.range_succ, List.flatMap_append]
    rw [hsucc]
    by_cases hkn : k < n
    · have : (k + 1) * sizeof_metadata ≤ n * sizeof_metadata := Nat.mul_le_mul_right _ hkn
      rw [Nat.add_mul, Nat.one_mul] at this
      rw [file_slice_append_left _ _ _ _ (by rw [table_bytes_length]; exact this)]
      exact ih hkn
    · have hkn2 : k = n := by omega
      subst hkn2
      rw [file_slice_append_skip _ _ _ _ (by rw [table_bytes_length]), table_bytes_length,
        Nat.sub_self]
      exact file_slice_self _ _ (metadata_bytes_length _)

/-- The file written by `do_create` is the catalog of the handle. -/
theorem persisted_create (db : pictdb_file) : persisted (do_create db).2 := by
  rw [do_create_eq]
  unfold persisted
  simp only
  refine ⟨file_slice_append_head _ _ _ (header_bytes_length _), ?_⟩
  intro k hk
  rw [file_slice_append_skip _ _ _ _ (by rw [header_bytes_length]; omega), header_bytes_length,
    Nat.add_sub_cancel_left]
  exact table_bytes_slice _ _ _ hk

theorem gc_inv_create (env : externals) (src stack : pictdb_file) :
    gc_inv env src (do_create (initialize_pictdb src stack)).2 0 := by
  refine ⟨?_, ?_, ?_, persisted_create _, ?_, ?_, ?_, ?_⟩
  · rw [do_create_eq]
    rfl
  · rw [do_create_eq]
    rfl
  · rw [do_create_eq]
    rfl
  · intro t _
    rw [do_create_eq]
    rfl
  · intro t ht
    exact absurd ht (by simp [valid_slots])
  · intro t ht
    exact absurd ht (by simp [valid_slots])
  · rfl

theorem gc_inv_skip (env : externals) (src tmp : pictdb_file) (i : Nat)
    (hinv : gc_inv env src tmp i) (hv : ¬ (src.metadata i).is_valid = NON_EMPTY) :
    gc_inv env src tmp (i + 1) := by
  unfold gc_inv
  rw [valid_slots_succ_invalid src i hv]
  exact hinv

theorem gc_inv_read (env : externals) (src tmp : pictdb_file) (i : Nat) (pict_id : List Nat)
    (res : Nat) (hinv : gc_inv env src tmp i)
    (hz : (do_read env pict_id res tmp).ret = ZERO) :
    gc_inv env src (do_read env pict_id res tmp).db i := by
  obtain ⟨h1, h2, h3, h4, h5, h6, h7, h8⟩ := hinv
  obtain ⟨hh, hlen, _⟩ := do_read_zero_meta env pict_id res tmp hz
  have hf := do_read_zero_fields env pict_id res tmp hz
  have hsl := do_read_payload_slice env pict_id res tmp hz
  have hcs : catalog_size (do_read env pict_id res tmp).db = catalog_size tmp := by
    unfold catalog_size
    rw [hh]
  refine ⟨?_, ?_, ?_, persisted_read env pict_id res tmp h4 hz, ?_, ?_, ?_, ?_⟩
  · rw [hh]
    exact h1
  · rw [hh]
    exact h2
  · rw [hh]
    exact h3
  · intro t ht
    rw [(hf t).2.2.1]
    exact h5 t ht
  · intro t ht
    obtain ⟨a, b, c, d⟩ := h6 t ht
    rw [(hf t).2.2.1, (hf t).2.2.2.1, (hf t).2.2.2.2.1, hcs]
    exact ⟨a, b, by omega, d⟩
  · intro t ht u hu htu
    rw [(hf t).1, (hf u).1]
    exact h7 t ht u hu htu
  · rw [← h8]
    apply List.map_congr_left
    intro t ht
    have ht2 := List.mem_range.1 ht
    obtain ⟨_, b, c, _⟩ := h6 t ht2
    have hst : stored_orig (do_read env pict_id res tmp).db t = stored_orig tmp t := by
      unfold stored_orig
      rw [(hf t).2.2.2.1, (hf t).2.2.2.2.1]
      exact hsl _ _ b c
    rw [(hf t).1, (hf t).2.1, hst]

theorem gc_inv_derivative (env : externals) (src tmp s : pictdb_file) (j i res : Nat)
    (hinv : gc_inv env src tmp j)
    (hz : (gbcollect_derivative env s tmp i res).1 = ZERO) :
    gc_inv env src (gbcollect_derivative env s tmp i res).2 j := by
  unfold gbcollect_derivative at hz ⊢
  split
  · rename_i h
    rw [if_pos h] at hz
    exact gc_inv_read env src tmp j _ _ hinv hz
  · exact hinv

theorem gc_first_free (env : externals) (src tmp : pictdb_file) (i : Nat)
    (hinv : gc_inv env src tmp i) (hi : i < src.header.max_files) :
    insert_find_slot tmp tmp.header.max_files 0 = (valid_slots src i).length := by
  obtain ⟨h1, _, _, _, h5, h6, _, _⟩ := hinv
  have hkle := valid_slots_length_le src i
  have hp := insert_find_slot_passed tmp tmp.header.max_files 0
  have he := insert_find_slot_exit tmp tmp.header.max_files 0 (by omega)
  rcases Nat.lt_trichotomy (insert_find_slot tmp tmp.header.max_files 0)
    (valid_slots src i).length with hlt | heq | hgt
  · exact absurd ⟨by omega, (h6 _ hlt).1⟩ he
  · exact heq
  · have hv := (hp.2 _ (Nat.zero_le _) hgt).2
    rw [h5 _ (Nat.le_refl _)] at hv
    exact absurd hv (by decide)

theorem gc_valid_lt (env : externals) (src tmp : pictdb_file) (i j : Nat)
    (hinv : gc_inv env src tmp i) (hv : (tmp.metadata j).is_valid = NON_EMPTY) :
    j < (valid_slots src i).length := by
  by_contra hge
  rw [hinv.2.2.2.2.1 j (by omega)] at hv
  exact absurd hv (by decide)

theorem gc_inv_insert (env : externals) (src tmp : pictdb_file) (i : Nat)
    (hinv : gc_inv env src tmp i) (hi : i < src.header.max_files)
    (hv : (src.metadata i).is_valid = NON_EMPTY) (hmax : src.header.max_files < 2 ^ 32)
    (hid : (src.metadata i).pict_id.length ≤ MAX_PIC_ID) (hinj : digest_injective env src)
    (hlen : (source_orig env src i).length < 2 ^ 32)
    (hz : (do_insert env (source_orig env src i) (src.metadata i).pict_id tmp).1 = ZERO) :
    gc_inv env src (do_insert env (source_orig env src i) (src.metadata i).pict_id tmp).2
      (i + 1) := by
  have hidx := gc_first_free env src tmp i hinv hi
  have hvlt := fun j => gc_valid_lt env src tmp i j hinv
  obtain ⟨h1, h2, h3, h4, h5, h6, h7, h8⟩ := hinv
  have hkle := valid_slots_length_le src i
  have hcat := persisted_catalog tmp h4
  have hcat2 : catalog_size tmp ≤ tmp.fpdb.bytes.length := hcat
  have hpos := catalog_size_pos tmp
  have hoff : ∀ j, j < tmp.header.max_files → (tmp.metadata j).is_valid = NON_EMPTY →
      (tmp.metadata j).offset.get RES_ORIG ≠ 0 := by
    intro j _ hvj
    have := (h6 j (hvlt j hvj)).2.1
    omega
  obtain ⟨f1, f2, f3, f4, f5, f6, f7, f8, f9⟩ :=
    do_insert_scratch env (source_orig env src i) (src.metadata i).pict_id tmp
      (valid_slots src i).length hidx.symm hcat (by omega) hoff hz
  have hp := persisted_insert env (source_orig env src i) (src.metadata i).pict_id tmp h4 hz
  rw [List.take_of_length_le hid] at f4 f8
  have hcs : catalog_size (do_insert env (source_orig env src i) (src.metadata i).pict_id tmp).2
      = catalog_size tmp := by
    unfold catalog_size
    rw [f1]
    rfl
  have hres : (do_insert env (source_orig env src i) (src.metadata i).pict_id tmp).2.header.res_resized
      = tmp.header.res_resized := by
    rw [f1]
    rfl
  have hnum : (do_insert env (source_orig env src i) (src.metadata i).pict_id tmp).2.header.num_files
      = (valid_slots src i).length + 1 := by
    rw [f1]
    show (tmp.header.num_files + 1) % 2 ^ 32 = _
    rw [h3]
    exact Nat.mod_eq_of_lt (by omega)
  have hmx : (do_insert env (source_orig env src i) (src.metadata i).pict_id tmp).2.header.max_files
      = tmp.header.max_files := by
    rw [f1]
    rfl
  -- the region and the content of the new slot
  have hnew : catalog_size tmp ≤
        ((do_insert env (source_orig env src i) (src.metadata i).pict_id tmp).2.metadata
          (valid_slots src i).length).offset.get RES_ORIG ∧
      ((do_insert env (source_orig env src i) (src.metadata i).pict_id tmp).2.metadata
          (valid_slots src i).length).offset.get RES_ORIG +
        ((do_insert env (source_orig env src i) (src.metadata i).pict_id tmp).2.metadata
          (valid_slots src i).length).size.get RES_ORIG
        ≤ (do_insert env (source_orig env src i) (src.metadata i).pict_id tmp).2.fpdb.bytes.length ∧
      ((do_insert env (source_orig env src i) (src.metadata i).pict_id tmp).2.metadata
          (valid_slots src i).length).size.get RES_ORIG ≠ 0 ∧
      stored_orig (do_insert env (source_orig env src i) (src.metadata i).pict_id tmp).2
          (valid_slots src i).length = source_orig env src i := by
    rcases f9 with ⟨j, _, _, hvj, hsha, hsz, hof⟩ | ⟨hne, hsz, hof, hsl, hle⟩
    · have hjk := hvlt j hvj
      obtain ⟨_, b, c, d⟩ := h6 j hjk
      obtain ⟨j2, hj2, hfg⟩ := map_range_elem _ _ _ _ h8 j hjk
      simp only [Prod.mk.injEq] at hfg
      obtain ⟨_, hs2, hst2⟩ := hfg
      obtain ⟨hj2i, hj2v⟩ := (mem_valid_slots src i j2).1 hj2
      rw [hs2] at hsha
      have heq := hinj j2 (by omega) i hi ⟨hj2v, hv, hsha⟩
      unfold stored_orig
      rw [hsz, hof]
      refine ⟨b, by omega, d, ?_⟩
      have e1 := f7 _ _ b c
      unfold file_slice at e1
      unfold stored_orig at hst2
      exact e1.trans (hst2.trans heq)
    · have hmod : (source_orig env src i).length % 2 ^ 32 = (source_orig env src i).length :=
        Nat.mod_eq_of_lt hlen
      unfold stored_orig
      rw [hsz, hof, hmod]
      refine ⟨hcat2, hle, ?_, hsl⟩
      intro h0
      exact hne (List.length_eq_zero.1 h0)
  unfold gc_inv
  rw [valid_slots_succ_valid src i hv, List.length_append, List.length_singleton]
  refine ⟨hmx.trans h1, hres.trans h2, hnum, hp, ?_, ?_, ?_, ?_⟩
  · intro t ht
    rw [f2 t (by omega)]
    exact h5 t (by omega)
  · intro t ht
    by_cases htk : t = (valid_slots src i).length
    · rw [htk, hcs]
      exact ⟨f3, hnew.1, hnew.2.1, hnew.2.2.1⟩
    · obtain ⟨a, b, c, d⟩ := h6 t (by omega)
      rw [f2 t htk, hcs]
      exact ⟨a, b, by omega, d⟩
  · intro t ht u hu htu
    by_cases htk : t = (valid_slots src i).length
    · have huk : u ≠ (valid_slots src i).length := by omega
      have hult : u < (valid_slots src i).length := by omega
      rw [htk, f4, f2 u huk]
      exact fun h => f8 u (by omega) (h6 u hult).1 h.symm
    · have htlt : t < (valid_slots src i).length := by omega
      rw [f2 t htk]
      by_cases huk : u = (valid_slots src i).length
      · rw [huk, f4]
        exact f8 t (by omega) (h6 t htlt).1
      · rw [f2 u huk]
        exact h7 t htlt u (by omega) htu
  · rw [List.range_succ, List.map_append, List.map_append, ← h8]
    congr 1
    · apply List.map_congr_left
      intro t ht
      have ht2 := List.mem_range.1 ht
      obtain ⟨_, b, c, _⟩ := h6 t ht2
      have hst : stored_orig
          (do_insert env (source_orig env src i) (src.metadata i).pict_id tmp).2 t
            = stored_orig tmp t := by
        unfold stored_orig
        rw [f2 t (by omega)]
        exact f7 _ _ b c
      rw [f2 t (by omega), hst]
    · simp only [List.map_cons, List.map_nil, f4, f5, hnew.2.2.2]

/-- A loop body of `do_gbcollect` that returns `0` on a valid source slot ran
its four calls with success. -/
theorem gbcollect_step_zero (env : externals) (i : Nat) (s tmp : pictdb_file)
    (hv : (s.metadata i).is_valid = NON_EMPTY) (hz : (gbcollect_step env i s tmp).1 = ZERO) :
    (do_read env (s.metadata i).pict_id RES_ORIG s).ret = ZERO ∧
    (do_insert env (do_read env (s.metadata i).pict_id RES_ORIG s).data
      (s.metadata i).pict_id tmp).1 = ZERO ∧
    ∃ sm th, sm = gbcollect_derivative env (do_read env (s.metadata i).pict_id RES_ORIG s).db
        (do_insert env (do_read env (s.metadata i).pict_id RES_ORIG s).data
          (s.metadata i).pict_id tmp).2 i RES_SMALL ∧
      th = gbcollect_derivative env (do_read env (s.metadata i).pict_id RES_ORIG s).db
        sm.2 i RES_THUMB ∧
      sm.1 = ZERO ∧ th.1 = ZERO ∧ (gbcollect_step env i s tmp).2.2 = th.2 := by
  have hm := (do_read_orig_frame env (s.metadata i).pict_id s).2.1
  unfold gbcollect_step at hz
  simp only [hv, if_true, hm] at hz
  by_cases h1 : (do_read env (s.metadata i).pict_id RES_ORIG s).ret = ZERO
  · simp only [h1, ne_eq, not_true_eq_false, if_false] at hz
    by_cases h2 : (do_insert env (do_read env (s.metadata i).pict_id RES_ORIG s).data
        (s.metadata i).pict_id tmp).1 = ZERO
    · simp only [h2, ne_eq, not_true_eq_false, if_false] at hz
      by_cases h3 : (gbcollect_derivative env (do_read env (s.metadata i).pict_id RES_ORIG s).db
          (do_insert env (do_read env (s.metadata i).pict_id RES_ORIG s).data
            (s.metadata i).pict_id tmp).2 i RES_SMALL).1 = ZERO
      · simp only [h3, ne_eq, not_true_eq_false, if_false] at hz
        by_cases h4 : (gbcollect_derivative env
            (do_read env (s.metadata i).pict_id RES_ORIG s).db
            (gbcollect_derivative env (do_read env (s.metadata i).pict_id RES_ORIG s).db
              (do_insert env (do_read env (s.metadata i).pict_id RES_ORIG s).data
                (s.metadata i).pict_id tmp).2 i RES_SMALL).2 i RES_THUMB).1 = ZERO
        · refine ⟨h1, h2, _, _, rfl, rfl, h3, h4, ?_⟩
          unfold gbcollect_step
          simp only [hv, if_true, hm, h1, h2, h3, h4, ne_eq, not_true_eq_false, if_false]
        · simp only [h4, ne_eq, not_false_eq_true, if_true] at hz
      · simp only [h3, ne_eq, not_false_eq_true, if_true] at hz
    · simp only [h2, ne_eq, not_false_eq_true, if_true] at hz
  · simp only [h1, ne_eq, not_false_eq_true, if_true] at hz

theorem gbcollect_step_inv (env : externals) (src s tmp : pictdb_file) (i : Nat)
    (hs1 : s.header = src.header) (hs2 : s.metadata = src.metadata)
    (hs3 : s.fpdb.bytes = src.fpdb.bytes) (hinv : gc_inv env src tmp i)
    (hi : i < src.header.max_files) (hmax : src.header.max_files < 2 ^ 32)
    (hm : ∀ k, k < src.header.max_files → metadata_typed (src.metadata k))
    (hinj : digest_injective env src) (hz : (gbcollect_step env i s tmp).1 = ZERO) :
    gc_inv env src (gbcollect_step env i s tmp).2.2 (i + 1) := by
  by_cases hv : (src.metadata i).is_valid = NON_EMPTY
  · have hvs : (s.metadata i).is_valid = NON_EMPTY := by rw [hs2]; exact hv
    obtain ⟨hr, hins, sm, th, hsm, hth, hsmz, hthz, hres⟩ :=
      gbcollect_step_zero env i s tmp hvs hz
    have hidp : (s.metadata i).pict_id = (src.metadata i).pict_id := by rw [hs2]
    obtain ⟨hc1, hc2⟩ := do_read_orig_cursor env (src.metadata i).pict_id s src hs1 hs2 hs3
    rw [hidp] at hr hins hsm hth
    rw [hc2] at hins hsm
    rw [hc1] at hr
    have hlen := (do_read_orig_length env (src.metadata i).pict_id src hm hr).2
    have h1 := gc_inv_insert env src tmp i hinv hi hv hmax (hm i hi).1.1 hinj hlen hins
    have h2 : gc_inv env src sm.2 (i + 1) := by
      rw [hsm]
      rw [hsm] at hsmz
      exact gc_inv_derivative env src _ _ (i + 1) i RES_SMALL h1 hsmz
    have h3 : gc_inv env src th.2 (i + 1) := by
      rw [hth]
      rw [hth] at hthz
      exact gc_inv_derivative env src _ _ (i + 1) i RES_THUMB h2 hthz
    rw [hres]
    exact h3
  · have hvs : ¬ (s.metadata i).is_valid = NON_EMPTY := by rw [hs2]; exact hv
    have : (gbcollect_step env i s tmp).2.2 = tmp := by
      unfold gbcollect_step
      rw [if_neg hvs]
    rw [this]
    exact gc_inv_skip env src tmp i hinv hv

theorem gbcollect_loop_inv (env : externals) (src : pictdb_file)
    (hmax : src.header.max_files < 2 ^ 32)
    (hm : ∀ k, k < src.header.max_files → metadata_typed (src.metadata k))
    (hinj : digest_injective env src) (n : Nat) :
    ∀ (i : Nat) (s tmp : pictdb_file), i + n = src.header.max_files →
      s.header = src.header → s.metadata = src.metadata → s.fpdb.bytes = src.fpdb.bytes →
      gc_inv env src tmp i → (gbcollect_loop env n i s tmp).1 = ZERO →
      gc_inv env src (gbcollect_loop env n i s tmp).2.2 src.header.max_files := by
  induction n with
  | zero =>
    intro i s tmp hin _ _ _ hinv _
    have : i = src.header.max_files := by omega
    subst this
    exact hinv
  | succ n ih =>
    intro i s tmp hin hs1 hs2 hs3 hinv hz
    unfold gbcollect_loop at hz ⊢
    simp only at hz ⊢
    by_cases hstep : (gbcollect_step env i s tmp).1 = ZERO
    · simp only [hstep, ne_eq, not_true_eq_false, if_false] at hz ⊢
      obtain ⟨g1, g2, g3⟩ := gbcollect_step_frame env i s tmp
      exact ih (i + 1) _ _ (by omega) (g1.trans hs1) (g2.trans hs2) (g3.trans hs3)
        (gbcollect_step_inv env src s tmp i hs1 hs2 hs3 hinv (by omega) hmax hm hinj hstep) hz
    · simp only [hstep, ne_eq, not_false_eq_true, if_true] at hz

/-- In a scratch database that satisfies the invariant of the collector,
`do_read` at the original resolution finds every copied picture and returns
the bytes read from the source. -/
theorem gc_inv_do_read (env : externals) (src tmp : pictdb_file) (i j : Nat)
    (hinv : gc_inv env src tmp i) (hi : i ≤ src.header.max_files) (hj : j < i)
    (hv : (src.metadata j).is_valid = NON_EMPTY) :
    (do_read env (src.metadata j).pict_id RES_ORIG tmp).ret = ZERO ∧
      (do_read env (src.metadata j).pict_id RES_ORIG tmp).data = source_orig env src j := by
  obtain ⟨h1, _, _, _, _, h6, h7, h8⟩ := hinv
  have hkle := valid_slots_length_le src i
  obtain ⟨t, ht, hfg⟩ := map_range_elem_rev _ _ _ _ h8 j ((mem_valid_slots src i j).2 ⟨hj, hv⟩)
  simp only [Prod.mk.injEq] at hfg
  obtain ⟨hid, _, hst⟩ := hfg
  obtain ⟨hvt, _, c, d⟩ := h6 t ht
  have hfind : read_find (src.metadata j).pict_id tmp (tmp.header.max_files + 1) 0 = t := by
    apply read_find_found _ _ t (by omega) hid _ _ (Nat.zero_le _) (by omega)
    · right
      rw [hvt]
      decide
    · intro u _ hut _
      rw [← hid]
      exact h7 u (by omega) t ht (by omega)
  obtain ⟨r1, _, r3⟩ := do_read_orig_eq env (src.metadata j).pict_id tmp t hfind (by omega) d c
  refine ⟨r1, ?_⟩
  rw [r3, ← hst]
  rfl

theorem getD_four (l : List Nat) (h : l.length = 4) :
    [l.getD 0 0, l.getD 1 0, l.getD 2 0, l.getD 3 0] = l := by
  match l, h with
  | [_, _, _, _], _ => rfl

/-- In a database that satisfies the invariants, whose slots are all `EMPTY`
or `NON_EMPTY` and whose slot 0 is valid or carries the identifier of no valid
slot, `do_read` returns for every valid slot the payload stored for that slot. -/
theorem source_orig_eq_stored (env : externals) (db : pictdb_file)
    (hinv : db_invariants env db)
    (hbin : ∀ u, u < db.header.max_files →
      (db.metadata u).is_valid = EMPTY ∨ (db.metadata u).is_valid = NON_EMPTY)
    (hslot0 : ∀ j, j < db.header.max_files → (db.metadata j).is_valid = NON_EMPTY →
      (db.metadata 0).is_valid ≠ NON_EMPTY → (db.metadata 0).pict_id ≠ (db.metadata j).pict_id)
    (j : Nat) (hj : j < db.header.max_files) (hv : (db.metadata j).is_valid = NON_EMPTY) :
    source_orig env db j = stored_orig db j := by
  obtain ⟨_, _, horig, hpay, _, huniq, _, _, _⟩ := hinv
  have hfind : read_find (db.metadata j).pict_id db (db.header.max_files + 1) 0 = j := by
    apply read_find_found _ _ j hj rfl _ _ (Nat.zero_le _) (by omega)
    · right
      rw [hv]
      decide
    · intro u _ huj hu
      by_cases hvu : (db.metadata u).is_valid = NON_EMPTY
      · exact huniq u (by omega) j hj ⟨hvu, hv, by omega⟩
      · rcases hu with h0 | hne
        · subst h0
          exact hslot0 j hj hv hvu
        · rcases hbin u (by omega) with he | hn
          · exact absurd he hne
          · exact absurd hn hvu
  exact (do_read_orig_eq env _ db j hfind hj (by have := (horig j hj hv).2; omega)
    (hpay j hj hv).2).2.2

/-- Under the same conditions the digests of the payloads read for valid slots
are identical only for identical payloads, whatever the digest function. -/
theorem digest_injective_of_invariants (env : externals) (db : pictdb_file)
    (hinv : db_invariants env db)
    (hbin : ∀ u, u < db.header.max_files →
      (db.metadata u).is_valid = EMPTY ∨ (db.metadata u).is_valid = NON_EMPTY)
    (hslot0 : ∀ j, j < db.header.max_files → (db.metadata j).is_valid = NON_EMPTY →
      (db.metadata 0).is_valid ≠ NON_EMPTY → (db.metadata 0).pict_id ≠ (db.metadata j).pict_id) :
    digest_injective env db := by
  intro i hi j hj ⟨hvi, hvj, hsha⟩
  rw [source_orig_eq_stored env db hinv hbin hslot0 i hi hvi,
    source_orig_eq_stored env db hinv hbin hslot0 j hj hvj] at hsha ⊢
  obtain ⟨_, _, _, _, hshainv, _, hdedup, _, _⟩ := hinv
  have h1 := hshainv i hi hvi
  have h2 := hshainv j hj hvj
  have h3 := compare_SHA_trans _ _ _ (compare_SHA_trans _ _ _ h1 hsha) (compare_SHA_symm _ _ h2)
  obtain ⟨ho, hs⟩ := hdedup i hi j hj ⟨hvi, hvj, h3⟩
  unfold stored_orig
  rw [ho, hs]

theorem gc_source_db_invariants : db_invariants toy_env gc_source_db := by decide!

theorem gc_source_db_typed :
    header_typed gc_source_db.header ∧
      ∀ k, k < gc_source_db.header.max_files → metadata_typed (gc_source_db.metadata k) := by
  decide!

theorem gc_source_db_injective : digest_injective toy_env gc_source_db := by decide!

theorem gc_source_db_collected :
    (do_gbcollect toy_env gc_source_db (blank_db 0)).ret = ZERO := by decide!

theorem gc_source_db_slot :
    (gc_source_db.metadata 2).is_valid = NON_EMPTY ∧ 2 < gc_source_db.header.max_files ∧
      (do_read toy_env (gc_source_db.metadata 2).pict_id RES_ORIG gc_source_db).data
        = [6, 7, 8, 9] := by
  decide!

/-- C19: for a source database that satisfies the invariants of the data model
and whose fields are in the range of their C types, when the digests of the
payloads read from the source are pairwise different for different payloads, a
`do_gbcollect` that returns `0` leaves a new database that is the file renamed
to the name of the source, with the catalog of its handle on disk, the
`max_files` and the `res_resized` of the source, `num_files` equal to the number
of valid source slots, its valid slots being the first `num_files` slots and
carrying the identifiers of the valid source slots in source order; for the
identifier of each valid source slot `do_read(id, RES_ORIG)` succeeds on the new
database and returns the bytes it returns on the source. -/
theorem do_gbcollect_preserves (env : externals) (db_file stack : pictdb_file)
    (hinv : db_invariants env db_file) (hh : header_typed db_file.header)
    (hm : ∀ k, k < db_file.header.max_files → metadata_typed (db_file.metadata k))
    (hinj : digest_injective env db_file)
    (hz : (do_gbcollect env db_file stack).ret = ZERO) :
    (do_gbcollect env db_file stack).file
      = some (do_gbcollect env db_file stack).db_temp.fpdb.bytes ∧
    (do_gbcollect env db_file stack).temp_file = none ∧
    persisted (do_gbcollect env db_file stack).db_temp ∧
    (do_gbcollect env db_file stack).db_temp.header.max_files = db_file.header.max_files ∧
    (do_gbcollect env db_file stack).db_temp.header.res_resized
      = db_file.header.res_resized ∧
    (do_gbcollect env db_file stack).db_temp.header.num_files = count_valid db_file ∧
    (do_gbcollect env db_file stack).db_temp.header.num_files = db_file.header.num_files ∧
    (∀ t, t < count_valid db_file →
      ((do_gbcollect env db_file stack).db_temp.metadata t).is_valid = NON_EMPTY) ∧
    (∀ t, count_valid db_file ≤ t →
      ((do_gbcollect env db_file stack).db_temp.metadata t).is_valid = EMPTY) ∧
    (List.range (count_valid db_file)).map
        (fun t => ((do_gbcollect env db_file stack).db_temp.metadata t).pict_id)
      = (valid_slots db_file db_file.header.max_files).map
        (fun j => (db_file.metadata j).pict_id) ∧
    ∀ j, j < db_file.header.max_files → (db_file.metadata j).is_valid = NON_EMPTY →
      (do_read env (db_file.metadata j).pict_id RES_ORIG
        (do_gbcollect env db_file stack).db_temp).ret = ZERO ∧
      (do_read env (db_file.metadata j).pict_id RES_ORIG
        (do_gbcollect env db_file stack).db_temp).data
        = (do_read env (db_file.metadata j).pict_id RES_ORIG db_file).data := by
  have hunf := do_gbcollect_unfold env db_file stack _ rfl
  by_cases hl : (gbcollect_loop env db_file.header.max_files 0 db_file
      (do_create (initialize_pictdb db_file stack)).2).1 = ZERO
  · rw [if_neg (not_not.2 hl)] at hunf
    have J := gbcollect_loop_inv env db_file hh.2.2.2.1 hm hinj db_file.header.max_files 0
      db_file (do_create (initialize_pictdb db_file stack)).2 (by omega) rfl rfl rfl
      (gc_inv_create env db_file stack) hl
    have hread := fun j hj hv => gc_inv_do_read env db_file _ db_file.header.max_files j J
      (Nat.le_refl _) hj hv
    obtain ⟨j1, j2, j3, j4, j5, j6, _, j8⟩ := J
    have hcount : db_file.header.num_files = count_valid db_file := hinv.2.1
    rw [hunf, hcount, count_valid_eq_length]
    refine ⟨rfl, rfl, j4, j1, ?_, j3, j3, fun t ht => (j6 t ht).1, j5, ?_, hread⟩
    · rw [j2]
      exact getD_four _ hh.2.2.2.2.1
    · have := congrArg (List.map Prod.fst) j8
      simp only [List.map_map] at this
      exact this
  · rw [hunf, if_pos hl] at hz
    exact absurd hz hl

theorem do_gbcollect_preserves_witness :
    (db_invariants toy_env gc_source_db ∧ header_typed gc_source_db.header ∧
        (∀ k, k < gc_source_db.header.max_files → metadata_typed (gc_source_db.metadata k)) ∧
        digest_injective toy_env gc_source_db ∧
        (do_gbcollect toy_env gc_source_db (blank_db 0)).ret = ZERO ∧
        (gc_source_db.metadata 2).is_valid = NON_EMPTY ∧
        (do_read toy_env (gc_source_db.metadata 2).pict_id RES_ORIG gc_source_db).data
          = [6, 7, 8, 9]) ∧
      (do_read toy_env (gc_source_db.metadata 2).pict_id RES_ORIG
          (do_gbcollect toy_env gc_source_db (blank_db 0)).db_temp).data
        = (do_read toy_env (gc_source_db.metadata 2).pict_id RES_ORIG gc_source_db).data :=
  ⟨⟨gc_source_db_invariants, gc_source_db_typed.1, gc_source_db_typed.2,
      gc_source_db_injective, gc_source_db_collected, gc_source_db_slot.1,
      gc_source_db_slot.2.2⟩,
    ((do_gbcollect_preserves toy_env gc_source_db (blank_db 0) gc_source_db_invariants
      gc_source_db_typed.1 gc_source_db_typed.2 gc_source_db_injective
      gc_source_db_collected).2.2.2.2.2.2.2.2.2.2 2 gc_source_db_slot.2.1
        gc_source_db_slot.1).2⟩

/-! ## The dedup engine on an arbitrary table -/

/-- What the dedup engine returns when no other valid slot has the identifier
of slot `index`: the copy from the lowest slot with the digest of slot `index`,
or the slot with a zero original offset. -/
theorem dedup_engine_cases (db : pictdb_file) (index : Nat)
    (hguard : ¬ (index ≥ db.header.max_files ∧ (db.metadata index).is_valid = EMPTY))
    (hid : ∀ j, j < db.header.max_files → j ≠ index → (db.metadata j).is_valid = NON_EMPTY →
      strncmp (db.metadata j).pict_id (db.metadata index).pict_id MAX_PIC_ID ≠ 0) :
    (∃ j, j < db.header.max_files ∧ j ≠ index ∧ (db.metadata j).is_valid = NON_EMPTY ∧
        compare_SHA (db.metadata j).SHA (db.metadata index).SHA = 0 ∧
        (∀ k, k < j → k ≠ index → (db.metadata k).is_valid = NON_EMPTY →
          compare_SHA (db.metadata k).SHA (db.metadata index).SHA ≠ 0) ∧
        do_name_and_content_dedup db index = ( ZERO, dedup_copy db index j)) ∨
      ((∀ k, k < db.header.max_files → k ≠ index → (db.metadata k).is_valid = NON_EMPTY →
          compare_SHA (db.metadata k).SHA (db.metadata index).SHA ≠ 0) ∧
        do_name_and_content_dedup db index =
          ( ZERO, set_slot db index
            ⟨(db.metadata index).pict_id, (db.metadata index).SHA, (db.metadata index).res_orig,
              (db.metadata index).size, (db.metadata index).offset.set RES_ORIG 0,
              (db.metadata index).is_valid, (db.metadata index).unused_16⟩)) := by
  unfold do_name_and_content_dedup
  rw [if_neg hguard]
  rcases dedup_loop_spec index db db.header.max_files 0
      (fun j _ hj hji hv => hid j (by omega) hji hv) with
    ⟨j, _, hj, hji, hv, hsha, hmin, heq⟩ | ⟨hnone, heq⟩
  · left
    exact ⟨j, by omega, hji, hv, hsha, fun k hk => hmin k (Nat.zero_le _) hk, heq⟩
  · right
    refine ⟨fun k hk => hnone k (Nat.zero_le _) (by omega), ?_⟩
    rw [heq]
    rfl

/-- C21: for every table and every index of a valid slot such that no other
valid slot of the table has the same `pict_id` (identifiers fit their 128-byte
array), `do_name_and_content_dedup` returns `0` and changes neither the header,
nor the file, nor another slot, nor a field of slot `index` other than `size`
and `offset`.  If another valid slot has a digest that `compare_SHA` finds
bytewise equal to the digest of slot `index`, then `size` and `offset` of slot
`index` are, for all three resolutions, those of the lowest such slot.
Otherwise `offset[RES_ORIG]` of slot `index` is `0` and the sizes and the two
other offsets are as they were. -/
theorem dedup_engine_result (db : pictdb_file) (index : Nat)
    (hv : (db.metadata index).is_valid = NON_EMPTY)
    (hlen : ∀ j, (db.metadata j).pict_id.length ≤ MAX_PIC_ID)
    (hid : ∀ j, j < db.header.max_files → j ≠ index → (db.metadata j).is_valid = NON_EMPTY →
      (db.metadata j).pict_id ≠ (db.metadata index).pict_id) :
    (do_name_and_content_dedup db index).1 = ZERO ∧
    (do_name_and_content_dedup db index).2.header = db.header ∧
    (do_name_and_content_dedup db index).2.fpdb = db.fpdb ∧
    (∀ k, k ≠ index → (do_name_and_content_dedup db index).2.metadata k = db.metadata k) ∧
    ((do_name_and_content_dedup db index).2.metadata index).pict_id
      = (db.metadata index).pict_id ∧
    ((do_name_and_content_dedup db index).2.metadata index).SHA = (db.metadata index).SHA ∧
    ((do_name_and_content_dedup db index).2.metadata index).res_orig
      = (db.metadata index).res_orig ∧
    ((do_name_and_content_dedup db index).2.metadata index).is_valid
      = (db.metadata index).is_valid ∧
    ((do_name_and_content_dedup db index).2.metadata index).unused_16
      = (db.metadata index).unused_16 ∧
    (∀ j, j < db.header.max_files → j ≠ index → (db.metadata j).is_valid = NON_EMPTY →
      compare_SHA (db.metadata j).SHA (db.metadata index).SHA = 0 →
      (∀ k, k < j → k ≠ index → (db.metadata k).is_valid = NON_EMPTY →
        compare_SHA (db.metadata k).SHA (db.metadata index).SHA ≠ 0) →
      ∀ r, r < NB_RES →
        ((do_name_and_content_dedup db index).2.metadata index).size.get r
          = (db.metadata j).size.get r ∧
        ((do_name_and_content_dedup db index).2.metadata index).offset.get r
          = (db.metadata j).offset.get r) ∧
    ((∀ j, j < db.header.max_files → j ≠ index → (db.metadata j).is_valid = NON_EMPTY →
        compare_SHA (db.metadata j).SHA (db.metadata index).SHA ≠ 0) →
      ((do_name_and_content_dedup db index).2.metadata index).size
        = (db.metadata index).size ∧
      ((do_name_and_content_dedup db index).2.metadata index).offset.get RES_ORIG = 0 ∧
      ((do_name_and_content_dedup db index).2.metadata index).offset.get RES_THUMB
        = (db.metadata index).offset.get RES_THUMB ∧
      ((do_name_and_content_dedup db index).2.metadata index).offset.get RES_SMALL
        = (db.metadata index).offset.get RES_SMALL) := by
  have hguard : ¬ (index ≥ db.header.max_files ∧ (db.metadata index).is_valid = EMPTY) := by
    rw [hv]
    exact fun h => absurd h.2 (by decide)
  have hid2 : ∀ j, j < db.header.max_files → j ≠ index →
      (db.metadata j).is_valid = NON_EMPTY →
      strncmp (db.metadata j).pict_id (db.metadata index).pict_id MAX_PIC_ID ≠ 0 := by
    intro j hj hji hvj
    unfold strncmp
    rw [List.take_of_length_le (hlen j), List.take_of_length_le (hlen index),
      if_neg (hid j hj hji hvj)]
    decide
  rcases dedup_engine_cases db index hguard hid2 with
    ⟨j, hj, hji, hvj, hsha, hmin, heq⟩ | ⟨hnone, heq⟩
  · rw [heq]
    unfold dedup_copy
    simp only [Function.update_same]
    refine ⟨?_, ?_, ?_, fun k hk => Function.update_noteq hk _ _, ?_, ?_, ?_, ?_, ?_, ?_, ?_⟩
    any_goals first | trivial | rfl
    · intro j2 hj2 hj2i hvj2 hsha2 hmin2 r _
      have hjj : j2 = j := by
        rcases Nat.lt_trichotomy j2 j with h | h | h
        · exact absurd hsha2 (hmin j2 h hj2i hvj2)
        · exact h
        · exact absurd hsha (hmin2 j h hji hvj)
      rw [hjj]
      exact ⟨by trivial, by trivial⟩
    · intro hnone
      exact absurd hsha (hnone j hj hji hvj)
  · rw [heq]
    unfold set_slot
    simp only [Function.update_same]
    refine ⟨?_, ?_, ?_, fun k hk => Function.update_noteq hk _ _, ?_, ?_, ?_, ?_, ?_, ?_, ?_⟩
    any_goals first | trivial | rfl
    · intro j hj hji hvj hsha
      exact absurd hsha (hnone j hj hji hvj)
    · intro _
      exact ⟨by trivial, rfl, rfl, rfl⟩

theorem share_candidate_db_fits :
    (share_candidate_db.metadata 2).is_valid = NON_EMPTY ∧
      (∀ j, j < share_candidate_db.header.max_files → j ≠ 2 →
        (share_candidate_db.metadata j).is_valid = NON_EMPTY →
        (share_candidate_db.metadata j).pict_id ≠ (share_candidate_db.metadata 2).pict_id) ∧
      1 < share_candidate_db.header.max_files ∧
      (share_candidate_db.metadata 1).is_valid = NON_EMPTY ∧
      compare_SHA (share_candidate_db.metadata 1).SHA (share_candidate_db.metadata 2).SHA = 0 ∧
      (∀ k, k < 1 → k ≠ 2 → (share_candidate_db.metadata k).is_valid = NON_EMPTY →
        compare_SHA (share_candidate_db.metadata k).SHA (share_candidate_db.metadata 2).SHA
          ≠ 0) := by
  decide!

theorem share_candidate_db_ids (j : Nat) :
    (share_candidate_db.metadata j).pict_id.length ≤ MAX_PIC_ID := by
  by_cases h0 : j = 0
  · subst h0
    decide!
  · by_cases h1 : j = 1
    · subst h1
      decide!
    · by_cases h2 : j = 2
      · subst h2
        decide!
      · have : share_candidate_db.metadata j = zero_metadata := by
          unfold share_candidate_db
          rw [set_slot_metadata_other _ _ _ _ h2]
          have hb := (do_insert_zero_meta toy_env [4, 5] [98]
            (do_insert toy_env [1, 2, 3] [97] (fresh_db 3)).2 1 (by decide!) (by decide!)
            (by decide!)).2.2.1 j h1
          have ha := (do_insert_zero_meta toy_env [1, 2, 3] [97] (fresh_db 3) 0 (by decide!)
            (by decide!) (by decide!)).2.2.1 j h0
          rw [hb, ha]
          unfold fresh_db
          rw [do_create_eq]
        rw [this]
        decide

theorem dedup_engine_result_witness :
    ((share_candidate_db.metadata 2).is_valid = NON_EMPTY ∧
        1 < share_candidate_db.header.max_files ∧
        (share_candidate_db.metadata 1).is_valid = NON_EMPTY ∧
        compare_SHA (share_candidate_db.metadata 1).SHA (share_candidate_db.metadata 2).SHA
          = 0) ∧
      ((do_name_and_content_dedup share_candidate_db 2).2.metadata 2).offset.get RES_ORIG
        = (share_candidate_db.metadata 1).offset.get RES_ORIG :=
  ⟨⟨share_candidate_db_fits.1, share_candidate_db_fits.2.2.1, share_candidate_db_fits.2.2.2.1,
      share_candidate_db_fits.2.2.2.2.1⟩,
    ((dedup_engine_result share_candidate_db 2 share_candidate_db_fits.1 share_candidate_db_ids
      share_candidate_db_fits.2.1).2.2.2.2.2.2.2.2.2.1 1 share_candidate_db_fits.2.2.1
        (by decide) share_candidate_db_fits.2.2.2.1 share_candidate_db_fits.2.2.2.2.1
        share_candidate_db_fits.2.2.2.2.2 RES_ORIG (by decide)).2⟩

theorem dedup_loop_duplicate (index : Nat) (db : pictdb_file) (j : Nat) (hji : j ≠ index)
    (hvj : (db.metadata j).is_valid = NON_EMPTY)
    (hsame : strncmp (db.metadata j).pict_id (db.metadata index).pict_id MAX_PIC_ID = 0)
    (n : Nat) :
    ∀ i, i ≤ j → j < i + n →
      (∀ k, i ≤ k → k < j → k ≠ index → (db.metadata k).is_valid = NON_EMPTY →
        compare_SHA (db.metadata k).SHA (db.metadata index).SHA ≠ 0) →
      dedup_loop index n i db = ( ERR_DUPLICATE_ID, db) := by
  induction n with
  | zero =>
    intro i hij hjn _
    omega
  | succ n ih =>
    intro i hij hjn hnosha
    unfold dedup_loop
    by_cases hc : i ≠ index ∧ (db.metadata i).is_valid = NON_EMPTY
    · rw [if_pos hc]
      by_cases hs : strncmp (db.metadata i).pict_id (db.metadata index).pict_id MAX_PIC_ID = 0
      · rw [if_pos hs]
      · rw [if_neg hs]
        have hne : i ≠ j := fun h => hs (h ▸ hsame)
        rw [if_neg (hnosha i (Nat.le_refl _) (by omega) hc.1 hc.2)]
        exact ih (i + 1) (by omega) (by omega)
          (fun k hk1 hk2 => hnosha k (by omega) hk2)
    · rw [if_neg hc]
      have hne : i ≠ j := fun h => hc (h ▸ ⟨hji, hvj⟩)
      exact ih (i + 1) (by omega) (by omega) (fun k hk1 hk2 => hnosha k (by omega) hk2)

/-- The claim C22 as stated fails: in `dup_after_share_db` the in-range slot 2
has the identifier of the valid slot 1, but the valid slot 0, met first, has
the digest of slot 2 and another identifier, and the engine returns `0` with
the offsets of slot 0. -/
theorem dedup_share_before_duplicate :
    2 < dup_after_share_db.header.max_files ∧
      (dup_after_share_db.metadata 1).is_valid = NON_EMPTY ∧
      (dup_after_share_db.metadata 1).pict_id = (dup_after_share_db.metadata 2).pict_id ∧
      (do_name_and_content_dedup dup_after_share_db 2).1 = ZERO ∧
      (do_name_and_content_dedup dup_after_share_db 2).1 ≠ ERR_DUPLICATE_ID ∧
      ((do_name_and_content_dedup dup_after_share_db 2).2.metadata 2).offset
        = (dup_after_share_db.metadata 0).offset := by
  decide!

/-- C22 (amended): for every table and every in-range index, if another valid
slot `j` has the same `pict_id` as slot `index` and no valid slot below `j`,
other than `index`, has a digest that `compare_SHA` finds equal to the digest
of slot `index`, then `do_name_and_content_dedup` returns `ERR_DUPLICATE_ID` and
changes nothing. -/
theorem dedup_duplicate_id (db : pictdb_file) (index j : Nat)
    (hindex : index < db.header.max_files) (hj : j < db.header.max_files) (hji : j ≠ index)
    (hvj : (db.metadata j).is_valid = NON_EMPTY)
    (hsame : (db.metadata j).pict_id = (db.metadata index).pict_id)
    (hnosha : ∀ k, k < j → k ≠ index → (db.metadata k).is_valid = NON_EMPTY →
      compare_SHA (db.metadata k).SHA (db.metadata index).SHA ≠ 0) :
    do_name_and_content_dedup db index = ( ERR_DUPLICATE_ID, db) := by
  unfold do_name_and_content_dedup
  rw [if_neg (fun h => absurd hindex (by omega))]
  have hs : strncmp (db.metadata j).pict_id (db.metadata index).pict_id MAX_PIC_ID = 0 := by
    unfold strncmp
    rw [hsame, if_pos rfl]
  exact dedup_loop_duplicate index db j hji hvj hs db.header.max_files 0 (Nat.zero_le _)
    (by omega) (fun k _ hk => hnosha k hk)

theorem dup_id_db_fits :
    2 < dup_id_db.header.max_files ∧ 1 < dup_id_db.header.max_files ∧
      (dup_id_db.metadata 1).is_valid = NON_EMPTY ∧
      (dup_id_db.metadata 1).pict_id = (dup_id_db.metadata 2).pict_id ∧
      (∀ k, k < 1 → k ≠ 2 → (dup_id_db.metadata k).is_valid = NON_EMPTY →
        compare_SHA (dup_id_db.metadata k).SHA (dup_id_db.metadata 2).SHA ≠ 0) := by
  decide!

theorem dedup_duplicate_id_witness :
    (2 < dup_id_db.header.max_files ∧ (dup_id_db.metadata 1).is_valid = NON_EMPTY ∧
        (dup_id_db.metadata 1).pict_id = (dup_id_db.metadata 2).pict_id) ∧
      do_name_and_content_dedup dup_id_db 2 = ( ERR_DUPLICATE_ID, dup_id_db) :=
  ⟨⟨dup_id_db_fits.1, dup_id_db_fits.2.2.1, dup_id_db_fits.2.2.2.1⟩,
    dedup_duplicate_id dup_id_db 2 1 dup_id_db_fits.1 dup_id_db_fits.2.1 (by decide)
      dup_id_db_fits.2.2.1 dup_id_db_fits.2.2.2.1 dup_id_db_fits.2.2.2.2⟩

/-- C23 on the code: slot 0 of `deleted_db` is in range and `EMPTY`, and
`do_name_and_content_dedup` does not reject it: it returns `0` and clears the
original offset of the slot. -/
theorem dedup_empty_slot_accepted :
    0 < deleted_db.header.max_files ∧ (deleted_db.metadata 0).is_valid = EMPTY ∧
      (do_name_and_content_dedup deleted_db 0).1 = ZERO ∧
      (do_name_and_content_dedup deleted_db 0).1 ≠ ERR_INVALID_ARGUMENT ∧
      (deleted_db.metadata 0).offset.get RES_ORIG = 280 ∧
      ((do_name_and_content_dedup deleted_db 0).2.metadata 0).offset.get RES_ORIG = 0 := by
  decide!

/-! ## The frame of a materialisation -/

theorem lazily_resize_missing (env : externals) (res : Nat) (db : pictdb_file) (index : Nat)
    (hres : res = RES_SMALL ∨ res = RES_THUMB)
    (hmiss : (db.metadata index).size.get res = 0 ∧ (db.metadata index).offset.get res = 0)
    (hz : (lazily_resize env res db index).1 = ZERO) :
    index < db.header.max_files ∧
      lazily_resize env res db index = create_image env res db index := by
  have h1 : ¬ res = RES_ORIG := by
    rcases hres with h | h <;> rw [h] <;> decide
  have h2 : ¬ (res ≠ RES_SMALL ∧ res ≠ RES_THUMB) := by
    rcases hres with h | h
    · exact fun hc => hc.1 h
    · exact fun hc => hc.2 h
  have h4 : ¬ ((db.metadata index).size.get res ≠ 0 ∨ (db.metadata index).offset.get res ≠ 0) := by
    rw [hmiss.1, hmiss.2]
    simp
  unfold lazily_resize at hz ⊢
  rw [if_neg h1, if_neg h2] at hz ⊢
  by_cases h3 : index ≥ db.header.max_files
  · rw [if_pos h3] at hz
    simp at hz
  · rw [if_neg h3, if_neg h4]
    exact ⟨by omega, rfl⟩

/-- The state left by a successful materialisation, field by field. -/
theorem create_image_zero_effect (env : externals) (res : Nat) (db : pictdb_file) (index : Nat)
    (hres : res = RES_SMALL ∨ res = RES_THUMB) (hlt : index < db.header.max_files)
    (hz : (create_image env res db index).1 = ZERO) :
    ∃ newContent, newContent ≠ [] ∧
      env.vips_resize (stored_orig db index) (db.header.res_resized.getD (2 * res) 0)
        (db.header.res_resized.getD (2 * res + 1) 0) = some newContent ∧
      (create_image env res db index).2.header = db.header ∧
      (∀ k, k ≠ index → (create_image env res db index).2.metadata k = db.metadata k) ∧
      ((create_image env res db index).2.metadata index).offset.get res
        = db.fpdb.bytes.length ∧
      ((create_image env res db index).2.metadata index).size.get res
        = newContent.length % 2 ^ 32 ∧
      (∀ r, r ≠ res →
        ((create_image env res db index).2.metadata index).offset.get r
          = (db.metadata index).offset.get r ∧
        ((create_image env res db index).2.metadata index).size.get r
          = (db.metadata index).size.get r) ∧
      ((create_image env res db index).2.metadata index).pict_id = (db.metadata index).pict_id ∧
      ((create_image env res db index).2.metadata index).SHA = (db.metadata index).SHA ∧
      ((create_image env res db index).2.metadata index).res_orig
        = (db.metadata index).res_orig ∧
      ((create_image env res db index).2.metadata index).is_valid
        = (db.metadata index).is_valid ∧
      ((create_image env res db index).2.metadata index).unused_16
        = (db.metadata index).unused_16 ∧
      (create_image env res db index).2.fpdb.bytes =
        write_at (db.fpdb.bytes ++ newContent) (sizeof_header + index * sizeof_metadata)
          (metadata_bytes ((create_image env res db index).2.metadata index)) ∧
      (catalog_persisted db →
        (create_image env res db index).2.fpdb.bytes.length
          = db.fpdb.bytes.length + newContent.length ∧
        file_slice (create_image env res db index).2.fpdb.bytes db.fpdb.bytes.length
          newContent.length = newContent ∧
        ∀ q n, (q + n ≤ sizeof_header + index * sizeof_metadata ∨
            sizeof_header + index * sizeof_metadata + sizeof_metadata ≤ q) →
          q + n ≤ db.fpdb.bytes.length →
          file_slice (create_image env res db index).2.fpdb.bytes q n
            = file_slice db.fpdb.bytes q n) := by
  obtain ⟨_, _, newContent, hne, hv, heq⟩ := create_image_zero_shape env res db index hz
  have hr3 : res < NB_RES := by
    rcases hres with h | h <;> rw [h] <;> decide
  have hslot := slot_end_le_catalog db index hlt
  refine ⟨newContent, hne, hv, ?_⟩
  rw [heq]
  simp only [Function.update_same]
  refine ⟨?_, fun k hk => Function.update_noteq hk _ _, res_array_get_set_same _ _ _ hr3,
    res_array_get_set_same _ _ _ hr3,
    fun r hr => ⟨res_array_get_set_other _ _ _ _ hr, res_array_get_set_other _ _ _ _ hr⟩,
    ?_, ?_, ?_, ?_, ?_, ?_, ?_⟩
  any_goals trivial
  intro hcat
  have hcat2 : catalog_size db ≤ db.fpdb.bytes.length := hcat
  refine ⟨?_, ?_, ?_⟩
  · rw [write_at_inside_length _ _ _ (by
      rw [metadata_bytes_length, List.length_append]
      omega), List.length_append]
  · rw [file_slice_write_after _ _ _ _ _ (by rw [metadata_bytes_length]; omega),
      file_slice_append_skip _ _ _ _ (Nat.le_refl _), Nat.sub_self, file_slice_self _ _ rfl]
  · intro q n hq hn
    rcases hq with hq | hq
    · rw [file_slice_write_before _ _ _ _ _ hq (by rw [List.length_append]; omega),
        file_slice_append_left _ _ _ _ hn]
    · rw [file_slice_write_after _ _ _ _ _ (by rw [metadata_bytes_length]; omega),
        file_slice_append_left _ _ _ _ hn]

/-- C24: with `RES_ORIG` `lazily_resize` returns `0` and changes nothing.  When
`lazily_resize` builds with success the missing derivative `res` (`RES_SMALL`
or `RES_THUMB`, size and offset both `0`) of slot `index`, the slot is in the
table, the codec gave a non-empty image `newContent` for the stored original,
`offset[res]` of the slot is the length of the file before the append,
`size[res]` is the length of `newContent` (as a 32-bit value), the header, every
other slot and every other field of the slot are unchanged, and the file is the
old file followed by `newContent`, with the record of the slot written at its
place in the catalog: when the file held the catalog it grows by exactly
`newContent` and no byte outside that record changes.  A successful `do_read`
that finds the slot with the derivative missing leaves the header, table and
file bytes that this call of `lazily_resize` leaves. -/
theorem materialise_frame (env : externals) (res : Nat) (db : pictdb_file) (index : Nat) :
    lazily_resize env RES_ORIG db index = ( ZERO, db) ∧
    ((res = RES_SMALL ∨ res = RES_THUMB) →
      ((db.metadata index).size.get res = 0 ∧ (db.metadata index).offset.get res = 0) →
      (lazily_resize env res db index).1 = ZERO →
      index < db.header.max_files ∧
      ∃ newContent, newContent ≠ [] ∧
        env.vips_resize (stored_orig db index) (db.header.res_resized.getD (2 * res) 0)
          (db.header.res_resized.getD (2 * res + 1) 0) = some newContent ∧
        (lazily_resize env res db index).2.header = db.header ∧
        (∀ k, k ≠ index → (lazily_resize env res db index).2.metadata k = db.metadata k) ∧
        ((lazily_resize env res db index).2.metadata index).offset.get res
          = db.fpdb.bytes.length ∧
        ((lazily_resize env res db index).2.metadata index).size.get res
          = newContent.length % 2 ^ 32 ∧
        (newContent.length < 2 ^ 32 →
          ((lazily_resize env res db index).2.metadata index).size.get res
            = newContent.length) ∧
        (∀ r, r ≠ res →
          ((lazily_resize env res db index).2.metadata index).offset.get r
            = (db.metadata index).offset.get r ∧
          ((lazily_resize env res db index).2.metadata index).size.get r
            = (db.metadata index).size.get r) ∧
        ((lazily_resize env res db index).2.metadata index).pict_id
          = (db.metadata index).pict_id ∧
        ((lazily_resize env res db index).2.metadata index).SHA = (db.metadata index).SHA ∧
        ((lazily_resize env res db index).2.metadata index).res_orig
          = (db.metadata index).res_orig ∧
        ((lazily_resize env res db index).2.metadata index).is_valid
          = (db.metadata index).is_valid ∧
        ((lazily_resize env res db index).2.metadata index).unused_16
          = (db.metadata index).unused_16 ∧
        (lazily_resize env res db index).2.fpdb.bytes =
          write_at (db.fpdb.bytes ++ newContent) (sizeof_header + index * sizeof_metadata)
            (metadata_bytes ((lazily_resize env res db index).2.metadata index)) ∧
        (catalog_persisted db →
          (lazily_resize env res db index).2.fpdb.bytes.length
            = db.fpdb.bytes.length + newContent.length ∧
          file_slice (lazily_resize env res db index).2.fpdb.bytes db.fpdb.bytes.length
            newContent.length = newContent ∧
          ∀ q n, (q + n ≤ sizeof_header + index * sizeof_metadata ∨
              sizeof_header + index * sizeof_metadata + sizeof_metadata ≤ q) →
            q + n ≤ db.fpdb.bytes.length →
            file_slice (lazily_resize env res db index).2.fpdb.bytes q n
              = file_slice db.fpdb.bytes q n)) ∧
    (∀ pict_id, index = read_find pict_id db (db.header.max_files + 1) 0 →
      ((db.metadata index).size.get res = 0 ∧ (db.metadata index).offset.get res = 0) →
      (do_read env pict_id res db).ret = ZERO →
      (lazily_resize env res db index).1 = ZERO ∧
      (do_read env pict_id res db).db.header = db.header ∧
      (do_read env pict_id res db).db.metadata = (lazily_resize env res db index).2.metadata ∧
      (do_read env pict_id res db).db.fpdb.bytes
        = (lazily_resize env res db index).2.fpdb.bytes) := by
  refine ⟨?_, ?_, ?_⟩
  · unfold lazily_resize
    rw [if_pos rfl]
  · intro hres hmiss hz
    obtain ⟨hlt, heq⟩ := lazily_resize_missing env res db index hres hmiss hz
    rw [heq] at hz ⊢
    obtain ⟨newContent, h1, h2, h3, h4, h5, h6, h7, h8, h9, h10, h11, h12, h13, h14⟩ :=
      create_image_zero_effect env res db index hres hlt hz
    exact ⟨hlt, newContent, h1, h2, h3, h4, h5, h6,
      fun hl => h6.trans (Nat.mod_eq_of_lt hl), h7, h8, h9, h10, h11, h12, h13, h14⟩
  · intro pict_id hindex hmiss hz
    obtain ⟨_, hl1, _, _, heq⟩ := do_read_zero_shape env pict_id res db index hindex _ rfl hz
    have hl : resize_if_missing env res db index = lazily_resize env res db index := by
      unfold resize_if_missing
      rw [if_pos (Or.inl hmiss.2)]
    rw [hl] at hl1 heq
    rw [heq]
    exact ⟨hl1, (lazily_resize_frame env res db index).1, rfl, rfl⟩

theorem one_db_thumbnail :
    ((one_db.metadata 0).size.get RES_THUMB = 0 ∧ (one_db.metadata 0).offset.get RES_THUMB = 0) ∧
      (lazily_resize toy_env RES_THUMB one_db 0).1 = ZERO ∧
      one_db.fpdb.bytes.length = 499 := by
  decide!

theorem materialise_frame_witness :
    (((one_db.metadata 0).size.get RES_THUMB = 0 ∧
          (one_db.metadata 0).offset.get RES_THUMB = 0) ∧
        (lazily_resize toy_env RES_THUMB one_db 0).1 = ZERO) ∧
      (lazily_resize toy_env RES_THUMB one_db 0).2.header = one_db.header :=
  ⟨⟨one_db_thumbnail.1, one_db_thumbnail.2.1⟩,
    (((materialise_frame toy_env RES_THUMB one_db 0).2.1 (Or.inr rfl) one_db_thumbnail.1
      one_db_thumbnail.2.1).2).elim (fun _ h => h.2.2.1)⟩

/-! ## The checks of `do_insert` and a failing probe -/

/-- C29: for every database state with `num_files == max_files`, `do_insert`
returns `ERR_FULL_DATABASE` and leaves the handle alone, whatever the given
identifier is, the identifier of a valid slot included; so `do_insert` returns
`ERR_DUPLICATE_ID` only when `num_files != max_files`. -/
theorem do_insert_check_order (env : externals) (img pict_id : List Nat) (db : pictdb_file) :
    (db.header.num_files = db.header.max_files →
      do_insert env img pict_id db = ( ERR_FULL_DATABASE, db)) ∧
    ((do_insert env img pict_id db).1 = ERR_DUPLICATE_ID →
      db.header.num_files ≠ db.header.max_files) := by
  have h1 : db.header.num_files = db.header.max_files →
      do_insert env img pict_id db = ( ERR_FULL_DATABASE, db) := by
    intro h
    unfold do_insert
    rw [if_pos h]
  refine ⟨h1, ?_⟩
  intro hd hfull
  rw [h1 hfull] at hd
  simp at hd

theorem two_db_full :
    two_db.header.num_files = two_db.header.max_files ∧
      (two_db.metadata 0).is_valid = NON_EMPTY ∧ (two_db.metadata 0).pict_id = [97] := by
  decide!

theorem do_insert_check_order_witness :
    (two_db.header.num_files = two_db.header.max_files ∧
        (two_db.metadata 0).is_valid = NON_EMPTY ∧ (two_db.metadata 0).pict_id = [97]) ∧
      do_insert toy_env [9] [97] two_db = ( ERR_FULL_DATABASE, two_db) :=
  ⟨two_db_full, (do_insert_check_order toy_env [9] [97] two_db).1 two_db_full.1⟩

theorem countP_range_update (p q : Nat → Bool) (index : Nat) (hold : p index = false)
    (hnew : q index = true) (hother : ∀ k, k ≠ index → q k = p k) (n : Nat) :
    (List.range n).countP q = (List.range n).countP p + (if index < n then 1 else 0) := by
  induction n with
  | zero => simp
  | succ n ih =>
    rw [List.range_succ, List.countP_append, List.countP_append, ih]
    by_cases hn : n = index
    · subst hn
      simp [hold, hnew]
    · rw [List.countP_singleton, List.countP_singleton, hother n hn]
      by_cases hlt : index < n
      · have : index < n + 1 := by omega
        simp [hlt, this]
        omega
      · have : ¬ index < n + 1 := by omega
        simp [hlt, this]

/-- Making valid a slot of the table that was not valid adds one to the number
of valid slots. -/
theorem count_valid_succ (db db1 : pictdb_file) (index : Nat)
    (hmax : db1.header.max_files = db.header.max_files) (hlt : index < db.header.max_files)
    (hold : (db.metadata index).is_valid ≠ NON_EMPTY)
    (hnew : (db1.metadata index).is_valid = NON_EMPTY)
    (hother : ∀ k, k ≠ index → (db1.metadata k).is_valid = (db.metadata k).is_valid) :
    count_valid db1 = count_valid db + 1 := by
  unfold count_valid
  rw [hmax, countP_range_update
    (fun i => decide ((db.metadata i).is_valid = NON_EMPTY))
    (fun i => decide ((db1.metadata i).is_valid = NON_EMPTY)) index (by simp [hold])
    (by simp [hnew]) (fun k hk => by simp only [hother k hk]) db.header.max_files, if_pos hlt]

/-- C30: when `do_insert` passes its two checks, no other valid slot has the
digest of the (non-empty) image and the probe of the codec fails, `do_insert`
returns the codec error `ERR_VIPS`; the header, `num_files` and `db_version`
included, is unchanged; the file is the old file followed by the image, so no
byte of the old file, header and slots included, is rewritten; the chosen slot
is `NON_EMPTY` in memory with the new `pict_id`, `SHA`, `size[RES_ORIG]` and
`offset[RES_ORIG]` (the old length of the file), and no other slot changes.
When the chosen slot is in the table the number of valid slots has grown by
one, so if `num_files` counted them before, it is now one less than their
number. -/
theorem do_insert_codec_failure (env : externals) (img pict_id : List Nat) (db : pictdb_file)
    (index : Nat) (hindex : index = insert_find_slot db db.header.max_files 0)
    (hroom : db.header.num_files ≠ db.header.max_files)
    (hfresh : insert_id_exists pict_id db db.header.max_files 0 = false)
    (hnosha : ∀ k, k < db.header.max_files → k ≠ index →
      (db.metadata k).is_valid = NON_EMPTY →
      compare_SHA (db.metadata k).SHA (env.SHA256 img) ≠ 0)
    (hne : img ≠ []) (hprobe : env.vips_size img = none) :
    (do_insert env img pict_id db).1 = ERR_VIPS ∧
    (do_insert env img pict_id db).2.header = db.header ∧
    (do_insert env img pict_id db).2.fpdb.bytes = db.fpdb.bytes ++ img ∧
    (∀ q n, q + n ≤ db.fpdb.bytes.length →
      file_slice (do_insert env img pict_id db).2.fpdb.bytes q n = file_slice db.fpdb.bytes q n) ∧
    (∀ k, k ≠ index → (do_insert env img pict_id db).2.metadata k = db.metadata k) ∧
    (do_insert env img pict_id db).2.metadata index =
      ⟨strncpy pict_id MAX_PIC_ID, env.SHA256 img, (db.metadata index).res_orig,
        ⟨0, 0, img.length % 2 ^ 32⟩, ⟨0, 0, db.fpdb.bytes.length⟩, NON_EMPTY,
        (db.metadata index).unused_16⟩ ∧
    (index < db.header.max_files →
      count_valid (do_insert env img pict_id db).2 = count_valid db + 1 ∧
      (count_inv db →
        (do_insert env img pict_id db).2.header.num_files + 1
          = count_valid (do_insert env img pict_id db).2)) := by
  have hfresh2 : ∀ j, j < db.header.max_files → (db.metadata j).is_valid = NON_EMPTY →
      strncmp (db.metadata j).pict_id pict_id MAX_PIC_ID ≠ 0 := fun j hj =>
    (insert_id_exists_eq_false pict_id db db.header.max_files 0).1 hfresh j (Nat.zero_le _)
      (by omega)
  have heq : do_insert env img pict_id db =
      ( ERR_VIPS, ⟨⟨db.fpdb.bytes ++ img, db.fpdb.bytes.length + img.length⟩, db.header,
        Function.update db.metadata index
          ⟨strncpy pict_id MAX_PIC_ID, env.SHA256 img, (db.metadata index).res_orig,
            ⟨0, 0, img.length % 2 ^ 32⟩, ⟨0, 0, db.fpdb.bytes.length⟩, NON_EMPTY,
            (db.metadata index).unused_16⟩⟩) := by
    rw [do_insert_unfold env img pict_id db index hindex _ rfl hroom hfresh]
    rcases dedup_populated env img pict_id db index hfresh2 with
      ⟨j, hj, hji, hvj, hsha, _, _⟩ | ⟨_, hd⟩
    · exact absurd hsha (hnosha j hj hji hvj)
    · rw [hd]
      simp only [ne_eq, not_true_eq_false, if_false]
      unfold update_memory_and_content
      rw [append_image_write img _ index (by rw [set_slot_metadata_same]; rfl) hne]
      simp only [ne_eq, not_true_eq_false, if_false]
      rw [write_resolutions_none env img _ index hprobe]
      simp [set_slot, res_array_set_orig]
  rw [heq]
  simp only [Function.update_same]
  refine ⟨trivial, trivial, trivial, fun q n h => file_slice_append_left _ _ _ _ h,
    fun k hk => Function.update_noteq hk _ _, trivial, ?_⟩
  intro hlt
  have hold : (db.metadata index).is_valid ≠ NON_EMPTY := by
    intro hv
    have he := insert_find_slot_exit db db.header.max_files 0 (by omega)
    rw [← hindex] at he
    exact he ⟨hlt, hv⟩
  have hc := count_valid_succ db
    ⟨⟨db.fpdb.bytes ++ img, db.fpdb.bytes.length + img.length⟩, db.header,
      Function.update db.metadata index
        ⟨strncpy pict_id MAX_PIC_ID, env.SHA256 img, (db.metadata index).res_orig,
          ⟨0, 0, img.length % 2 ^ 32⟩, ⟨0, 0, db.fpdb.bytes.length⟩, NON_EMPTY,
          (db.metadata index).unused_16⟩⟩ index rfl hlt hold
    (by simp only [Function.update_same])
    (fun k hk => by simp only [Function.update_noteq hk])
  refine ⟨hc, ?_⟩
  intro hcount
  rw [hc]
  exact congrArg (· + 1) hcount

theorem fresh_db_probe_fails :
    0 = insert_find_slot (fresh_db 2) (fresh_db 2).header.max_files 0 ∧
      (fresh_db 2).header.num_files ≠ (fresh_db 2).header.max_files ∧
      insert_id_exists [97] (fresh_db 2) (fresh_db 2).header.max_files 0 = false ∧
      (∀ k, k < (fresh_db 2).header.max_files → k ≠ 0 →
        ((fresh_db 2).metadata k).is_valid = NON_EMPTY →
        compare_SHA ((fresh_db 2).metadata k).SHA (failing_env.SHA256 [1, 2, 3]) ≠ 0) ∧
      failing_env.vips_size [1, 2, 3] = none ∧ 0 < (fresh_db 2).header.max_files ∧
      count_inv (fresh_db 2) := by
  decide!

theorem do_insert_codec_failure_witness :
    ((fresh_db 2).header.num_files ≠ (fresh_db 2).header.max_files ∧
        insert_id_exists [97] (fresh_db 2) (fresh_db 2).header.max_files 0 = false ∧
        failing_env.vips_size [1, 2, 3] = none) ∧
      (do_insert failing_env [1, 2, 3] [97] (fresh_db 2)).1 = ERR_VIPS ∧
      (do_insert failing_env [1, 2, 3] [97] (fresh_db 2)).2.header.num_files + 1
        = count_valid (do_insert failing_env [1, 2, 3] [97] (fresh_db 2)).2 :=
  ⟨⟨fresh_db_probe_fails.2.1, fresh_db_probe_fails.2.2.1, fresh_db_probe_fails.2.2.2.2.1⟩,
    (do_insert_codec_failure failing_env [1, 2, 3] [97] (fresh_db 2) 0 fresh_db_probe_fails.1
      fresh_db_probe_fails.2.1 fresh_db_probe_fails.2.2.1 fresh_db_probe_fails.2.2.2.1
      (by decide) fresh_db_probe_fails.2.2.2.2.1).1,
    ((do_insert_codec_failure failing_env [1, 2, 3] [97] (fresh_db 2) 0 fresh_db_probe_fails.1
      fresh_db_probe_fails.2.1 fresh_db_probe_fails.2.2.1 fresh_db_probe_fails.2.2.2.1
      (by decide) fresh_db_probe_fails.2.2.2.2.1).2.2.2.2.2.2
        fresh_db_probe_fails.2.2.2.2.2.1).2 fresh_db_probe_fails.2.2.2.2.2.2⟩

/-! ## A header that undercounts lets `do_insert` leave the table -/

theorem tombstone_db_reachable : reachable toy_env fits_uint32 tombstone_db :=
  reachable.delete two_db [97] two_db_reachable (by decide!)

theorem undercount_db_reachable : reachable toy_env fits_uint32 undercount_db :=
  reachable.delete tombstone_db [97] tombstone_db_reachable (by decide!)

theorem refilled_db_reachable : reachable toy_env fits_uint32 refilled_db :=
  reachable.insert undercount_db [6, 7] [99] undercount_db_reachable (by decide) (by decide!)

theorem overrun_db_reachable : reachable toy_env fits_uint32 overrun_db :=
  reachable.insert refilled_db [8, 9] [100] refilled_db_reachable (by decide) (by decide!)

/-- C28 on the code: `refilled_db` is reached from a successful `do_create` by
successful calls (`insert a`, `insert b`, `delete a`, `delete a`, `insert c`);
its two slots are valid and its header counts one picture.  A `do_insert` of
the new identifier `d` passes the full-database and the duplicate-id checks,
and the search for a free slot stops at `max_files`. -/
theorem insert_slot_out_of_range :
    reachable toy_env fits_uint32 refilled_db ∧
      refilled_db.header.num_files ≠ refilled_db.header.max_files ∧
      insert_id_exists [100] refilled_db refilled_db.header.max_files 0 = false ∧
      insert_find_slot refilled_db refilled_db.header.max_files 0
        = refilled_db.header.max_files ∧
      (do_insert toy_env [8, 9] [100] refilled_db).1 = ZERO ∧
      ((do_insert toy_env [8, 9] [100] refilled_db).2.metadata
        refilled_db.header.max_files).is_valid = NON_EMPTY :=
  ⟨refilled_db_reachable, by decide!⟩

/-- With `num_files == 0` the `STDOUT` branch of `do_list` prints the header
and the line of the empty database, and no slot. -/
theorem do_list_stdout_empty (file : pictdb_file) (h : file.header.num_files = 0) :
    do_list_stdout file = print_header file.header ++ ascii "<< empty database >>\n" := by
  unfold do_list_stdout
  rw [if_neg (not_not.2 h)]

/-- The claim C25 as stated fails: the text printed for the freshly created
database of capacity 10 with the resolutions `(64, 64)` and `(256, 256)` does
not contain `DB NAME: EPFL PictDB binary`, because `print_header` prints the
name with the conversion `%31s`, right justified in 31 characters. -/
theorem list_db_name_padded :
    (fresh_db 10).header.max_files = 10 ∧
      (fresh_db 10).header.res_resized = [64, 64, 256, 256] ∧
      ¬ (ascii "DB NAME: EPFL PictDB binary" <:+: do_list_stdout (fresh_db 10)) := by
  decide!

/-- C25 (amended): the text printed by `do_list(file, STDOUT)` for the freshly
created database of capacity 10 with the resolutions `(64, 64)` and
`(256, 256)` is the header followed by the line of the empty database; it
contains `DB NAME: ` followed by the name right justified in 31 characters
(13 spaces, then `EPFL PictDB binary`), it contains `IMAGE COUNT: 0`, exactly
one of its lines contains `empty database`, and it contains no slot record. -/
theorem do_list_stdout_fresh :
    do_list_stdout (fresh_db 10) =
        print_header (fresh_db 10).header ++ ascii "<< empty database >>\n" ∧
      do_list_stdout (fresh_db 10) =
        ascii ("*****************************************\n" ++
          "**********DATABASE HEADER START**********\n" ++
          "DB NAME:              EPFL PictDB binary\n" ++
          "VERSION: 0\n" ++
          "IMAGE COUNT: 0\t\tMAX IMAGES: 10\n" ++
          "THUMBNAIL: 64 x 64\tSMALL: 256 x 256\n" ++
          "***********DATABASE HEADER END***********\n" ++
          "*****************************************\n" ++
          "<< empty database >>\n") ∧
      ascii "DB NAME: " ++ List.replicate 13 32 ++ ascii "EPFL PictDB binary"
        <:+: do_list_stdout (fresh_db 10) ∧
      ascii "IMAGE COUNT: 0" <:+: do_list_stdout (fresh_db 10) ∧
      ((text_lines (do_list_stdout (fresh_db 10))).filter
        (fun l => decide (ascii "empty database" <:+: l))).length = 1 ∧
      ¬ (ascii "PICTURE ID: " <:+: do_list_stdout (fresh_db 10)) := by
  decide!

/-! ## The buffer returned in `JSON` mode -/

theorem c_string_ne_zero (s : List Nat) (b : Nat) (h : b ∈ c_string s) : b ≠ 0 := by
  unfold c_string at h
  have := List.mem_takeWhile_imp h
  simpa using this

/-- For every database state and every serialiser the buffer returned by the
`JSON` branch of `do_list` is the text without a terminator: it has as many
bytes as the text and none of them is zero. -/
theorem do_list_json_buffer (json_object_to_json_string : List (List Nat) → List Nat)
    (file : pictdb_file) :
    do_list_json json_object_to_json_string file
        = c_string (json_object_to_json_string (do_list_json_array file)) ∧
      (do_list_json json_object_to_json_string file).length
        = strlen (json_object_to_json_string (do_list_json_array file)) ∧
      ∀ b, b ∈ do_list_json json_object_to_json_string file → b ≠ 0 := by
  have h1 : do_list_json json_object_to_json_string file
      = c_string (json_object_to_json_string (do_list_json_array file)) := by
    unfold do_list_json strncpy_into calloc strlen
    simp
  refine ⟨h1, ?_, ?_⟩
  · rw [h1]
    rfl
  · rw [h1]
    exact fun b hb => c_string_ne_zero _ b hb

/-- C26 on the code: for the freshly created database of capacity 1 the JSON
text has 19 bytes and the buffer returned by `do_list(file, JSON)` has 19
bytes, not 20; its last byte is the closing brace, not a terminator. -/
theorem do_list_json_short :
    strlen (toy_json (do_list_json_array (fresh_db 1))) = 19 ∧
      (do_list_json toy_json (fresh_db 1)).length = 19 ∧
      (do_list_json toy_json (fresh_db 1)).length
        ≠ strlen (toy_json (do_list_json_array (fresh_db 1))) + 1 ∧
      (do_list_json toy_json (fresh_db 1)).getLast? = some 125 ∧
      do_list_json toy_json (fresh_db 1) = ascii "\x7b \"Pictures\": [ ] \x7d" := by
  decide!

/-! ## Reads are stable while `do_insert` stays in the table -/

theorem meta_inv_hoff (db : pictdb_file) (hm : meta_inv db) :
    ∀ j, j < db.header.max_files → (db.metadata j).is_valid = NON_EMPTY →
      (db.metadata j).offset.get RES_ORIG ≠ 0 := by
  intro j hj hv
  have := hm.2.1 j hj hv
  have := catalog_size_pos db
  omega

theorem read_inv_create (db : pictdb_file) : read_inv (do_create db).2 := by
  rw [do_create_eq]
  refine ⟨fun k _ => Or.inl rfl, ?_, ?_⟩
  · intro j _ hv
    simp [zero_metadata] at hv
  · intro j _ hv
    simp [zero_metadata] at hv

theorem read_inv_insert (env : externals) (P pict_id : List Nat) (db : pictdb_file)
    (hm : meta_inv db) (hinv : read_inv db) (hz : (do_insert env P pict_id db).1 = ZERO) :
    read_inv (do_insert env P pict_id db).2 := by
  obtain ⟨hbin, hzero, hup⟩ := hinv
  have hoff := meta_inv_hoff db hm
  obtain ⟨hmax, hlen, hoth, _⟩ := do_insert_zero_meta env P pict_id db _ rfl hoff hz
  by_cases hlt : insert_find_slot db db.header.max_files 0 < db.header.max_files
  · obtain ⟨_, f2, f3, f4, _, f6, _, f8, f9⟩ :=
      do_insert_scratch env P pict_id db _ rfl hm.1 hlt hoff hz
    have hpass := (insert_find_slot_passed db db.header.max_files 0).2
    refine ⟨?_, ?_, ?_⟩
    · intro k hk
      rw [hmax] at hk
      by_cases hki : k = insert_find_slot db db.header.max_files 0
      · rw [hki]
        exact Or.inr f3
      · rw [f2 k hki]
        exact hbin k hk
    · intro j hj hv hj0
      rw [hmax] at hj
      by_cases h0 : insert_find_slot db db.header.max_files 0 = 0
      · have hji : j ≠ insert_find_slot db db.header.max_files 0 := by omega
        rw [f2 j hji] at hv ⊢
        have h4 := f4
        rw [h0] at h4
        rw [h4]
        exact fun h => f8 j hj hv h.symm
      · have hv0 := (hpass 0 (Nat.le_refl _) (by omega)).2
        rw [f2 0 (fun h => h0 h.symm)]
        by_cases hji : j = insert_find_slot db db.header.max_files 0
        · rw [hji, f4]
          exact f8 0 (by omega) hv0
        · rw [f2 j hji] at hv ⊢
          exact hzero j hj hv hj0
    · intro j hj hv
      rw [hmax] at hj
      by_cases hji : j = insert_find_slot db db.header.max_files 0
      · rw [hji]
        rcases f9 with ⟨t, ht, _, hvt, _, hs, ho⟩ | ⟨_, hs, ho, _, hle⟩
        · rw [hs, ho]
          have := hup t ht hvt
          omega
        · rw [hs, ho]
          have := Nat.mod_le P.length (2 ^ 32)
          omega
      · rw [f2 j hji] at hv ⊢
        have := hup j hj hv
        omega
  · have hne : ∀ k, k < db.header.max_files → k ≠ insert_find_slot db db.header.max_files 0 :=
      fun k hk => by omega
    refine ⟨?_, ?_, ?_⟩
    · intro k hk
      rw [hmax] at hk
      rw [hoth k (hne k hk)]
      exact hbin k hk
    · intro j hj hv hj0
      rw [hmax] at hj
      rw [hoth j (hne j hj)] at hv ⊢
      rw [hoth 0 (hne 0 (by omega))]
      exact hzero j hj hv hj0
    · intro j hj hv
      rw [hmax] at hj
      rw [hoth j (hne j hj)] at hv ⊢
      have := hup j hj hv
      omega

/-- What a successful `do_delete` does, slot by slot: the slot it found is in
the table, carries the given name and becomes `EMPTY` with its other fields
kept; no other slot changes; `max_files` is kept; the file does not shrink and
no byte after the catalog changes. -/
theorem do_delete_zero_effect (picture_name : List Nat) (db : pictdb_file)
    (hz : (do_delete picture_name db).1 = ZERO) :
    ∃ index, index < db.header.max_files ∧ (db.metadata index).pict_id = picture_name ∧
      (do_delete picture_name db).2.header.max_files = db.header.max_files ∧
      (∀ k, k ≠ index → (do_delete picture_name db).2.metadata k = db.metadata k) ∧
      ((do_delete picture_name db).2.metadata index).is_valid = EMPTY ∧
      ((do_delete picture_name db).2.metadata index).pict_id = (db.metadata index).pict_id ∧
      db.fpdb.bytes.length ≤ (do_delete picture_name db).2.fpdb.bytes.length ∧
      ∀ q n, catalog_size db ≤ q →
        file_slice (do_delete picture_name db).2.fpdb.bytes q n = file_slice db.fpdb.bytes q n := by
  obtain ⟨_, hlt, heq⟩ := do_delete_zero_shape picture_name db hz
  have hex := delete_find_exit picture_name db (db.header.max_files + 1) 0 (by omega)
  have hid : (db.metadata (delete_find picture_name db (db.header.max_files + 1) 0)).pict_id
      = picture_name := by
    by_contra hne
    apply hex
    refine ⟨hlt, ?_⟩
    unfold strcmp
    rw [if_neg (fun h => hne h.symm)]
    decide
  have hslot := slot_end_le_catalog db _ hlt
  refine ⟨_, hlt, hid, ?_⟩
  rw [heq]
  simp only [Function.update_same]
  refine ⟨trivial, fun k hk => Function.update_noteq hk _ _, trivial, trivial,
    (write_at_length_ge _ _ _).trans (write_at_length_ge _ _ _), ?_⟩
  intro q n hq
  rw [file_slice_write_after _ _ _ _ _ (by
      rw [header_bytes_length]
      simp only [catalog_size, sizeof_header] at *
      omega),
    file_slice_write_after _ _ _ _ _ (by rw [metadata_bytes_length]; omega)]

theorem read_inv_delete (picture_name : List Nat) (db : pictdb_file) (hinv : read_inv db)
    (hz : (do_delete picture_name db).1 = ZERO) :
    read_inv (do_delete picture_name db).2 := by
  obtain ⟨hbin, hzero, hup⟩ := hinv
  obtain ⟨index, hlt, _, hmax, hoth, hemp, hpid, hlen, _⟩ :=
    do_delete_zero_effect picture_name db hz
  have hvalid : ∀ j, ((do_delete picture_name db).2.metadata j).is_valid = NON_EMPTY →
      j ≠ index := by
    intro j hv he
    rw [he, hemp] at hv
    exact absurd hv (by decide)
  have hpid0 : ((do_delete picture_name db).2.metadata 0).pict_id = (db.metadata 0).pict_id := by
    by_cases h0 : 0 = index
    · rw [← h0] at hpid
      exact hpid
    · rw [hoth 0 h0]
  refine ⟨?_, ?_, ?_⟩
  · intro k hk
    rw [hmax] at hk
    by_cases hki : k = index
    · rw [hki]
      exact Or.inl hemp
    · rw [hoth k hki]
      exact hbin k hk
  · intro j hj hv hj0
    rw [hmax] at hj
    have hji := hvalid j hv
    rw [hpid0]
    rw [hoth j hji] at hv ⊢
    exact hzero j hj hv hj0
  · intro j hj hv
    rw [hmax] at hj
    have hji := hvalid j hv
    rw [hoth j hji] at hv ⊢
    have := hup j hj hv
    omega

theorem read_inv_read (env : externals) (pict_id : List Nat) (res : Nat) (db : pictdb_file)
    (hinv : read_inv db) (hz : (do_read env pict_id res db).ret = ZERO) :
    read_inv (do_read env pict_id res db).db := by
  obtain ⟨hbin, hzero, hup⟩ := hinv
  obtain ⟨hh, hlen, _⟩ := do_read_zero_meta env pict_id res db hz
  have hf := do_read_zero_fields env pict_id res db hz
  refine ⟨?_, ?_, ?_⟩
  · intro k hk
    rw [hh] at hk
    rw [(hf k).2.2.1]
    exact hbin k hk
  · intro j hj hv hj0
    rw [hh] at hj
    rw [(hf j).2.2.1] at hv
    rw [(hf 0).1, (hf j).1]
    exact hzero j hj hv hj0
  · intro j hj hv
    rw [hh] at hj
    rw [(hf j).2.2.1] at hv
    rw [(hf j).2.2.2.1, (hf j).2.2.2.2.1]
    have := hup j hj hv
    omega

theorem reachable_read_inv (env : externals) (ok : List Nat → Prop) (db : pictdb_file)
    (h : reachable env ok db) : read_inv db := by
  induction h with
  | create db _ => exact read_inv_create db
  | insert db img pict_id hr _ hz ih =>
    exact read_inv_insert env img pict_id db (reachable_meta_inv env ok db hr) ih hz
  | delete db picture_name _ hz ih => exact read_inv_delete picture_name db ih hz
  | read db pict_id res _ hz ih => exact read_inv_read env pict_id res db ih hz

/-- Under the invariants the scan of `do_read` for the identifier of a valid
slot stops at that slot. -/
theorem read_find_valid (db : pictdb_file) (hm : meta_inv db) (hinv : read_inv db) (j : Nat)
    (hj : j < db.header.max_files) (hv : (db.metadata j).is_valid = NON_EMPTY) :
    read_find (db.metadata j).pict_id db (db.header.max_files + 1) 0 = j := by
  obtain ⟨hbin, hzero, _⟩ := hinv
  apply read_find_found _ _ j hj rfl _ _ (Nat.zero_le _) (by omega)
  · right
    rw [hv]
    decide
  · intro u _ huj hu
    by_cases hvu : (db.metadata u).is_valid = NON_EMPTY
    · exact hm.2.2.1 u (by omega) j hj ⟨hvu, hv, by omega⟩
    · rcases hu with h0 | hne
      · subst h0
        exact hzero j hj hv (by omega)
      · rcases hbin u (by omega) with he | hn
        · exact absurd he hne
        · exact absurd hn hvu

theorem do_read_orig_same (env : externals) (pict_id : List Nat) (db db1 : pictdb_file) (j : Nat)
    (hf : read_find pict_id db (db.header.max_files + 1) 0 = j) (hj : j < db.header.max_files)
    (hf1 : read_find pict_id db1 (db1.header.max_files + 1) 0 = j)
    (hj1 : j < db1.header.max_files)
    (hsz : (db.metadata j).size.get RES_ORIG ≠ 0)
    (hin : (db.metadata j).offset.get RES_ORIG + (db.metadata j).size.get RES_ORIG
      ≤ db.fpdb.bytes.length)
    (hoff1 : (db1.metadata j).offset.get RES_ORIG = (db.metadata j).offset.get RES_ORIG)
    (hsz1 : (db1.metadata j).size.get RES_ORIG = (db.metadata j).size.get RES_ORIG)
    (hlen : db.fpdb.bytes.length ≤ db1.fpdb.bytes.length)
    (hsl : file_slice db1.fpdb.bytes ((db.metadata j).offset.get RES_ORIG)
        ((db.metadata j).size.get RES_ORIG)
      = file_slice db.fpdb.bytes ((db.metadata j).offset.get RES_ORIG)
        ((db.metadata j).size.get RES_ORIG)) :
    (do_read env pict_id RES_ORIG db).ret = ZERO ∧
      (do_read env pict_id RES_ORIG db1).ret = ZERO ∧
      (do_read env pict_id RES_ORIG db1).pict_size
        = (do_read env pict_id RES_ORIG db).pict_size ∧
      (do_read env pict_id RES_ORIG db1).data = (do_read env pict_id RES_ORIG db).data := by
  obtain ⟨a1, a2, a3⟩ := do_read_orig_eq env pict_id db j hf hj hsz hin
  obtain ⟨b1, b2, b3⟩ := do_read_orig_eq env pict_id db1 j hf1 hj1 (by rw [hsz1]; exact hsz)
    (by rw [hoff1, hsz1]; omega)
  refine ⟨a1, b1, ?_, ?_⟩
  · rw [a2, b2, hsz1]
  · rw [a3, b3, hoff1, hsz1]
    exact hsl

/-- In every state reached from a successful `do_create` by successful calls
(inserted payloads shorter than `2 ^ 32` bytes), for the identifier of every
valid slot `do_read(id, RES_ORIG)` succeeds and returns the size and the bytes
stored for that slot; a successful `do_read` of any identifier and resolution,
a successful `do_delete` of another identifier, and a successful `do_insert`
whose search for a free slot stops inside the table, do not change the size
and the bytes that it returns. -/
theorem read_orig_stable (env : externals) (db : pictdb_file)
    (hr : reachable env fits_uint32 db) (j : Nat) (hj : j < db.header.max_files)
    (hv : (db.metadata j).is_valid = NON_EMPTY) :
    (do_read env (db.metadata j).pict_id RES_ORIG db).ret = ZERO ∧
    (do_read env (db.metadata j).pict_id RES_ORIG db).data = stored_orig db j ∧
    (∀ pict_id res, (do_read env pict_id res db).ret = ZERO →
      (do_read env (db.metadata j).pict_id RES_ORIG (do_read env pict_id res db).db).ret = ZERO ∧
      (do_read env (db.metadata j).pict_id RES_ORIG (do_read env pict_id res db).db).pict_size
        = (do_read env (db.metadata j).pict_id RES_ORIG db).pict_size ∧
      (do_read env (db.metadata j).pict_id RES_ORIG (do_read env pict_id res db).db).data
        = (do_read env (db.metadata j).pict_id RES_ORIG db).data) ∧
    (∀ picture_name, picture_name ≠ (db.metadata j).pict_id →
      (do_delete picture_name db).1 = ZERO →
      (do_read env (db.metadata j).pict_id RES_ORIG (do_delete picture_name db).2).ret = ZERO ∧
      (do_read env (db.metadata j).pict_id RES_ORIG (do_delete picture_name db).2).pict_size
        = (do_read env (db.metadata j).pict_id RES_ORIG db).pict_size ∧
      (do_read env (db.metadata j).pict_id RES_ORIG (do_delete picture_name db).2).data
        = (do_read env (db.metadata j).pict_id RES_ORIG db).data) ∧
    (∀ P pict_id, (do_insert env P pict_id db).1 = ZERO →
      insert_find_slot db db.header.max_files 0 < db.header.max_files →
      (do_read env (db.metadata j).pict_id RES_ORIG (do_insert env P pict_id db).2).ret = ZERO ∧
      (do_read env (db.metadata j).pict_id RES_ORIG (do_insert env P pict_id db).2).pict_size
        = (do_read env (db.metadata j).pict_id RES_ORIG db).pict_size ∧
      (do_read env (db.metadata j).pict_id RES_ORIG (do_insert env P pict_id db).2).data
        = (do_read env (db.metadata j).pict_id RES_ORIG db).data) := by
  have hm := reachable_meta_inv env fits_uint32 db hr
  have hinv := reachable_read_inv env fits_uint32 db hr
  have hsize : (db.metadata j).size.get RES_ORIG ≠ 0 := by
    have := reachable_orig_size_inv env db hr j hj hv
    omega
  have hin := hinv.2.2 j hj hv
  have hreg := hm.2.1 j hj hv
  have hfind := read_find_valid db hm hinv j hj hv
  have hoff := meta_inv_hoff db hm
  obtain ⟨a1, _, a3⟩ := do_read_orig_eq env (db.metadata j).pict_id db j hfind hj hsize hin
  refine ⟨a1, a3, ?_, ?_, ?_⟩
  · intro pict_id res hz
    have hm1 := meta_inv_read env pict_id res db hm hz
    have hinv1 := read_inv_read env pict_id res db hinv hz
    obtain ⟨hh, hlen, _⟩ := do_read_zero_meta env pict_id res db hz
    have hf := do_read_zero_fields env pict_id res db hz j
    have hj1 : j < (do_read env pict_id res db).db.header.max_files := by rw [hh]; exact hj
    have hfind1 := read_find_valid _ hm1 hinv1 j hj1 (by rw [hf.2.2.1]; exact hv)
    rw [hf.1] at hfind1
    exact (do_read_orig_same env _ db _ j hfind hj hfind1 hj1 hsize hin hf.2.2.2.1
      hf.2.2.2.2.1 hlen (do_read_payload_slice env pict_id res db hz _ _ hreg hin)).2
  · intro picture_name hne hz
    have hm1 := meta_inv_delete picture_name db hm hz
    have hinv1 := read_inv_delete picture_name db hinv hz
    obtain ⟨index, _, hpid, hmax, hoth, _, _, hlen, hsl⟩ :=
      do_delete_zero_effect picture_name db hz
    have hji : j ≠ index := by
      intro he
      rw [← he] at hpid
      exact hne hpid.symm
    have hj1 : j < (do_delete picture_name db).2.header.max_files := by rw [hmax]; exact hj
    have hfind1 := read_find_valid _ hm1 hinv1 j hj1 (by rw [hoth j hji]; exact hv)
    rw [hoth j hji] at hfind1
    exact (do_read_orig_same env _ db _ j hfind hj hfind1 hj1 hsize hin (by rw [hoth j hji])
      (by rw [hoth j hji]) hlen (hsl _ _ hreg)).2
  · intro P pict_id hz hlt
    have hm1 := meta_inv_insert env P pict_id db hm hz
    have hinv1 := read_inv_insert env P pict_id db hm hinv hz
    obtain ⟨f1, f2, _, _, _, f6, f7, _, _⟩ :=
      do_insert_scratch env P pict_id db _ rfl hm.1 hlt hoff hz
    have hji : j ≠ insert_find_slot db db.header.max_files 0 := by
      intro he
      have hex := insert_find_slot_exit db db.header.max_files 0 (by omega)
      rw [← he] at hex
      exact hex ⟨hj, hv⟩
    have hj1 : j < (do_insert env P pict_id db).2.header.max_files := by
      rw [f1]
      exact hj
    have hfind1 := read_find_valid _ hm1 hinv1 j hj1 (by rw [f2 j hji]; exact hv)
    rw [f2 j hji] at hfind1
    exact (do_read_orig_same env _ db _ j hfind hj hfind1 hj1 hsize hin (by rw [f2 j hji])
      (by rw [f2 j hji]) f6 (f7 _ _ hreg hin)).2

end PictDB
